import Mathlib

/-!
Filipino-music: cluster status and session resumption.

A shallow embedding of

* the liveness flag computed by the `botstatus` and `clusterstats` commands
  (`src/commands/dev/BotStatus.js`, `src/commands/dev/ClusterStats.js`), and
* `resumePlayers` of `src/managers/LavalinkHandler.js`, the start-up procedure
  that rebuilds players from saved snapshots.

`resumePlayers` is effectful: it talks to the Discord cache, to the Lavalink
player and to the player store.  It is embedded as a function that returns the
ordered list of external calls it issues (`Call`), given the outcome of every
call site (`Outcomes`): whether the awaited call resolves or throws, and what a
search returns.  Logging is left out of the trace.
-/

namespace FilipinoMusic

/-! ## Liveness flag of the cluster-status commands -/

/-- A JavaScript number as far as timestamps need it: an integer, or `NaN` (`none`). -/
abbrev JsNum := Option Int

/-- JavaScript `a - b`: `NaN` as soon as one operand is `NaN`. -/
def jsSub : JsNum → JsNum → JsNum
  | some a, some b => some (a - b)
  | _, _ => none

/-- JavaScript `a < b`: every comparison with `NaN` is false. -/
def jsLt : JsNum → JsNum → Bool
  | some a, some b => decide (a < b)
  | _, _ => false

/-- The fields of a bot status document read by the liveness test.
`lastHeartbeat` is the value of `new Date(bot.lastHeartbeat).getTime()`:
milliseconds since the epoch, or `NaN` for a missing or invalid date. -/
structure BotStatusDoc where
  status : String
  lastHeartbeat : JsNum
  deriving DecidableEq, Repr

namespace BotStatusCommand

/-- Lines 63-64 of `BotStatus.js`, with `now` the value of `Date.now()`. -/
def isOnline (now : Int) (bot : BotStatusDoc) : Bool :=
  bot.status != "Offline" && jsLt (jsSub (some now) bot.lastHeartbeat) (some 60000)

/-- Lines 60-66 of `BotStatus.js`: the number of bots counted as online. -/
def onlineBots (now : Int) (botStatuses : List BotStatusDoc) : Nat :=
  botStatuses.foldl (fun n bot => if isOnline now bot then n + 1 else n) 0

end BotStatusCommand

namespace ClusterStats

/-- Lines 59-60 of `ClusterStats.js`, with `now` the value of `Date.now()`. -/
def isOnline (now : Int) (bot : BotStatusDoc) : Bool :=
  bot.status != "Offline" && jsLt (jsSub (some now) bot.lastHeartbeat) (some 60000)

/-- Lines 55-62 of `ClusterStats.js`: the number of bots counted as online. -/
def onlineBots (now : Int) (botStatuses : List BotStatusDoc) : Nat :=
  botStatuses.foldl (fun n bot => if isOnline now bot then n + 1 else n) 0

end ClusterStats

/-! ## Saved snapshots -/

/-- The `info` object of a saved track, as far as `resumePlayers` reads it.
A field that is absent (`undefined`) is `none`. -/
structure TrackInfo where
  uri : Option String
  title : Option String
  deriving DecidableEq, Repr

/-- The stored requester of a track (the output of `requesterTransformer`). -/
structure Requester where
  id : String
  deriving DecidableEq, Repr

/-- A track as stored in a snapshot: `info` and `requester`. -/
structure SavedTrack where
  info : Option TrackInfo
  requester : Option Requester
  deriving DecidableEq, Repr

/-- A saved player document, as written by `savePlayerState`. -/
structure SavedPlayer where
  _id : String
  voiceChannelId : String
  textChannelId : String
  volume : Int
  loopMode : String
  paused : Bool
  twentyFourSeven : Bool
  autoPlay : Bool
  position : Int
  currentTrack : Option SavedTrack
  queue : List SavedTrack
  deriving DecidableEq, Repr

/-- A track returned by a Lavalink search. -/
structure Track where
  encoded : String
  deriving DecidableEq, Repr

/-! ## The world around `resumePlayers` -/

/-- A cached guild: its name and the ids present in `guild.channels.cache`. -/
structure Guild where
  name : String
  channels : List String
  deriving DecidableEq, Repr

/-- The bot client: `guilds s` is `client.guilds.cache.get(s)`. -/
structure Client where
  guilds : String → Option Guild

/-- What `player.search` does for one track: it resolves with a result whose
`tracks` is the given list, or it throws. -/
inductive SearchOutcome where
  | fulfilled (tracks : List Track)
  | rejected
  deriving DecidableEq, Repr

/-- The outcome of every awaited call site while one snapshot is processed:
`true` when the call resolves, `false` when it throws.  `search k` is the
outcome of the search for entry `k` of `tracksToLoad`, `queueAddOk k` the
outcome of the `k`-th `player.queue.add`.  `markDestroyedOk` is the call
inside the `try` block, `markDestroyedCatchOk` the one in the `catch`
handler. -/
structure Outcomes where
  createPlayerOk : Bool
  connectOk : Bool
  search : Nat → SearchOutcome
  queueAddOk : Nat → Bool
  playOk : Bool
  seekOk : Bool
  pauseOk : Bool
  destroyOk : Bool
  markDestroyedOk : Bool
  markDestroyedCatchOk : Bool

/-- The external calls `resumePlayers` issues.  Player calls carry the guild
id of the player they are made on.  `getGuild` is the cache lookup that opens
every iteration; the two channel lookups that follow it are not recorded.
Whatever the library runs inside a call (such as the `onPlayerDestroy` hook
inside `destroy`) is part of that call. -/
inductive Call where
  | getGuild (guildId : String)
  | markDestroyed (guildId : String)
  | createPlayer (guildId voiceChannelId textChannelId : String) (selfDeaf : Bool) (volume : Int)
  | connect (guildId : String)
  | setVolume (guildId : String) (volume : Int)
  | setRepeatMode (guildId : String) (mode : String)
  | set (guildId : String) (key : String) (value : Bool)
  | search (guildId : String) (query : Option String) (requester : Option Requester)
  | queueAdd (guildId : String) (track : Track)
  | play (guildId : String)
  | seek (guildId : String) (position : Int)
  | pause (guildId : String)
  | destroy (guildId : String)
  deriving DecidableEq, Repr

/-- The result of running a block of code: the calls it issued, in order, and
whether it ended by throwing. -/
structure Run where
  calls : List Call
  threw : Bool
  deriving DecidableEq, Repr

/-- The block that does nothing. -/
def Run.done : Run := ⟨[], false⟩

/-- Issue the calls `cs`, none of which throws, then go on with `rest`. -/
def Run.andThen (cs : List Call) (rest : Run) : Run := ⟨cs ++ rest.calls, rest.threw⟩

/-- Issue the awaited call `c`: go on with `rest` when it resolves, throw when
it does not. -/
def Run.call (c : Call) (ok : Bool) (rest : Run) : Run :=
  if ok then Run.andThen [c] rest else ⟨[c], true⟩

/-! ## `resumePlayers` -/

/-- JavaScript truthiness of a value that is a string or `undefined`. -/
def truthy : Option String → Bool
  | some str => str != ""
  | none => false

/-- JavaScript `a || b` on values that are strings or `undefined`. -/
def jsOr (a b : Option String) : Option String :=
  if truthy a then a else b

/-- An entry of `tracksToLoad` (lines 276-280 and 285-289). -/
structure TrackToLoad where
  query : Option String
  requester : Option Requester
  isCurrent : Bool
  deriving DecidableEq, Repr

/-- The expression `track.info?.uri || track.info?.title` of lines 277 and 286. -/
def trackQuery (t : SavedTrack) : Option String :=
  jsOr (t.info.bind (fun i => i.uri)) (t.info.bind (fun i => i.title))

/-- Lines 272-290: the current track first, then the queue. -/
def tracksToLoad (s : SavedPlayer) : List TrackToLoad :=
  (match s.currentTrack with
    | some t => [⟨trackQuery t, t.requester, true⟩]
    | none => []) ++
  s.queue.map (fun t => ⟨trackQuery t, t.requester, false⟩)

/-- An element of `loadedTracks`: `{ track, isCurrent }`. -/
structure Loaded where
  track : Track
  isCurrent : Bool
  deriving DecidableEq, Repr

/-- An entry of the array `Promise.allSettled` resolves with. -/
inductive Settled where
  | fulfilled (value : Option Loaded)
  | rejected
  deriving DecidableEq, Repr

/-- The async callback of lines 299-305, given what `player.search` does. -/
def searchTrack (out : SearchOutcome) (t : TrackToLoad) : Settled :=
  match out with
  | .rejected => .rejected
  | .fulfilled [] => .fulfilled none
  | .fulfilled (tr :: _) => .fulfilled (some ⟨tr, t.isCurrent⟩)

/-- Lines 298-306 for the batch that starts at index `i` of `tracksToLoad`. -/
def searchBatch (search : Nat → SearchOutcome) (i : Nat) (batch : List TrackToLoad) :
    List Settled :=
  (batch.enumFrom i).map (fun kt => searchTrack (search kt.1) kt.2)

/-- Lines 308-312: the fulfilled, non-null results, in order. -/
def collectLoaded (results : List Settled) : List Loaded :=
  results.filterMap (fun r =>
    match r with
    | .fulfilled (some v) => some v
    | _ => none)

/-- The `player.search` call issued for an entry of `tracksToLoad` (line 300). -/
def searchCall (guildId : String) (t : TrackToLoad) : Call :=
  .search guildId t.query t.requester

/-- The constant `batchSize` of line 293. -/
def batchSize : Nat := 5

/-- One pass of the loop of lines 296-313.  `batch.map` runs every callback up
to its `await player.search(...)`, so the searches of the batch are issued, in
order, before the loop suspends at `await Promise.allSettled(...)`; that
promise resolves with one settled result per search, and only then does the
next pass begin. -/
structure Round where
  searches : List Call
  results : List Settled
  deriving DecidableEq, Repr

/-- The batch loop of lines 296-313, from index `i` on, with the passes made
so far and the tracks loaded so far. -/
def loadTracks (guildId : String) (search : Nat → SearchOutcome) (toLoad : List TrackToLoad)
    (i : Nat) (rounds : List Round) (loaded : List Loaded) : List Round × List Loaded :=
  if i < toLoad.length then
    let batch := (toLoad.drop i).take batchSize
    let results := searchBatch search i batch
    loadTracks guildId search toLoad (i + batchSize)
      (rounds ++ [⟨batch.map (searchCall guildId), results⟩]) (loaded ++ collectLoaded results)
  else
    (rounds, loaded)
termination_by toLoad.length - i
decreasing_by
  simp only [batchSize]
  omega

/-- Lines 317-319: `await player.queue.add(track)` for every loaded track, the
first of them being add number `k`; then `rest`. -/
def addAll (guildId : String) (ok : Nat → Bool) (k : Nat) : List Loaded → Run → Run
  | [], rest => rest
  | l :: ls, rest => Run.call (.queueAdd guildId l.track) (ok k) (addAll guildId ok (k + 1) ls rest)

/-- Lines 339-340 and 345-346: destroy the player, then tombstone the snapshot. -/
def destroyAndMark (o : Outcomes) (s : SavedPlayer) : Run :=
  Run.call (.destroy s._id) o.destroyOk (Run.call (.markDestroyed s._id) o.markDestroyedOk Run.done)

/-- Lines 315-336: enqueue the loaded tracks, play, seek, pause. -/
def startPlayback (o : Outcomes) (s : SavedPlayer) (loaded : List Loaded) : Run :=
  addAll s._id o.queueAddOk 0 loaded
    (Run.call (.play s._id) o.playOk
      ((if s.currentTrack.isSome && decide (s.position > 0) then
          Run.call (.seek s._id s.position) o.seekOk
        else id)
        (if s.paused then Run.call (.pause s._id) o.pauseOk Run.done else Run.done)))

/-- Lines 270-350: restore the queue of the player just created. -/
def restoreQueue (o : Outcomes) (s : SavedPlayer) : Run :=
  if s.currentTrack.isSome || decide (s.queue.length > 0) then
    let r := loadTracks s._id o.search (tracksToLoad s) 0 [] []
    Run.andThen (r.1.map Round.searches).flatten
      (if r.2.length > 0 then startPlayback o s r.2 else destroyAndMark o s)
  else if !s.twentyFourSeven then
    destroyAndMark o s
  else
    Run.done

/-- Lines 243-268: create the player, connect, restore the settings.
`setVolume`, `setRepeatMode` and `set` are not awaited. -/
def createAndRestore (o : Outcomes) (s : SavedPlayer) : Run :=
  Run.call (.createPlayer s._id s.voiceChannelId s.textChannelId true s.volume) o.createPlayerOk
    (Run.call (.connect s._id) o.connectOk
      (Run.andThen
        ([.setVolume s._id s.volume] ++
          (if s.loopMode != "off" then [.setRepeatMode s._id s.loopMode] else []) ++
          (if s.twentyFourSeven then [.set s._id "twentyFourSeven" true] else []) ++
          (if s.autoPlay then [.set s._id "autoplay" true] else []))
        (restoreQueue o s)))

/-- The body of the inner `try` (lines 228-350) for one snapshot. -/
def tryBody (client : Client) (o : Outcomes) (s : SavedPlayer) : Run :=
  Run.andThen [.getGuild s._id]
    (match client.guilds s._id with
      | none => Run.done
      | some guild =>
        if !guild.channels.contains s.voiceChannelId || !guild.channels.contains s.textChannelId then
          Run.call (.markDestroyed s._id) o.markDestroyedOk Run.done
        else
          createAndRestore o s)

/-- One iteration of the loop of line 226: the `try` body, and when it threw,
the `catch` handler of lines 351-354, whose `markDestroyed` is awaited outside
of any inner `try`. -/
def resumeOne (client : Client) (o : Outcomes) (s : SavedPlayer) : Run :=
  let r := tryBody client o s
  if r.threw then
    ⟨r.calls ++ [.markDestroyed s._id], !o.markDestroyedCatchOk⟩
  else
    r

/-! ## Reading a trace -/

/-- The tracks passed to `player.queue.add` for guild `guildId`, in call order. -/
def queueAdds (guildId : String) (calls : List Call) : List Track :=
  calls.filterMap (fun c =>
    match c with
    | .queueAdd g tr => if g = guildId then some tr else none
    | _ => none)

/-- The query and requester of every `player.search` issued for guild
`guildId`, in call order. -/
def searchesOf (guildId : String) (calls : List Call) : List (Option String × Option Requester) :=
  calls.filterMap (fun c =>
    match c with
    | .search g q r => if g = guildId then some (q, r) else none
    | _ => none)

/-- The first track of a search result, when the search resolved with at
least one track. -/
def firstTrack : SearchOutcome → Option Track
  | .fulfilled (tr :: _) => some tr
  | _ => none

/-- The tracks of a snapshot in the order `[currentTrack] ++ queue`. -/
def savedTracks (s : SavedPlayer) : List SavedTrack :=
  s.currentTrack.toList ++ s.queue

/-- The locator of a track in the words of the specification: `info.uri` when
it is present and non-empty, otherwise `info.title`. -/
def locatorSpec (t : SavedTrack) : Option String :=
  match t.info with
  | none => none
  | some i =>
    match i.uri with
    | some u => if u = "" then i.title else some u
    | none => i.title

/-- The loop of lines 226-355 over the snapshots from position `i` on; `outs k`
gives the outcomes of the calls made for the snapshot at position `k`.  An
exception that leaves an iteration ends the loop. -/
def resumeLoop (client : Client) (outs : Nat → Outcomes) : Nat → List SavedPlayer → Run
  | _, [] => Run.done
  | i, s :: rest =>
    let r := resumeOne client (outs i) s
    if r.threw then r else Run.andThen r.calls (resumeLoop client outs (i + 1) rest)

/-- The function `resumePlayers` (lines 214-359): `found` is what
`PlayerSchema.findActiveByBot(client.botId)` resolves with (or the error it
throws).  The outer `catch` swallows whatever is thrown, so the result is the
list of calls issued. -/
def resumePlayers (client : Client) (found : Except String (List SavedPlayer))
    (outs : Nat → Outcomes) : List Call :=
  match found with
  | .error _ => []
  | .ok savedPlayers =>
    if savedPlayers.length = 0 then [] else (resumeLoop client outs 0 savedPlayers).calls

/-- The calls of lines 228-268 when the guild and both channels are cached
and `createPlayer` and `connect` resolve. -/
def setupCalls (s : SavedPlayer) : List Call :=
  [.getGuild s._id,
   .createPlayer s._id s.voiceChannelId s.textChannelId true s.volume,
   .connect s._id,
   .setVolume s._id s.volume] ++
  (if s.loopMode != "off" then [.setRepeatMode s._id s.loopMode] else []) ++
  (if s.twentyFourSeven then [.set s._id "twentyFourSeven" true] else []) ++
  (if s.autoPlay then [.set s._id "autoplay" true] else [])

/-- The value of `loadedTracks` once the batch loop has ended. -/
def loadedOf (o : Outcomes) (s : SavedPlayer) : List Loaded :=
  (loadTracks s._id o.search (tracksToLoad s) 0 [] []).2

/-! ## The player queue -/

/-- The queue of a Lavalink player: the track being played and the tracks
waiting. -/
structure PlayerQueue where
  current : Option Track
  tracks : List Track
  deriving DecidableEq, Repr

/-- Modelled from the spec: the queue of the audio backend's player, which is
library code outside this repository.  `queue.add` appends a track to the
waiting tracks; `play` without a track takes the first waiting track as the
current one when nothing is current. -/
def applyCall (guildId : String) (q : PlayerQueue) : Call → PlayerQueue
  | .queueAdd g tr => if g = guildId then ⟨q.current, q.tracks ++ [tr]⟩ else q
  | .play g =>
    if g = guildId then
      match q.current, q.tracks with
      | none, tr :: rest => ⟨some tr, rest⟩
      | _, _ => q
    else q
  | _ => q

/-- The queue of the player of guild `guildId` after the calls of a trace
(every one of them having resolved), starting from a fresh player. -/
def queueAfter (guildId : String) (calls : List Call) : PlayerQueue :=
  calls.foldl (applyCall guildId) ⟨none, []⟩

/-! ## Concrete scenarios -/

/-- A client whose cache holds guild 42 (channels `voice` and `text`) and
guild 43 (channel `text` only). -/
def exampleClient : Client :=
  ⟨fun g =>
    if g = "42" then some ⟨"Guild 42", ["voice", "text"]⟩
    else if g = "43" then some ⟨"Guild 43", ["text"]⟩
    else none⟩

/-- Every awaited call resolves; searches behave as `search` says. -/
def allResolve (search : Nat → SearchOutcome) : Outcomes :=
  ⟨true, true, search, fun _ => true, true, true, true, true, true, true⟩

/-- A saved track with the given uri, no title and no requester. -/
def savedTrackOf (u : String) : SavedTrack := ⟨some ⟨some u, none⟩, none⟩

/-- A snapshot of guild 42 with five queued tracks and no current track. -/
def fiveQueued : SavedPlayer :=
  ⟨"42", "voice", "text", 80, "off", false, false, false, 0, none,
    [savedTrackOf "u0", savedTrackOf "u1", savedTrackOf "u2", savedTrackOf "u3",
      savedTrackOf "u4"]⟩

/-- Searches 0, 1 and 3 resolve to one track each, search 2 throws and search
4 resolves with no track. -/
def failAt2And4 : Nat → SearchOutcome
  | 0 => .fulfilled [⟨"r0"⟩]
  | 1 => .fulfilled [⟨"r1"⟩]
  | 3 => .fulfilled [⟨"r3"⟩]
  | 4 => .fulfilled []
  | _ => .rejected

/-- Every search resolves with no track. -/
def noResults : Nat → SearchOutcome := fun _ => .fulfilled []

/-- Every search resolves with one track. -/
def oneResult : Nat → SearchOutcome := fun _ => .fulfilled [⟨"r"⟩]

/-- A snapshot of guild 42 without tracks. -/
def emptySnapshot (twentyFourSeven : Bool) : SavedPlayer :=
  ⟨"42", "voice", "text", 80, "off", false, twentyFourSeven, false, 0, none, []⟩

/-- A snapshot of guild 42 with one queued track. -/
def oneQueued (twentyFourSeven : Bool) : SavedPlayer :=
  ⟨"42", "voice", "text", 80, "off", false, twentyFourSeven, false, 0, none, [savedTrackOf "u0"]⟩

/-- A snapshot of guild 43 whose voice channel is not in the guild. -/
def channelGone : SavedPlayer :=
  ⟨"43", "voice", "text", 80, "off", false, false, false, 0, none, [savedTrackOf "u0"]⟩

/-- A snapshot of guild 99, which is not in the cache of `exampleClient`. -/
def guildGone : SavedPlayer :=
  ⟨"99", "voice", "text", 80, "off", false, false, false, 0, none, [savedTrackOf "u0"]⟩

/-- Every call resolves except `player.play`. -/
def playThrows : Outcomes :=
  ⟨true, true, oneResult, fun _ => true, false, true, true, true, true, true⟩

/-- The store is unreachable: both `markDestroyed` calls throw. -/
def storeDown : Outcomes :=
  ⟨true, true, oneResult, fun _ => true, true, true, true, true, false, false⟩

/-- The store is unreachable while the first snapshot is processed; every
call made for a later snapshot resolves. -/
def storeDownFirst : Nat → Outcomes
  | 0 => storeDown
  | _ => allResolve oneResult

/-- The snapshot of the example scenario of the specification: guild 42,
volume 80, loop mode `queue`, current track `u1`, queue `u2`, `u3`. -/
def scenario42 (autoPlay : Bool) (position : Int) : SavedPlayer :=
  ⟨"42", "voice", "text", 80, "queue", false, false, autoPlay, position,
    some (savedTrackOf "u1"), [savedTrackOf "u2", savedTrackOf "u3"]⟩

/-- The three locators of the example scenario resolve to `r1`, `r2`, `r3`. -/
def resolve123 : Nat → SearchOutcome
  | 0 => .fulfilled [⟨"r1"⟩]
  | 1 => .fulfilled [⟨"r2"⟩]
  | 2 => .fulfilled [⟨"r3"⟩]
  | _ => .rejected

/-! ## The batches of the search loop -/

/-- The slices `tracksToLoad.slice(i, i + batchSize)` the loop of lines 296-297
takes, one per iteration, from index `i` on. -/
def batchesFrom (toLoad : List TrackToLoad) (i : Nat) : List (List TrackToLoad) :=
  if i < toLoad.length then
    ((toLoad.drop i).take batchSize) :: batchesFrom toLoad (i + batchSize)
  else
    []
termination_by toLoad.length - i
decreasing_by
  simp only [batchSize]
  omega

/-- One iteration of the loop of lines 296-313 on the batch that starts at
index `st.1`: the searches of the batch are issued, the settled results are
collected, and the index moves on by `batchSize`. -/
def batchStep (guildId : String) (search : Nat → SearchOutcome)
    (st : Nat × List Round × List Loaded) (batch : List TrackToLoad) :
    Nat × List Round × List Loaded :=
  (st.1 + batchSize,
    st.2.1 ++ [⟨batch.map (searchCall guildId), searchBatch search st.1 batch⟩],
    st.2.2 ++ collectLoaded (searchBatch search st.1 batch))

/-- The searches of the passes of the batch loop on `toLoad`, pass by pass. -/
def searchRounds (guildId : String) (search : Nat → SearchOutcome)
    (toLoad : List TrackToLoad) : List (List Call) :=
  (loadTracks guildId search toLoad 0 [] []).1.map Round.searches

/-- The guild a call is made for. -/
def Call.guildId : Call → String
  | .getGuild g => g
  | .markDestroyed g => g
  | .createPlayer g _ _ _ _ => g
  | .connect g => g
  | .setVolume g _ => g
  | .setRepeatMode g _ => g
  | .set g _ _ => g
  | .search g _ _ => g
  | .queueAdd g _ => g
  | .play g => g
  | .seek g _ => g
  | .pause g => g
  | .destroy g => g

/-! ## The player store -/

/-- A document of the player store: the snapshot, the bot that owns it and
the tombstone flag. -/
structure StoredPlayer where
  doc : SavedPlayer
  botId : String
  destroyed : Bool
  deriving DecidableEq, Repr

/-- Modelled from the spec: `PlayerSchema.findActiveByBot`, whose file
`schemas/Player.js` is not among the sources.  In the words of the
specification it "returns all non-destroyed snapshots owned by a given
worker". -/
def findActiveByBot (store : List StoredPlayer) (botId : String) : List SavedPlayer :=
  (store.filter (fun d => d.botId == botId && !d.destroyed)).map (fun d => d.doc)

/-- A snapshot of guild 42 with current track `u1`, one queued track `u2` and
a stored position of 5000 ms. -/
def currentAndQueued : SavedPlayer :=
  ⟨"42", "voice", "text", 80, "off", false, false, false, 5000,
    some (savedTrackOf "u1"), [savedTrackOf "u2"]⟩

/-- The search for the current track throws; the search for the queued track
resolves to `r2`. -/
def currentFails : Nat → SearchOutcome
  | 1 => .fulfilled [⟨"r2"⟩]
  | _ => .rejected

/-- A store with a tombstoned snapshot of guild 42 and a live snapshot of
guild 43, both owned by `bot-1`. -/
def exampleStore : List StoredPlayer :=
  [⟨oneQueued false, "bot-1", true⟩, ⟨channelGone, "bot-1", false⟩]

/-! ## The reassign command -/

/-- JavaScript `a || b` where `a` is a string or `undefined` and `b` a string. -/
def jsOrStr (a : Option String) (b : String) : String :=
  match a with
  | some x => if x != "" then x else b
  | none => b

/-- A bot client of `botCluster` as `Reassign.run` reads it.  `lavalinkNodes`
is the value of `targetClient.lavalink?.nodeManager?.nodes?.size`, `none` when
a link of the chain is missing. -/
structure ClusterBot where
  botName : String
  ready : Bool
  lavalinkNodes : Option Nat
  deriving DecidableEq, Repr

/-- What `loadBalancer.forceAssign` does when it is called: it resolves with
`{ success, message }` or it throws. -/
inductive ForceAssignOutcome where
  | result (success : Bool) (message : String)
  | threw
  deriving DecidableEq, Repr

/-- The message `Reassign.run` sends back. -/
inductive ReassignReply where
  | missingArgument
  | botNotFound
  | botOffline
  | lavalinkWarning
  | reassignmentFailed (message : String)
  | guildReassigned
  | error
  deriving DecidableEq, Repr

/-- The reply of `Reassign.run` and the `(guildId, targetBotId)` pairs it
called `loadBalancer.forceAssign` with. -/
structure ReassignResult where
  reply : ReassignReply
  forceAssignCalls : List (String × String)
  deriving DecidableEq, Repr

/-- The method `Reassign.run` (lines 58-165 of `Reassign.js`).  `targetBotId`
is the value of lines 59-61, `guildArg` the guild option or `args[1]`,
`ctxGuildId` is `ctx.guild.id`; `botCluster` and `forceAssign` come from
`orchestrator.js`, which is not among the sources, and are parameters. -/
def Reassign.run (botCluster : String → Option ClusterBot)
    (forceAssign : String → String → ForceAssignOutcome)
    (targetBotId guildArg : Option String) (ctxGuildId : String) : ReassignResult :=
  let guildId := jsOrStr guildArg ctxGuildId
  match targetBotId with
  | none => ⟨.missingArgument, []⟩
  | some target =>
    if target = "" then ⟨.missingArgument, []⟩
    else
      match botCluster target with
      | none => ⟨.botNotFound, []⟩
      | some targetClient =>
        if !targetClient.ready then ⟨.botOffline, []⟩
        else if targetClient.lavalinkNodes.getD 0 = 0 then ⟨.lavalinkWarning, []⟩
        else
          match forceAssign guildId target with
          | .threw => ⟨.error, [(guildId, target)]⟩
          | .result false message => ⟨.reassignmentFailed message, [(guildId, target)]⟩
          | .result true _ => ⟨.guildReassigned, [(guildId, target)]⟩

/-- A cluster of three bots: `bot-1` is ready with one Lavalink node, `bot-2`
is ready without any node, `bot-3` is not ready. -/
def exampleCluster : String → Option ClusterBot := fun b =>
  if b = "bot-1" then some ⟨"Bot 1", true, some 1⟩
  else if b = "bot-2" then some ⟨"Bot 2", true, some 0⟩
  else if b = "bot-3" then some ⟨"Bot 3", false, some 1⟩
  else none

/-- A `forceAssign` that always succeeds. -/
def forceAssignSucceeds : String → String → ForceAssignOutcome :=
  fun _ _ => .result true "ok"

/-! ## The guild assignment directory -/

/-- A record of the guild assignment directory (the time stamp left out). -/
structure GuildAssignment where
  guildId : String
  ownerWorkerId : String
  clientId : String
  assignmentReason : String
  isActive : Bool
  voiceChannelId : Option String
  textChannelId : Option String
  deriving DecidableEq, Repr

/-- The guild assignment directory: the stored records. -/
abbrev Directory := List GuildAssignment

/-- The records the directory holds for guild `g`. -/
def recordsOf (dir : Directory) (g : String) : List GuildAssignment :=
  dir.filter (fun a => a.guildId = g)

/-- The stored record of guild `g`, when there is one: `GuildAssignment.findById`. -/
def findById (dir : Directory) (g : String) : Option GuildAssignment :=
  dir.find? (fun a => a.guildId = g)

/-- Modelled from the spec: `GuildAssignment.getOrCreateAssignment`, whose
file `schemas/GuildAssignment.js` is not among the sources.  It "returns
existing assignment if present; otherwise creates one with `isActive=false`". -/
def getOrCreateAssignment (dir : Directory) (g w clientId reason : String) :
    GuildAssignment × Directory :=
  match findById dir g with
  | some a => (a, dir)
  | none => (⟨g, w, clientId, reason, false, none, none⟩,
      dir ++ [⟨g, w, clientId, reason, false, none, none⟩])

/-- Modelled from the spec: `activate`, which "sets active session context"
(the channels and `isActive=true`) and "fails with `NotFound` if no assignment
exists".  `none` is the `NotFound` failure. -/
def activate (dir : Directory) (g voiceChannelId textChannelId : String) : Option Directory :=
  match findById dir g with
  | none => none
  | some _ =>
    some (dir.map (fun a =>
      if a.guildId = g then
        { a with isActive := true, voiceChannelId := some voiceChannelId,
                 textChannelId := some textChannelId }
      else a))

/-- Modelled from the spec: `deactivate`, which "clears active context" and
"does not delete the assignment". -/
def deactivate (dir : Directory) (g : String) : Directory :=
  dir.map (fun a =>
    if a.guildId = g then { a with isActive := false, voiceChannelId := none, textChannelId := none }
    else a)

/-- Modelled from the spec: `reassign`, "the only operation that overwrites
`ownerWorkerId` for an existing assignment"; "reassignment overwrites
`ownerWorkerId` and resets activation". -/
def reassign (dir : Directory) (g newWorkerId : String) : Directory :=
  dir.map (fun a =>
    if a.guildId = g then
      { a with ownerWorkerId := newWorkerId, isActive := false, voiceChannelId := none,
               textChannelId := none }
    else a)

/-- The structured result of `forceAssign`: `success` flag and message. -/
structure ForceAssignResult where
  success : Bool
  message : String
  deriving DecidableEq, Repr

/-- Modelled from the spec: `loadBalancer.forceAssign` of `orchestrator.js`,
which is not among the sources.  It "validates: target worker is live (else
`Error: target offline`)", warns when the target's audio backend is not
connected, and "on success calls Guild Assignment Directory `reassign`". -/
def forceAssign (isLive backendConnected : String → Bool) (dir : Directory)
    (g target : String) : ForceAssignResult × Directory :=
  if !isLive target then (⟨false, "Error: target offline"⟩, dir)
  else
    (⟨true, if backendConnected target then "reassigned" else "reassigned, backend not connected"⟩,
      reassign dir g target)

/-- A call on the directory, as the play, stop and reassign commands issue
them. -/
inductive DirOp where
  | getOrCreate (g w clientId reason : String)
  | activate (g voiceChannelId textChannelId : String)
  | deactivate (g : String)
  | reassign (g newWorkerId : String)
  deriving DecidableEq, Repr

/-- The directory after one call (a failed `activate` changes nothing). -/
def applyOp (dir : Directory) : DirOp → Directory
  | .getOrCreate g w c r => (getOrCreateAssignment dir g w c r).2
  | .activate g vc tc => (activate dir g vc tc).getD dir
  | .deactivate g => deactivate dir g
  | .reassign g w => reassign dir g w

/-- The directory after a sequence of calls. -/
def runOps (dir : Directory) (ops : List DirOp) : Directory :=
  ops.foldl applyOp dir

/-- A directory with one active assignment, of guild 42 to `bot-1`. -/
def exampleDirectory : Directory :=
  [⟨"42", "bot-1", "client-1", "auto", true, some "voice", some "text"⟩]

/-! ## The player commands -/

/-- A live Lavalink player as the commands and `savePlayerState` read it.
`data` is the key-value store behind `player.get` and `player.set`. -/
structure Player where
  guildId : String
  voiceChannelId : String
  textChannelId : String
  volume : Int
  repeatMode : Option String
  paused : Bool
  position : Int
  current : Option SavedTrack
  tracks : List SavedTrack
  data : List (String × Bool)
  deriving DecidableEq, Repr

/-- Modelled from the spec: `setVolume` of the audio backend's session, which
is library code; it sets the volume of the session. -/
def Player.setVolume (p : Player) (v : Int) : Player := { p with volume := v }

/-- Modelled from the spec: `setLoopMode` of the audio backend's session
(`setRepeatMode` in the library); it sets the loop mode of the session. -/
def Player.setRepeatMode (p : Player) (mode : String) : Player := { p with repeatMode := some mode }

/-- Modelled from the spec: `pause` of the audio backend's session; the
session is paused afterwards. -/
def Player.pause (p : Player) : Player := { p with paused := true }

/-- Modelled from the spec: the library's `resume`, the opposite of `pause`;
the session is not paused afterwards. -/
def Player.resume (p : Player) : Player := { p with paused := false }

/-- What a command sees and changes for its guild: the player of this bot
(`client.lavalink?.players.get(ctx.guild.id)`), the document of the guild in
the player store, and the bot the guild's assignment names. -/
structure Session where
  player : Option Player
  snapshot : Option StoredPlayer
  assignmentOwner : Option String
  deriving DecidableEq, Repr

/-- The document `savePlayerState` builds (lines 368-391 of
`LavalinkHandler.js`), without the node id. -/
def snapshotOf (botId : String) (p : Player) : StoredPlayer :=
  ⟨⟨p.guildId, p.voiceChannelId, p.textChannelId, p.volume, jsOrStr p.repeatMode "off", p.paused,
      (p.data.lookup "twentyFourSeven").getD false, (p.data.lookup "autoPlay").getD false,
      p.position, p.current, p.tracks⟩,
    botId, false⟩

/-- The function `savePlayerState` (lines 366-395 of `LavalinkHandler.js`):
the document is written when `PlayerSchema.saveState` resolves; when it
throws, the error is logged and nothing is written. -/
def savePlayerState (botId : String) (saveStateOk : Bool) (p : Player) (s : Session) : Session :=
  if saveStateOk then { s with snapshot := some (snapshotOf botId p) } else s

/-- Whether the awaited player call of a command and the store write of
`savePlayerState` resolve. -/
structure CommandOutcomes where
  playerCallOk : Bool
  saveStateOk : Bool
  deriving DecidableEq, Repr

/-- What a command does to the player and the store, in order. -/
inductive Effect where
  | setVolume (volume : Int)
  | setRepeatMode (mode : String)
  | clearQueue
  | pause
  | resume
  | savePlayerState (guildId : String)
  deriving DecidableEq, Repr

/-- The message a command sends back. -/
inductive Reply where
  | notInVoiceChannel
  | nothingPlaying
  | differentVoiceChannel
  | currentVolume (volume : Int)
  | volumeOutOfRange
  | volumeSet (volume : Int)
  | invalidMode
  | loopSet (mode : String)
  | queueAlreadyEmpty
  | queueCleared (count : Nat)
  | alreadyPaused
  | paused
  | alreadyPlaying
  | resumed
  | failed
  deriving DecidableEq, Repr

/-- The reply of a command, the session it leaves and its effects. -/
structure CommandResult where
  reply : Reply
  session : Session
  effects : List Effect
  deriving DecidableEq, Repr

/-- The three checks that open `run` in each player command (lines 70-94 of
`Volume.js`): the member is in a voice channel, the guild has a player, and
the player is in the member's channel.  `memberVoice` is the id of
`member.voice?.channel`. -/
def withPlayer (memberVoice : Option String) (s : Session) (k : Player → CommandResult) :
    CommandResult :=
  match memberVoice with
  | none => ⟨.notInVoiceChannel, s, []⟩
  | some vc =>
    match s.player with
    | none => ⟨.nothingPlaying, s, []⟩
    | some player =>
      if player.voiceChannelId != vc then ⟨.differentVoiceChannel, s, []⟩ else k player

/-- The method `Volume.run` (lines 69-129 of `Volume.js`).  `volumeArg` is the
value of lines 96-98: an integer, or `none` for `null`, `undefined` or `NaN`. -/
def Volume.run (botId : String) (o : CommandOutcomes) (memberVoice : Option String)
    (volumeArg : JsNum) (s : Session) : CommandResult :=
  withPlayer memberVoice s (fun player =>
    match volumeArg with
    | none => ⟨.currentVolume player.volume, s, []⟩
    | some v =>
      if v < 0 || v > 150 then ⟨.volumeOutOfRange, s, []⟩
      else if o.playerCallOk then
        ⟨.volumeSet v,
          savePlayerState botId o.saveStateOk (player.setVolume v)
            { s with player := some (player.setVolume v) },
          [.setVolume v, .savePlayerState player.guildId]⟩
      else ⟨.failed, s, [.setVolume v]⟩)

/-- JavaScript `modes.indexOf(x)`: the index, or -1. -/
def jsIndexOf (l : List String) (x : String) : Int :=
  if x ∈ l then (l.indexOf x : Nat) else -1

/-- Lines 89-91 of `Loop.js`: the mode after the current one. -/
def nextLoopMode (repeatMode : Option String) : String :=
  let modes := ["off", "track", "queue"]
  let currentIndex := jsIndexOf modes (jsOrStr repeatMode "off")
  modes.getD ((currentIndex + 1) % (modes.length : Int)).toNat "off"

/-- The method `Loop.run` (lines 57-122 of `Loop.js`).  `modeArg` is the value
of lines 84-86. -/
def Loop.run (botId : String) (o : CommandOutcomes) (memberVoice : Option String)
    (modeArg : Option String) (s : Session) : CommandResult :=
  withPlayer memberVoice s (fun player =>
    let mode := if truthy modeArg then modeArg.getD "" else nextLoopMode player.repeatMode
    if !(["off", "track", "queue"].contains mode) then ⟨.invalidMode, s, []⟩
    else if o.playerCallOk then
      ⟨.loopSet mode,
        savePlayerState botId o.saveStateOk (player.setRepeatMode mode)
          { s with player := some (player.setRepeatMode mode) },
        [.setRepeatMode mode, .savePlayerState player.guildId]⟩
    else ⟨.failed, s, [.setRepeatMode mode]⟩)

/-- The method `Clear.run` (lines 45-95 of `Clear.js`). -/
def Clear.run (botId : String) (o : CommandOutcomes) (memberVoice : Option String)
    (s : Session) : CommandResult :=
  withPlayer memberVoice s (fun player =>
    if player.tracks.length = 0 then ⟨.queueAlreadyEmpty, s, []⟩
    else
      ⟨.queueCleared player.tracks.length,
        savePlayerState botId o.saveStateOk { player with tracks := [] }
          { s with player := some { player with tracks := [] } },
        [.clearQueue, .savePlayerState player.guildId]⟩)

/-- The method `Pause.run` (lines 44-92 of `Pause.js`). -/
def Pause.run (o : CommandOutcomes) (memberVoice : Option String) (s : Session) :
    CommandResult :=
  withPlayer memberVoice s (fun player =>
    if player.paused then ⟨.alreadyPaused, s, []⟩
    else if o.playerCallOk then ⟨.paused, { s with player := some player.pause }, [.pause]⟩
    else ⟨.failed, s, [.pause]⟩)

/-- The method `Resume.run` (lines 44-92 of `Resume.js`). -/
def Resume.run (o : CommandOutcomes) (memberVoice : Option String) (s : Session) :
    CommandResult :=
  withPlayer memberVoice s (fun player =>
    if !player.paused then ⟨.alreadyPlaying, s, []⟩
    else if o.playerCallOk then ⟨.resumed, { s with player := some player.resume }, [.resume]⟩
    else ⟨.failed, s, [.resume]⟩)

/-- A player of guild 42 in channel `voice`: volume 80, not paused, one
current and one queued track. -/
def examplePlayer : Player :=
  ⟨"42", "voice", "text", 80, some "off", false, 1000, some (savedTrackOf "u1"),
    [savedTrackOf "u2"], []⟩

/-- The session of guild 42 on `bot-1`, its snapshot up to date, while the
guild's assignment names `owner`. -/
def exampleSession (owner : String) : Session :=
  ⟨some examplePlayer, some (snapshotOf "bot-1" examplePlayer), some owner⟩

/-- Every call of a command resolves. -/
def commandOk : CommandOutcomes := ⟨true, true⟩

/-! ## Strings and numbers of JavaScript

A JavaScript number is a double: a result of `/`, `*` or `+` is the exact
result rounded to 53 significant bits, a tie going to the even neighbour.
`toDouble` is that rounding on the rationals.  The exponent of a double is
not bounded here, so a magnitude of 2^1024 and above (`Infinity` in
JavaScript) and one below 2^-1022 are outside the model. -/

/-- Round to the nearest integer, a tie going to the even neighbour. -/
def roundTiesEven (x : ℚ) : ℤ :=
  if 2 * Int.fract x < 1 then ⌊x⌋
  else if 1 < 2 * Int.fract x then ⌊x⌋ + 1
  else if ⌊x⌋ % 2 = 0 then ⌊x⌋ else ⌊x⌋ + 1

/-- The double nearest to a positive rational `x`: with `2 ^ l ≤ x < 2 ^ (l + 1)`
the doubles around `x` are the multiples of `2 ^ (l - 52)`. -/
def toDoublePos (x : ℚ) : ℚ :=
  let e : ℤ := Int.log 2 x - 52
  roundTiesEven (x / 2 ^ e) * 2 ^ e

/-- The double nearest to a rational. -/
def toDouble (x : ℚ) : ℚ :=
  if 0 < x then toDoublePos x else if x < 0 then -toDoublePos (-x) else 0

/-- The double nearest to an integer, which is an integer again: the integer
itself below 2^53 in magnitude (lemma `roundInt_eq_toDouble`). -/
def roundInt (n : Int) : Int :=
  if n.natAbs < 9007199254740992 then n else ⌊toDouble n⌋

/-- JavaScript `a * b` on numbers with integer values. -/
def jsMul (a b : Int) : Int := roundInt (a * b)

/-- JavaScript `a + b` on numbers with integer values. -/
def jsAdd (a b : Int) : Int := roundInt (a + b)

/-- JavaScript `a % b` for `a ≥ 0` and `b > 0`; the remainder of two doubles is
a double, so nothing is rounded. -/
def jsMod (a b : ℚ) : ℚ := a - b * ⌊a / b⌋

/-- JavaScript `Math.round`: the nearest integer, a tie going up. -/
def jsRound (x : ℚ) : ℤ := ⌊x + 1 / 2⌋

/-- JavaScript `str.length`: the number of UTF-16 code units, two for a
character beyond the basic plane. -/
def jsLength (str : String) : Nat :=
  (str.data.map (fun c => if c.toNat < 0x10000 then 1 else 2)).sum

/-- White space in the sense of `String.prototype.trim` and `parseInt`. -/
def isJsWhiteSpace (c : Char) : Bool :=
  [0x09, 0x0A, 0x0B, 0x0C, 0x0D, 0x20, 0xA0, 0x1680, 0x2028, 0x2029, 0x202F, 0x205F, 0x3000,
    0xFEFF].contains c.toNat || (0x2000 ≤ c.toNat && c.toNat ≤ 0x200A)

/-- JavaScript `str.trim()` on the characters of a string. -/
def jsTrim (cs : List Char) : List Char :=
  ((cs.dropWhile isJsWhiteSpace).reverse.dropWhile isJsWhiteSpace).reverse

/-- The regular expression test `/^\d+$/.test(str)`: a non-empty run of the
digits 0 to 9. -/
def allDigits (cs : List Char) : Bool :=
  !cs.isEmpty && cs.all Char.isDigit

/-- The number a run of decimal digits denotes. -/
def digitsValue (cs : List Char) : Nat :=
  cs.foldl (fun acc c => acc * 10 + (c.toNat - 48)) 0

/-- The value of a hexadecimal digit. -/
def hexDigitValue (c : Char) : Option Nat :=
  if c.isDigit then some (c.toNat - 48)
  else if 97 ≤ c.toNat ∧ c.toNat ≤ 102 then some (c.toNat - 87)
  else if 65 ≤ c.toNat ∧ c.toNat ≤ 70 then some (c.toNat - 55)
  else none

/-- The number a run of hexadecimal digits denotes. -/
def hexValue (cs : List Char) : Nat :=
  cs.foldl (fun acc c => acc * 16 + (hexDigitValue c).getD 0) 0

/-- JavaScript `parseInt(str)` without radix: leading white space is skipped,
a sign is read, a `0x` or `0X` marker selects base 16, and the longest run of
digits that follows is the value, as a double; `NaN` (`none`) when that run is
empty.  Whatever follows the digits is ignored.  (Beyond 20 significant
digits the language lets an engine read the further digits as 0; here the
value is rounded once, as V8 does.) -/
def parseInt (str : List Char) : JsNum :=
  let s1 := str.dropWhile isJsWhiteSpace
  let negative := s1.head? == some '-'
  let s2 := if s1.head? == some '-' || s1.head? == some '+' then s1.tail else s1
  let sign : Int := if negative then -1 else 1
  if s2.take 2 == ['0', 'x'] || s2.take 2 == ['0', 'X'] then
    let ds := (s2.drop 2).takeWhile (fun c => (hexDigitValue c).isSome)
    if ds.isEmpty then none else some (roundInt (sign * (hexValue ds : Nat)))
  else
    let ds := s2.takeWhile Char.isDigit
    if ds.isEmpty then none else some (roundInt (sign * (digitsValue ds : Nat)))

/-- JavaScript `str.split(sep)` for a separator of one character. -/
def splitOn (sep : Char) : List Char → List (List Char)
  | [] => [[]]
  | c :: cs =>
    if c = sep then [] :: splitOn sep cs
    else
      match splitOn sep cs with
      | [] => [[c]]
      | g :: gs => (c :: g) :: gs

/-- The decimal digits JavaScript prints for a non-negative integer. -/
def decimalDigits (n : Nat) : List Char :=
  if n < 10 then [Char.ofNat (48 + n)]
  else decimalDigits (n / 10) ++ [Char.ofNat (48 + n % 10)]
termination_by n
decreasing_by omega

/-- JavaScript `str.padStart(2, '0')`. -/
def padStart2 (cs : List Char) : List Char :=
  List.replicate (2 - cs.length) '0' ++ cs

/-! ## The seek command and `formatDuration` -/

/-- The body of `Seek._parseTime` (lines 129-151 of `Seek.js`) on the
characters of its argument; `none` is `null`, and every product and sum is
rounded to a double. -/
def parseTimeChars (timeStr : List Char) : JsNum :=
  if timeStr.isEmpty then none
  else
    let trimmed := jsTrim timeStr
    if allDigits trimmed then (parseInt trimmed).map (fun n => jsMul n 1000)
    else
      let parts := (splitOn ':' trimmed).map parseInt
      if parts.any (fun x => x.isNone) then none
      else
        match parts with
        | [some minutes, some seconds] => some (jsMul (jsAdd (jsMul minutes 60) seconds) 1000)
        | [some hours, some minutes, some seconds] =>
          some (jsMul (jsAdd (jsAdd (jsMul hours 3600) (jsMul minutes 60)) seconds) 1000)
        | _ => none

/-- The method `Seek._parseTime` (lines 129-151 of `Seek.js`). -/
def Seek._parseTime (timeStr : String) : JsNum :=
  parseTimeChars timeStr.data

/-- The function `formatDuration` (lines 418-430 of `LavalinkHandler.js`) on a
number `ms` that is a non-negative integer (an integer that is a double: any
below 2^53, and beyond that the multiples of the power of two of its range).
The three quotients are doubles; `toString` prints an integer below 10^21 as
its decimal digits. -/
def formatDuration (ms : Nat) : String :=
  if ms = 0 then "0:00"
  else
    let seconds := ⌊jsMod (toDouble ((ms : ℚ) / 1000)) 60⌋.toNat
    let minutes := ⌊jsMod (toDouble ((ms : ℚ) / (1000 * 60))) 60⌋.toNat
    let hours := ⌊toDouble ((ms : ℚ) / (1000 * 60 * 60))⌋.toNat
    if hours > 0 then
      String.mk (decimalDigits hours ++ ':' :: padStart2 (decimalDigits minutes) ++
        ':' :: padStart2 (decimalDigits seconds))
    else
      String.mk (decimalDigits minutes ++ ':' :: padStart2 (decimalDigits seconds))

/-! ## Favorites and playlists -/

/-- A track as favorites and playlists store it (the time stamp left out). -/
structure StoredTrack where
  title : String
  author : Option String
  uri : String
  duration : Int
  artworkUrl : Option String
  deriving DecidableEq, Repr

/-- The object the commands pass to `addTrack`: the fields copied from the
`info` of a track. -/
structure TrackInput where
  title : String
  author : Option String
  uri : String
  duration : Option Int
  artworkUrl : Option String
  deriving DecidableEq, Repr

/-- The entry `addTrack` pushes (lines 44-51 of `Favorite.js`, lines 91-98 of
`Playlist.js`): `duration || 0` and `artworkUrl || null`. -/
def storedOf (track : TrackInput) : StoredTrack :=
  ⟨track.title, track.author, track.uri, track.duration.getD 0,
    if truthy track.artworkUrl then track.artworkUrl else none⟩

/-- How a call of `addTrack` ends: the track is added, it is refused as a
duplicate or because the list is full, or `this.save()` throws. -/
inductive AddOutcome where
  | added
  | duplicate
  | full
  | saveFailed
  deriving DecidableEq, Repr

/-- The method `addTrack` of the favorites (lines 32-57 of `Favorite.js`):
the outcome and the stored tracks after the call.  `saveOk` tells whether
`this.save()` resolves. -/
def Favorite.addTrack (saveOk : Bool) (tracks : List StoredTrack) (track : TrackInput) :
    AddOutcome × List StoredTrack :=
  if tracks.any (fun t => t.uri = track.uri) then (.duplicate, tracks)
  else if tracks.length ≥ 100 then (.full, tracks)
  else if saveOk then (.added, tracks ++ [storedOf track])
  else (.saveFailed, tracks)

/-- The favorites after a sequence of `addTrack` calls, each with its own
outcome of `save`. -/
def Favorite.addTracks (tracks : List StoredTrack) (calls : List (Bool × TrackInput)) :
    List StoredTrack :=
  calls.foldl (fun ts c => (Favorite.addTrack c.1 ts c.2).2) tracks

/-- The method `addTrack` of a playlist (lines 81-103 of `Playlist.js`). -/
def Playlist.addTrack (saveOk : Bool) (tracks : List StoredTrack) (track : TrackInput) :
    AddOutcome × List StoredTrack :=
  if tracks.length ≥ 200 then (.full, tracks)
  else if tracks.any (fun t => t.uri = track.uri) then (.duplicate, tracks)
  else if saveOk then (.added, tracks ++ [storedOf track])
  else (.saveFailed, tracks)

/-- The player as `PlaylistSave.run` reads it: its voice channel and, for the
current track and the queued tracks, the fields of `info` it copies. -/
structure QueueView where
  voiceChannelId : String
  current : Option TrackInput
  tracks : List TrackInput
  deriving DecidableEq, Repr

/-- The message `PlaylistSave.run` sends back; `threw` when a `save` throws
and the command ends without a message of its own. -/
inductive PlaylistSaveReply where
  | notInVoiceChannel
  | nothingPlaying
  | differentVoiceChannel
  | nameTooLong
  | createFailed (message : String)
  | queueSaved (totalTracks : Nat)
  | threw
  deriving DecidableEq, Repr

/-- The reply of `PlaylistSave.run` and the tracks of the playlist it
created, when it created one. -/
structure PlaylistSaveResult where
  reply : PlaylistSaveReply
  playlist : Option (List StoredTrack)
  deriving DecidableEq, Repr

/-- Lines 88-96 of `PlaylistSave.js`: `addTrack` for every queued track; the
results are not looked at.  The flag is `false` when a `save` threw, which
ends the loop; the tracks are those stored by then. -/
def PlaylistSave.addQueue (saveOk : Bool) : List StoredTrack → List TrackInput →
    Bool × List StoredTrack
  | stored, [] => (true, stored)
  | stored, t :: ts =>
    match Playlist.addTrack saveOk stored t with
    | (.saveFailed, stored2) => (false, stored2)
    | (_, stored2) => PlaylistSave.addQueue saveOk stored2 ts

/-- The method `PlaylistSave.run` (lines 42-108 of `PlaylistSave.js`).
`created` is what `Playlist.createPlaylist` answers: `none` for a new, empty
playlist, or the message of its refusal. -/
def PlaylistSave.run (saveOk : Bool) (memberVoice : Option String) (player : Option QueueView)
    (name : String) (created : Option String) : PlaylistSaveResult :=
  match memberVoice with
  | none => ⟨.notInVoiceChannel, none⟩
  | some vc =>
    match player with
    | none => ⟨.nothingPlaying, none⟩
    | some view =>
      match view.current with
      | none => ⟨.nothingPlaying, none⟩
      | some current =>
        if view.voiceChannelId != vc then ⟨.differentVoiceChannel, none⟩
        else if jsLength name > 50 then ⟨.nameTooLong, none⟩
        else
          match created with
          | some message => ⟨.createFailed message, none⟩
          | none =>
            match Playlist.addTrack saveOk [] current with
            | (.saveFailed, stored) => ⟨.threw, some stored⟩
            | (_, stored) =>
              match PlaylistSave.addQueue saveOk stored view.tracks with
              | (false, stored2) => ⟨.threw, some stored2⟩
              | (true, stored2) => ⟨.queueSaved (1 + view.tracks.length), some stored2⟩

/-- The fields of a track with the given uri. -/
def trackInputOf (u : String) : TrackInput := ⟨"title " ++ u, none, u, some 1000, none⟩

/-! ## Queue, bars and seeking -/

/-- JavaScript `list.splice(i, 0, x)`: `x` is inserted before index `i`, at
the end when `i` is beyond the list. -/
def spliceInsert {α : Type} (l : List α) (i : Nat) (x : α) : List α :=
  l.take i ++ x :: l.drop i

/-- Lines 86-89 of `Move.js` on the queued tracks, for positions counted
from 1. -/
def moveTrack {α : Type} (tracks : List α) (fromPos toPos : Nat) : List α :=
  match tracks[fromPos - 1]? with
  | some track => spliceInsert (tracks.eraseIdx (fromPos - 1)) (toPos - 1) track
  | none => tracks

/-- The message `Move.run` sends back. -/
inductive MoveReply where
  | notInVoiceChannel
  | nothingPlaying
  | differentVoiceChannel
  | usage
  | invalidPositions (queueLength : Nat)
  | alreadyThere
  | moved
  deriving DecidableEq, Repr

/-- The method `Move.run` (lines 46-98 of `Move.js`): the reply and the
session it leaves.  `fromArg` and `toArg` are the values of lines 64-71,
`none` for `null` or `NaN`. -/
def Move.run (memberVoice : Option String) (fromArg toArg : JsNum) (s : Session) :
    MoveReply × Session :=
  match memberVoice with
  | none => (.notInVoiceChannel, s)
  | some vc =>
    match s.player with
    | none => (.nothingPlaying, s)
    | some player =>
      if player.current.isNone then (.nothingPlaying, s)
      else if player.voiceChannelId != vc then (.differentVoiceChannel, s)
      else
        match fromArg, toArg with
        | some fromPos, some toPos =>
          if fromPos = 0 ∨ toPos = 0 then (.usage, s)
          else if fromPos < 1 ∨ fromPos > player.tracks.length ∨ toPos < 1 ∨
              toPos > player.tracks.length then
            (.invalidPositions player.tracks.length, s)
          else if fromPos = toPos then (.alreadyThere, s)
          else
            let moved := moveTrack player.tracks fromPos.toNat toPos.toNat
            (.moved, { s with player := some { player with tracks := moved } })
        | _, _ => (.usage, s)

/-- The exact quotient `a / b` of non-negative integers, `b > 0`, rounded to
the nearest integer, halves up: what `Math.round` would give if the quotient
were not rounded to a double first. -/
def roundDiv (a b : Nat) : Nat := (2 * a + b) / (2 * b)

/-- The value of `progress` in `createProgressBar` (lines 440-441 of
`LavalinkHandler.js`) for `total > 0`: `current / total` is rounded to a
double, so is its product with `size`, and `Math.round` is taken of that. -/
def progressCells (current total size : Nat) : ℤ :=
  jsRound (toDouble (size * toDouble ((current : ℚ) / total)))

/-- The function `createProgressBar` (lines 439-446 of `LavalinkHandler.js`)
on non-negative integers.  `none` is the `RangeError` of `repeat` on a
negative or infinite count; with `total = 0` the quotient is `NaN` or
`Infinity`.  The limit an engine puts on the length of a string (2^29 - 24
characters in V8) is not modelled. -/
def createProgressBar (current total size : Nat) : Option (List Char) :=
  if total = 0 then
    if current = 0 ∨ size = 0 then some [] else none
  else
    let progress := progressCells current total size
    let empty := (size : ℤ) - progress
    if progress < 0 ∨ empty < 0 then none
    else some (List.replicate progress.toNat '▓' ++ List.replicate empty.toNat '░')

/-- The volume bar of `TrackStart._handleVolume` (line 392 of
`trackStart.js`); `none` is the `RangeError` of `repeat` on a negative
count. -/
def TrackStart.volumeBar (volume : Int) : Option (List Char) :=
  let filled := volume / 10
  let empty := 10 - volume / 10
  if filled < 0 ∨ empty < 0 then none
  else some (List.replicate filled.toNat '█' ++ List.replicate empty.toNat '░')

/-- The method `Volume._createVolumeBar` (lines 131-135 of `Volume.js`),
without the two back quotes around the bar; `Math.round(volume / 10)` is
`(volume + 5) / 10` rounded down. -/
def Volume._createVolumeBar (volume : Int) : Option (List Char) :=
  let filled := (volume + 5) / 10
  let empty := 15 - filled
  if min filled 15 < 0 then none
  else some (List.replicate (min filled 15).toNat '▓' ++ List.replicate (max empty 0).toNat '░')

/-- The expression `getInteger('seconds') || 10` of line 64 of `Forward.js`
and `Backward.js` (and `parseInt(args[0]) || 10` of line 65). -/
def secondsOrDefault (secondsArg : JsNum) : Int :=
  match secondsArg with
  | some n => if n = 0 then 10 else n
  | none => 10

/-- The position `Forward.run` passes to `player.seek` (lines 63-68 of
`Forward.js`). -/
def Forward.newPosition (position duration : Int) (secondsArg : JsNum) : Int :=
  min (position + secondsOrDefault secondsArg * 1000) duration

/-- The position `Backward.run` passes to `player.seek` (lines 63-68 of
`Backward.js`). -/
def Backward.newPosition (position : Int) (secondsArg : JsNum) : Int :=
  max 0 (position - secondsOrDefault secondsArg * 1000)

/-! ## Player settings -/

/-- Modelled from the spec: `player.set(key, value)` of the library, which
keeps one value per key. -/
def Player.set (p : Player) (key : String) (value : Bool) : Player :=
  { p with data := (key, value) :: p.data.filter (fun kv => kv.1 != key) }

/-- Modelled from the spec: `player.get(key)` of the library; `none` is
`undefined`. -/
def Player.get (p : Player) (key : String) : Option Bool :=
  p.data.lookup key

/-- The player `lavalink.createPlayer` returns for a snapshot (lines 244-250
of `LavalinkHandler.js`), before anything is restored. -/
def createdPlayer (s : SavedPlayer) : Player :=
  ⟨s._id, s.voiceChannelId, s.textChannelId, s.volume, none, false, 0, none, [], []⟩

/-- Modelled from the spec: what a call of the trace does to the settings of
the player (volume, loop mode, pause state and key-value store); queue and
position are not followed. -/
def applyToPlayer (p : Player) : Call → Player
  | .setVolume _ v => p.setVolume v
  | .setRepeatMode _ mode => p.setRepeatMode mode
  | .set _ key value => p.set key value
  | .pause _ => p.pause
  | _ => p

/-- The settings of the player of a snapshot after the calls of a trace. -/
def resumedPlayer (s : SavedPlayer) (calls : List Call) : Player :=
  calls.foldl applyToPlayer (createdPlayer s)

/-- The method `TrackStart._handleAutoplay` (lines 347-349 of
`trackStart.js`) on the player. -/
def TrackStart._handleAutoplay (p : Player) : Player :=
  p.set "autoplay" (!(p.get "autoplay").getD false)

/-- Every call of the list is made for guild `g`. -/
def CallsFor (g : String) (cs : List Call) : Prop :=
  ∀ c ∈ cs, Call.guildId c = g

/-! ## Lemmas on the batch loop -/

theorem searchBatch_append (search : Nat → SearchOutcome) (i : Nat) (a b : List TrackToLoad) :
    searchBatch search i (a ++ b) = searchBatch search i a ++ searchBatch search (i + a.length) b := by
  simp [searchBatch, List.enumFrom_append]

theorem collectLoaded_append (a b : List Settled) :
    collectLoaded (a ++ b) = collectLoaded a ++ collectLoaded b := by
  simp [collectLoaded]

/-- Splitting off the first batch does not change what is collected. -/
theorem collect_take_drop (search : Nat → SearchOutcome) (i : Nat) (d : List TrackToLoad) :
    collectLoaded (searchBatch search i (d.take batchSize)) ++
      collectLoaded (searchBatch search (i + batchSize) (d.drop batchSize)) =
    collectLoaded (searchBatch search i d) := by
  by_cases h : batchSize ≤ d.length
  · have hlen : (d.take batchSize).length = batchSize := by simp [h]
    conv_rhs => rw [← List.take_append_drop batchSize d, searchBatch_append, collectLoaded_append, hlen]
  · have hd : d.drop batchSize = [] := by
      apply List.drop_eq_nil_of_le
      omega
    have ht : d.take batchSize = d := by
      apply List.take_of_length_le
      omega
    simp [hd, ht, searchBatch, collectLoaded]

/-! ## Lemmas on the batches -/

theorem batchesFrom_unfold (l : List TrackToLoad) (i : Nat) (h : i < l.length) :
    batchesFrom l i = ((l.drop i).take batchSize) :: batchesFrom l (i + batchSize) := by
  rw [batchesFrom, if_pos h]

theorem batchesFrom_done (l : List TrackToLoad) (i : Nat) (h : ¬ i < l.length) :
    batchesFrom l i = [] := by
  rw [batchesFrom, if_neg h]

/-- Everything the batches say, from index `i` on: how many there are, how
long they are, that they concatenate to the rest of the list, and that the
loop is the fold of `batchStep` over them. -/
theorem batchesFrom_spec (g : String) (search : Nat → SearchOutcome) (l : List TrackToLoad) :
    ∀ (n i : Nat), l.length - i = n →
      (batchesFrom l i).length = (l.length - i + 4) / 5 ∧
      (∀ b ∈ batchesFrom l i, 0 < b.length ∧ b.length ≤ 5) ∧
      (∀ b ∈ (batchesFrom l i).dropLast, b.length = 5) ∧
      (batchesFrom l i).flatten = l.drop i ∧
      (∀ (rounds : List Round) (loaded : List Loaded),
        loadTracks g search l i rounds loaded =
          ((batchesFrom l i).foldl (batchStep g search) (i, rounds, loaded)).2) := by
  intro n
  induction n using Nat.strong_induction_on with
  | _ n ih =>
    intro i hn
    by_cases hlt : i < l.length
    · have hdec : l.length - (i + batchSize) < n := by
        simp only [batchSize]
        omega
      obtain ⟨h1, h2, h3, h4, h5⟩ := ih _ hdec (i + batchSize) rfl
      have hlen : ((l.drop i).take batchSize).length = min 5 (l.length - i) := by
        simp [batchSize]
      rw [batchesFrom_unfold l i hlt]
      refine ⟨?_, ?_, ?_, ?_, ?_⟩
      · rw [List.length_cons, h1]
        simp only [batchSize]
        omega
      · intro b hb
        rcases List.mem_cons.mp hb with rfl | hb
        · rw [hlen]
          omega
        · exact h2 b hb
      · intro b hb
        by_cases hrest : i + batchSize < l.length
        · rw [batchesFrom_unfold l _ hrest, List.dropLast_cons₂] at hb
          rcases List.mem_cons.mp hb with rfl | hb
          · rw [hlen]
            simp only [batchSize] at hrest
            omega
          · apply h3
            rw [batchesFrom_unfold l _ hrest]
            exact hb
        · rw [batchesFrom_done l _ hrest] at hb
          simp at hb
      · rw [List.flatten_cons, h4]
        have hdrop : l.drop (i + batchSize) = (l.drop i).drop batchSize := by
          rw [List.drop_drop, Nat.add_comm]
        rw [hdrop, List.take_append_drop]
      · intro rounds loaded
        rw [loadTracks, if_pos hlt, List.foldl_cons]
        exact h5 _ _
    · rw [batchesFrom_done l i hlt]
      have hd : l.drop i = [] := by
        apply List.drop_eq_nil_of_le
        omega
      refine ⟨?_, ?_, ?_, ?_, ?_⟩
      · simp only [List.length_nil]
        omega
      · intro b hb
        simp at hb
      · intro b hb
        simp at hb
      · simp [hd]
      · intro rounds loaded
        rw [loadTracks, if_neg hlt]
        rfl

theorem searchBatch_length (search : Nat → SearchOutcome) (i : Nat) (b : List TrackToLoad) :
    (searchBatch search i b).length = b.length := by
  simp [searchBatch]

theorem searchBatch_take_drop (search : Nat → SearchOutcome) (i : Nat) (d : List TrackToLoad) :
    searchBatch search i d =
      searchBatch search i (d.take batchSize) ++
        searchBatch search (i + batchSize) (d.drop batchSize) := by
  by_cases h : batchSize ≤ d.length
  · have hlen : (d.take batchSize).length = batchSize := by simp [h]
    conv_lhs => rw [← List.take_append_drop batchSize d, searchBatch_append, hlen]
  · have hd : d.drop batchSize = [] := by
      apply List.drop_eq_nil_of_le
      omega
    have ht : d.take batchSize = d := by
      apply List.take_of_length_le
      omega
    simp [hd, ht, searchBatch]

/-- The passes of the batch loop: the searches of a pass are those of one
slice `tracksToLoad.slice(i, i + batchSize)`, every search of a pass has its
settled result in that pass, and the results of all passes are those of the
remaining entries in order. -/
theorem loadTracks_rounds (g : String) (search : Nat → SearchOutcome) (l : List TrackToLoad) :
    ∀ (n i : Nat) (rounds : List Round) (loaded : List Loaded), l.length - i = n →
      (loadTracks g search l i rounds loaded).1.map Round.searches =
        rounds.map Round.searches ++ (batchesFrom l i).map (List.map (searchCall g)) ∧
      ((loadTracks g search l i rounds loaded).1.map Round.results).flatten =
        (rounds.map Round.results).flatten ++ searchBatch search i (l.drop i) ∧
      ((∀ r ∈ rounds, r.results.length = r.searches.length) →
        ∀ r ∈ (loadTracks g search l i rounds loaded).1, r.results.length = r.searches.length) := by
  intro n
  induction n using Nat.strong_induction_on with
  | _ n ih =>
    intro i rounds loaded hn
    rw [loadTracks]
    split
    · next hlt =>
      have hdec : l.length - (i + batchSize) < n := by
        simp only [batchSize]
        omega
      obtain ⟨h1, h2, h3⟩ := ih _ hdec (i + batchSize)
        (rounds ++ [⟨((l.drop i).take batchSize).map (searchCall g),
          searchBatch search i ((l.drop i).take batchSize)⟩])
        (loaded ++ collectLoaded (searchBatch search i ((l.drop i).take batchSize))) rfl
      have hdrop : l.drop (i + batchSize) = (l.drop i).drop batchSize := by
        rw [List.drop_drop, Nat.add_comm]
      refine ⟨?_, ?_, ?_⟩
      · rw [h1, batchesFrom_unfold l i hlt]
        simp
      · rw [h2, hdrop]
        have hsplit := searchBatch_take_drop search i (l.drop i)
        rw [hsplit]
        simp
      · intro hacc
        apply h3
        intro r hr
        rcases List.mem_append.mp hr with hr | hr
        · exact hacc r hr
        · rw [List.mem_singleton.mp hr]
          simp [searchBatch_length]
    · next hge =>
      have hd : l.drop i = [] := by
        apply List.drop_eq_nil_of_le
        omega
      refine ⟨?_, ?_, ?_⟩
      · rw [batchesFrom_done l i hge]
        simp
      · simp [hd, searchBatch]
      · exact fun hacc => hacc

/-- The batch loop collects the loaded tracks of the remaining entries, in
order. -/
theorem loadTracks_eq (g : String) (search : Nat → SearchOutcome) (l : List TrackToLoad) :
    ∀ (n i : Nat) (rounds : List Round) (loaded : List Loaded), l.length - i = n →
      (loadTracks g search l i rounds loaded).2 =
         loaded ++ collectLoaded (searchBatch search i (l.drop i)) := by
  intro n
  induction n using Nat.strong_induction_on with
  | _ n ih =>
    intro i rounds loaded hn
    rw [loadTracks]
    split
    · next hlt =>
      have hdec : l.length - (i + batchSize) < n := by
        simp only [batchSize]
        omega
      rw [ih _ hdec (i + batchSize) _ _ rfl]
      have hdrop : l.drop (i + batchSize) = (l.drop i).drop batchSize := by
        rw [List.drop_drop, Nat.add_comm]
      rw [hdrop, List.append_assoc, collect_take_drop]
    · next hge =>
      have hd : l.drop i = [] := by
        apply List.drop_eq_nil_of_le
        omega
      simp [hd, searchBatch, collectLoaded]

theorem loadedOf_eq (o : Outcomes) (s : SavedPlayer) :
    loadedOf o s = collectLoaded (searchBatch o.search 0 (tracksToLoad s)) := by
  simp [loadedOf, loadTracks_eq s._id o.search (tracksToLoad s) _ 0 [] [] rfl]

theorem searchRounds_eq (g : String) (search : Nat → SearchOutcome) (l : List TrackToLoad) :
    searchRounds g search l = (batchesFrom l 0).map (List.map (searchCall g)) := by
  have h := (loadTracks_rounds g search l _ 0 [] [] rfl).1
  simpa [searchRounds] using h

theorem searchRounds_flatten (g : String) (search : Nat → SearchOutcome) (l : List TrackToLoad) :
    (searchRounds g search l).flatten = l.map (searchCall g) := by
  have h4 := (batchesFrom_spec g search l _ 0 rfl).2.2.2.1
  rw [searchRounds_eq, ← List.map_flatten, h4, List.drop_zero]

theorem searchBatch_cons (search : Nat → SearchOutcome) (i : Nat) (t : TrackToLoad)
    (ts : List TrackToLoad) :
    searchBatch search i (t :: ts) = searchTrack (search i) t :: searchBatch search (i + 1) ts := by
  simp [searchBatch, List.enumFrom_cons]

theorem collectLoaded_track (search : Nat → SearchOutcome) (l : List TrackToLoad) :
    ∀ i : Nat, (collectLoaded (searchBatch search i l)).map (fun v => v.track) =
      (List.range' i l.length).filterMap (fun k => firstTrack (search k)) := by
  induction l with
  | nil => intro i; simp [searchBatch, collectLoaded]
  | cons t ts ih =>
    intro i
    have h := ih (i + 1)
    rw [searchBatch_cons, List.length_cons, List.range'_succ, List.filterMap_cons, ← h]
    cases hs : search i with
    | rejected => simp [searchTrack, firstTrack, collectLoaded]
    | fulfilled trs =>
      cases trs with
      | nil => simp [searchTrack, firstTrack, collectLoaded]
      | cons tr rest => simp [searchTrack, firstTrack, collectLoaded]

theorem enumFrom_filterMap_fst {α β : Type} (F : Nat → Option β) (l : List α) :
    ∀ i : Nat, (l.enumFrom i).filterMap (fun kt => F kt.1) =
      (List.range' i l.length).filterMap F := by
  induction l with
  | nil => intro i; simp
  | cons t ts ih =>
    intro i
    simp [List.enumFrom_cons, List.range'_succ, List.filterMap_cons, ih (i + 1)]

theorem tracksToLoad_length (s : SavedPlayer) :
    (tracksToLoad s).length = (savedTracks s).length := by
  cases hc : s.currentTrack <;> simp [tracksToLoad, savedTracks, hc]

/-! ## Lemmas on one iteration -/

theorem restoreQueue_eq (o : Outcomes) (s : SavedPlayer) :
    restoreQueue o s =
      if s.currentTrack.isSome || decide (s.queue.length > 0) then
        Run.andThen ((tracksToLoad s).map (searchCall s._id))
          (if (loadedOf o s).length > 0 then startPlayback o s (loadedOf o s)
            else destroyAndMark o s)
      else if !s.twentyFourSeven then destroyAndMark o s
      else Run.done := by
  simp only [restoreQueue, loadedOf]
  split
  · have h := searchRounds_flatten s._id o.search (tracksToLoad s)
    simp only [searchRounds] at h
    rw [h]
  · rfl

theorem tryBody_reached (client : Client) (o : Outcomes) (s : SavedPlayer) (g : Guild)
    (hg : client.guilds s._id = some g) (hvc : s.voiceChannelId ∈ g.channels)
    (htc : s.textChannelId ∈ g.channels) (hcreate : o.createPlayerOk = true)
    (hconn : o.connectOk = true) :
    tryBody client o s = Run.andThen (setupCalls s) (restoreQueue o s) := by
  simp [tryBody, hg, hvc, htc, createAndRestore, hcreate, hconn, Run.call, Run.andThen, setupCalls]

theorem resumeOne_calls (client : Client) (o : Outcomes) (s : SavedPlayer) :
    (resumeOne client o s).calls =
      (tryBody client o s).calls ++
        (if (tryBody client o s).threw then [Call.markDestroyed s._id] else []) := by
  simp only [resumeOne]
  split <;> simp

theorem addAll_ok (g : String) (ok : Nat → Bool) (hok : ∀ k, ok k = true) (rest : Run)
    (loaded : List Loaded) :
    ∀ k : Nat, addAll g ok k loaded rest =
      Run.andThen (loaded.map (fun v => Call.queueAdd g v.track)) rest := by
  induction loaded with
  | nil => intro k; simp [addAll, Run.andThen]
  | cons v vs ih =>
    intro k
    simp [addAll, Run.call, hok k, ih (k + 1), Run.andThen]

theorem queueAdds_append (g : String) (a b : List Call) :
    queueAdds g (a ++ b) = queueAdds g a ++ queueAdds g b := by
  simp [queueAdds]

theorem queueAdds_setupCalls (s : SavedPlayer) : queueAdds s._id (setupCalls s) = [] := by
  simp only [setupCalls, queueAdds_append]
  split <;> split <;> split <;> simp [queueAdds]

theorem queueAdds_searches (g : String) (l : List TrackToLoad) :
    queueAdds g (l.map (searchCall g)) = [] := by
  induction l with
  | nil => rfl
  | cons t ts ih =>
    rw [List.map_cons, ← List.singleton_append, queueAdds_append, ih]
    simp [queueAdds, searchCall]

theorem queueAdds_added (g : String) (loaded : List Loaded) :
    queueAdds g (loaded.map (fun v => Call.queueAdd g v.track)) = loaded.map (fun v => v.track) := by
  induction loaded with
  | nil => rfl
  | cons v vs ih =>
    rw [List.map_cons, ← List.singleton_append, queueAdds_append, ih]
    simp [queueAdds]

theorem queueAdds_afterAdds (o : Outcomes) (s : SavedPlayer) :
    queueAdds s._id
      (Run.call (.play s._id) o.playOk
        ((if s.currentTrack.isSome && decide (s.position > 0) then
            Run.call (.seek s._id s.position) o.seekOk
          else id)
          (if s.paused then Run.call (.pause s._id) o.pauseOk Run.done else Run.done))).calls = [] := by
  cases o.playOk <;> cases o.seekOk <;> cases o.pauseOk <;> cases s.paused <;>
    cases (s.currentTrack.isSome && decide (s.position > 0)) <;>
    simp [Run.call, Run.andThen, Run.done, queueAdds]

theorem queueAdds_destroyAndMark (o : Outcomes) (s : SavedPlayer) :
    queueAdds s._id (destroyAndMark o s).calls = [] := by
  cases hd : o.destroyOk <;> cases hm : o.markDestroyedOk <;>
    simp [destroyAndMark, hd, hm, Run.call, Run.andThen, Run.done, queueAdds]

theorem loadedOf_nil_of_unresolved (o : Outcomes) (s : SavedPlayer)
    (hnone : ∀ k, k < (savedTracks s).length →
      o.search k = .rejected ∨ o.search k = .fulfilled []) :
    loadedOf o s = [] := by
  have h := collectLoaded_track o.search (tracksToLoad s) 0
  rw [← loadedOf_eq, tracksToLoad_length] at h
  have hnil : (List.range' 0 (savedTracks s).length).filterMap (fun k => firstTrack (o.search k))
      = [] := by
    rw [List.filterMap_eq_nil_iff]
    intro k hk
    have hlt : k < (savedTracks s).length := by
      have := List.mem_range'_1.mp hk
      omega
    rcases hnone k hlt with h1 | h1 <;> simp [h1, firstTrack]
  rw [hnil] at h
  exact List.map_eq_nil_iff.mp h

theorem trackQuery_eq_locatorSpec (t : SavedTrack) : trackQuery t = locatorSpec t := by
  cases hi : t.info with
  | none => simp [trackQuery, locatorSpec, hi, jsOr, truthy]
  | some i =>
    cases hu : i.uri with
    | none => simp [trackQuery, locatorSpec, hi, hu, jsOr, truthy]
    | some u =>
      by_cases he : u = ""
      · simp [trackQuery, locatorSpec, hi, hu, jsOr, truthy, he]
      · simp [trackQuery, locatorSpec, hi, hu, jsOr, truthy, he]

theorem searchesOf_append (g : String) (a b : List Call) :
    searchesOf g (a ++ b) = searchesOf g a ++ searchesOf g b := by
  simp [searchesOf]

theorem searchesOf_setupCalls (s : SavedPlayer) : searchesOf s._id (setupCalls s) = [] := by
  simp only [setupCalls, searchesOf_append]
  split <;> split <;> split <;> simp [searchesOf]

theorem searchesOf_searches (g : String) (l : List TrackToLoad) :
    searchesOf g (l.map (searchCall g)) = l.map (fun t => (t.query, t.requester)) := by
  induction l with
  | nil => rfl
  | cons t ts ih =>
    rw [List.map_cons, ← List.singleton_append, searchesOf_append, ih]
    simp [searchesOf, searchCall]

theorem searchesOf_afterAdds (o : Outcomes) (s : SavedPlayer) :
    searchesOf s._id
      (Run.call (.play s._id) o.playOk
        ((if s.currentTrack.isSome && decide (s.position > 0) then
            Run.call (.seek s._id s.position) o.seekOk
          else id)
          (if s.paused then Run.call (.pause s._id) o.pauseOk Run.done else Run.done))).calls = [] := by
  cases o.playOk <;> cases o.seekOk <;> cases o.pauseOk <;> cases s.paused <;>
    cases (s.currentTrack.isSome && decide (s.position > 0)) <;>
    simp [Run.call, Run.andThen, Run.done, searchesOf]

theorem searchesOf_addAll (g : String) (ok : Nat → Bool) (rest : Run)
    (hrest : searchesOf g rest.calls = []) (loaded : List Loaded) :
    ∀ k : Nat, searchesOf g (addAll g ok k loaded rest).calls = [] := by
  induction loaded with
  | nil => intro k; simpa [addAll] using hrest
  | cons v vs ih =>
    intro k
    cases hk : ok k
    · simp [addAll, Run.call, hk, searchesOf]
    · have hcalls : (addAll g ok k (v :: vs) rest).calls =
          [Call.queueAdd g v.track] ++ (addAll g ok (k + 1) vs rest).calls := by
        simp [addAll, Run.call, hk, Run.andThen]
      rw [hcalls, searchesOf_append, ih (k + 1)]
      rfl

theorem searchesOf_destroyAndMark (o : Outcomes) (s : SavedPlayer) :
    searchesOf s._id (destroyAndMark o s).calls = [] := by
  cases hd : o.destroyOk <;> cases hm : o.markDestroyedOk <;>
    simp [destroyAndMark, hd, hm, Run.call, Run.andThen, Run.done, searchesOf]

theorem tracksToLoad_queries (s : SavedPlayer) :
    (tracksToLoad s).map (fun t => (t.query, t.requester)) =
      (savedTracks s).map (fun t => (locatorSpec t, t.requester)) := by
  cases hc : s.currentTrack <;>
    simp [tracksToLoad, savedTracks, hc, trackQuery_eq_locatorSpec]

/-- An iteration whose `catch` handler does not throw never ends the loop. -/
theorem resumeLoop_continues (client : Client) (outs : Nat → Outcomes) (i : Nat)
    (s : SavedPlayer) (rest : List SavedPlayer)
    (hcatch : (outs i).markDestroyedCatchOk = true) :
    resumeLoop client outs i (s :: rest) =
      Run.andThen (resumeOne client (outs i) s).calls (resumeLoop client outs (i + 1) rest) := by
  have hno : (resumeOne client (outs i) s).threw = false := by
    simp only [resumeOne]
    split
    · simp [hcatch]
    · next h => simpa using h
  simp [resumeLoop, hno]

/-! ## The claims -/

/-- C1: the liveness flag of the botstatus command is true exactly when the
stored status is not Offline and the heartbeat is less than 60000 ms old, the
clusterstats command computes the same flag, and a record whose heartbeat is
60000 ms or more old is not live whatever its status. -/
theorem isOnline_iff_status_and_fresh (now : Int) (bot : BotStatusDoc) :
    (BotStatusCommand.isOnline now bot = true ↔
        bot.status ≠ "Offline" ∧ ∃ t, bot.lastHeartbeat = some t ∧ now - t < 60000) ∧
    ClusterStats.isOnline now bot = BotStatusCommand.isOnline now bot ∧
    ¬ (BotStatusCommand.isOnline now bot = true ∧
        ∃ t, bot.lastHeartbeat = some t ∧ 60000 ≤ now - t) := by
  have key : BotStatusCommand.isOnline now bot = true ↔
      bot.status ≠ "Offline" ∧ ∃ t, bot.lastHeartbeat = some t ∧ now - t < 60000 := by
    cases h : bot.lastHeartbeat with
    | none => simp [BotStatusCommand.isOnline, h, jsSub, jsLt]
    | some t => simp [BotStatusCommand.isOnline, h, jsSub, jsLt]
  refine ⟨key, rfl, ?_⟩
  rintro ⟨hon, t, ht, hold⟩
  obtain ⟨_, t2, ht2, hfresh⟩ := key.mp hon
  rw [ht] at ht2
  cases ht2
  omega

/-- C2: when the guild and both channels are cached, the player is created
and connected and no `queue.add` throws, the tracks added to the queue are
the first results of exactly those entries of `[currentTrack] ++ queue` whose
search resolved with at least one track, in their original order. -/
theorem queueAdds_eq_resolved (client : Client) (o : Outcomes) (s : SavedPlayer) (g : Guild)
    (hg : client.guilds s._id = some g) (hvc : s.voiceChannelId ∈ g.channels)
    (htc : s.textChannelId ∈ g.channels) (hcreate : o.createPlayerOk = true)
    (hconn : o.connectOk = true) (hadd : ∀ k, o.queueAddOk k = true) :
    queueAdds s._id (resumeOne client o s).calls =
      (savedTracks s).enum.filterMap (fun kt => firstTrack (o.search kt.1)) := by
  have hexp : (savedTracks s).enum.filterMap (fun kt => firstTrack (o.search kt.1)) =
      (loadedOf o s).map (fun v => v.track) := by
    rw [loadedOf_eq, collectLoaded_track, tracksToLoad_length, List.enum,
      enumFrom_filterMap_fst (fun k => firstTrack (o.search k))]
  rw [hexp, resumeOne_calls, tryBody_reached client o s g hg hvc htc hcreate hconn,
    queueAdds_append, restoreQueue_eq]
  have hcatch : ∀ b : Bool, queueAdds s._id (if b then [Call.markDestroyed s._id] else []) = [] := by
    intro b; cases b <;> simp [queueAdds]
  rw [hcatch, List.append_nil]
  simp only [Run.andThen, queueAdds_append, queueAdds_setupCalls, List.nil_append]
  split
  · simp only [queueAdds_append, queueAdds_searches, List.nil_append]
    split
    · rw [startPlayback, addAll_ok s._id o.queueAddOk hadd]
      simp only [Run.andThen, queueAdds_append, queueAdds_added, queueAdds_afterAdds,
        List.append_nil]
    · next hz =>
      have : loadedOf o s = [] := by
        cases hl : loadedOf o s with
        | nil => rfl
        | cons v vs => simp [hl] at hz
      rw [queueAdds_destroyAndMark, this]
      rfl
  · next hno =>
    have hnil : loadedOf o s = [] := by
      have h1 : s.currentTrack = none := by
        cases hc : s.currentTrack with
        | none => rfl
        | some t => simp [hc] at hno
      have h2 : s.queue = [] := by
        cases hq : s.queue with
        | nil => rfl
        | cons t ts => simp [hq] at hno
      simp [loadedOf_eq, tracksToLoad, h1, h2, searchBatch, collectLoaded]
    rw [hnil]
    split
    · rw [queueAdds_destroyAndMark]; rfl
    · rfl

/-- Witness of C2: five queued tracks of which those at indices 2 and 4 do not
resolve; the three others are enqueued in their original order. -/
theorem queueAdds_eq_resolved_witness :
    (exampleClient.guilds fiveQueued._id = some ⟨"Guild 42", ["voice", "text"]⟩ ∧
      fiveQueued.voiceChannelId ∈ ["voice", "text"] ∧
      fiveQueued.textChannelId ∈ ["voice", "text"]) ∧
    queueAdds "42" (resumeOne exampleClient (allResolve failAt2And4) fiveQueued).calls =
      [⟨"r0"⟩, ⟨"r1"⟩, ⟨"r3"⟩] :=
  ⟨by decide,
    (queueAdds_eq_resolved exampleClient (allResolve failAt2And4) fiveQueued
      ⟨"Guild 42", ["voice", "text"]⟩ (by decide) (by decide) (by decide) rfl rfl
      (fun _ => rfl)).trans (by decide)⟩

/-- C3: for a snapshot without current track and with an empty queue, whose
guild and channels are cached and whose player is created and connected:
without the 24/7 flag `player.destroy` and `markDestroyed` are both called;
with the flag neither is called. -/
theorem empty_snapshot_destroyed_iff_not_247 (client : Client) (o : Outcomes) (s : SavedPlayer)
    (g : Guild) (hcur : s.currentTrack = none) (hq : s.queue = [])
    (hg : client.guilds s._id = some g) (hvc : s.voiceChannelId ∈ g.channels)
    (htc : s.textChannelId ∈ g.channels) (hcreate : o.createPlayerOk = true)
    (hconn : o.connectOk = true) :
    (s.twentyFourSeven = false →
      Call.destroy s._id ∈ (resumeOne client o s).calls ∧
      Call.markDestroyed s._id ∈ (resumeOne client o s).calls) ∧
    (s.twentyFourSeven = true →
      Call.destroy s._id ∉ (resumeOne client o s).calls ∧
      Call.markDestroyed s._id ∉ (resumeOne client o s).calls) := by
  rw [resumeOne_calls, tryBody_reached client o s g hg hvc htc hcreate hconn, restoreQueue_eq]
  constructor
  · intro h247
    cases hd : o.destroyOk <;> cases hm : o.markDestroyedOk <;>
      simp [hcur, hq, h247, destroyAndMark, hd, hm, Run.call, Run.andThen, Run.done]
  · intro h247
    cases hl : (s.loopMode != "off") <;> cases ha : s.autoPlay <;>
      simp [hcur, hq, h247, Run.andThen, Run.done, setupCalls, hl, ha]

/-- Witness of C3: the empty snapshot of guild 42 without the 24/7 flag. -/
theorem empty_snapshot_destroyed_iff_not_247_witness :
    ((emptySnapshot false).currentTrack = none ∧ (emptySnapshot false).queue = [] ∧
      exampleClient.guilds (emptySnapshot false)._id = some ⟨"Guild 42", ["voice", "text"]⟩) ∧
    (Call.destroy "42" ∈ (resumeOne exampleClient (allResolve noResults) (emptySnapshot false)).calls ∧
      Call.markDestroyed "42" ∈
        (resumeOne exampleClient (allResolve noResults) (emptySnapshot false)).calls) :=
  ⟨by decide,
    (empty_snapshot_destroyed_iff_not_247 exampleClient (allResolve noResults) (emptySnapshot false)
      ⟨"Guild 42", ["voice", "text"]⟩ rfl rfl (by decide) (by decide) (by decide) rfl rfl).1 rfl⟩

/-- C7: for a snapshot without the 24/7 flag that has a current track or
queued tracks, whose player is created and connected, when every search fails
or returns no track, `player.destroy` and `markDestroyed` are called and
`player.play` is not. -/
theorem unresolved_not_247_destroyed (client : Client) (o : Outcomes) (s : SavedPlayer)
    (g : Guild) (h247 : s.twentyFourSeven = false)
    (hhas : s.currentTrack.isSome = true ∨ s.queue ≠ [])
    (hg : client.guilds s._id = some g) (hvc : s.voiceChannelId ∈ g.channels)
    (htc : s.textChannelId ∈ g.channels) (hcreate : o.createPlayerOk = true)
    (hconn : o.connectOk = true)
    (hnone : ∀ k, k < (savedTracks s).length →
      o.search k = .rejected ∨ o.search k = .fulfilled []) :
    Call.destroy s._id ∈ (resumeOne client o s).calls ∧
    Call.markDestroyed s._id ∈ (resumeOne client o s).calls ∧
    Call.play s._id ∉ (resumeOne client o s).calls := by
  have hcond : (s.currentTrack.isSome || decide (s.queue.length > 0)) = true := by
    rcases hhas with h | h
    · simp [h]
    · cases hq : s.queue with
      | nil => exact absurd hq h
      | cons t ts => simp
  rw [resumeOne_calls, tryBody_reached client o s g hg hvc htc hcreate hconn, restoreQueue_eq,
    if_pos hcond, loadedOf_nil_of_unresolved o s hnone]
  cases hd : o.destroyOk <;> cases hm : o.markDestroyedOk <;>
    cases hl : (s.loopMode != "off") <;> cases ha : s.autoPlay <;>
    simp [h247, destroyAndMark, hd, hm, Run.call, Run.andThen, Run.done, setupCalls, hl, ha,
      searchCall]

/-- Witness of C7: one queued track whose search returns no track. -/
theorem unresolved_not_247_destroyed_witness :
    ((oneQueued false).twentyFourSeven = false ∧ (oneQueued false).queue ≠ [] ∧
      exampleClient.guilds (oneQueued false)._id = some ⟨"Guild 42", ["voice", "text"]⟩) ∧
    (Call.destroy "42" ∈ (resumeOne exampleClient (allResolve noResults) (oneQueued false)).calls ∧
      Call.markDestroyed "42" ∈
        (resumeOne exampleClient (allResolve noResults) (oneQueued false)).calls ∧
      Call.play "42" ∉ (resumeOne exampleClient (allResolve noResults) (oneQueued false)).calls) :=
  ⟨by decide,
    unresolved_not_247_destroyed exampleClient (allResolve noResults) (oneQueued false)
      ⟨"Guild 42", ["voice", "text"]⟩ rfl (Or.inr (by decide)) (by decide) (by decide)
      (by decide) rfl rfl (fun _ _ => Or.inr rfl)⟩

/-- C10: once the player of a snapshot is created and connected, the searches
issued are, in order, one per track of `[currentTrack] ++ queue`, each with the
track's locator (uri when present and non-empty, otherwise title) as query and
with the track's stored requester. -/
theorem searches_are_locators_in_order (client : Client) (o : Outcomes) (s : SavedPlayer)
    (g : Guild) (hg : client.guilds s._id = some g) (hvc : s.voiceChannelId ∈ g.channels)
    (htc : s.textChannelId ∈ g.channels) (hcreate : o.createPlayerOk = true)
    (hconn : o.connectOk = true) :
    searchesOf s._id (resumeOne client o s).calls =
      (savedTracks s).map (fun t => (locatorSpec t, t.requester)) := by
  rw [resumeOne_calls, tryBody_reached client o s g hg hvc htc hcreate hconn,
    searchesOf_append, restoreQueue_eq]
  have hcatch : ∀ b : Bool, searchesOf s._id (if b then [Call.markDestroyed s._id] else []) = [] := by
    intro b; cases b <;> simp [searchesOf]
  rw [hcatch, List.append_nil]
  simp only [Run.andThen, searchesOf_append, searchesOf_setupCalls, List.nil_append]
  split
  · simp only [searchesOf_append, searchesOf_searches, tracksToLoad_queries]
    split
    · rw [startPlayback, searchesOf_addAll _ _ _ (searchesOf_afterAdds o s), List.append_nil]
    · rw [searchesOf_destroyAndMark, List.append_nil]
  · next hno =>
    have h1 : s.currentTrack = none := by
      cases hc : s.currentTrack with
      | none => rfl
      | some t => simp [hc] at hno
    have h2 : s.queue = [] := by
      cases hq : s.queue with
      | nil => rfl
      | cons t ts => simp [hq] at hno
    have hnil : savedTracks s = [] := by simp [savedTracks, h1, h2]
    rw [hnil]
    split
    · rw [searchesOf_destroyAndMark]; rfl
    · rfl

/-- Witness of C10: the scenario with current track `u1` and queue `u2`, `u3`. -/
theorem searches_are_locators_in_order_witness :
    exampleClient.guilds (scenario42 false 0)._id = some ⟨"Guild 42", ["voice", "text"]⟩ ∧
    searchesOf "42" (resumeOne exampleClient (allResolve resolve123) (scenario42 false 0)).calls =
      [(some "u1", none), (some "u2", none), (some "u3", none)] :=
  ⟨by decide,
    (searches_are_locators_in_order exampleClient (allResolve resolve123) (scenario42 false 0)
      ⟨"Guild 42", ["voice", "text"]⟩ (by decide) (by decide) (by decide) rfl rfl).trans
      (by decide)⟩

/-- C4, evaluated at a failing input: the first snapshot has a missing voice
channel and the store is unreachable, so both `markDestroyed` calls throw; the
second snapshot, which is resumable, is never looked at. -/
theorem store_failure_ends_loop :
    resumePlayers exampleClient (.ok [channelGone, oneQueued false]) storeDownFirst =
      [.getGuild "43", .markDestroyed "43", .markDestroyed "43"] ∧
    Call.getGuild "42" ∉
      resumePlayers exampleClient (.ok [channelGone, oneQueued false]) storeDownFirst ∧
    Call.play "42" ∈
      resumePlayers exampleClient (.ok [oneQueued false]) (fun _ => allResolve oneResult) := by
  simp only [resumePlayers, resumeLoop, resumeOne, tryBody, createAndRestore, restoreQueue_eq,
    loadedOf_eq]
  decide

/-- C5, counterexample: the guild of the snapshot is not in the cache, and
`resumePlayers` does not tombstone the snapshot. -/
theorem guild_missing_not_tombstoned :
    exampleClient.guilds guildGone._id = none ∧
    Call.markDestroyed guildGone._id ∉
      resumePlayers exampleClient (.ok [guildGone]) (fun _ => allResolve oneResult) := by
  decide

/-- C5, amended: a snapshot whose guild is not cached is skipped without any
call; a snapshot whose guild is cached but whose voice or text channel is
missing is tombstoned (its `markDestroyed` resolving); in both cases no player
is created and the loop goes on with the next snapshot. -/
theorem missing_guild_or_channel_skipped (client : Client) (outs : Nat → Outcomes) (i : Nat)
    (s : SavedPlayer) (rest : List SavedPlayer)
    (hmiss : client.guilds s._id = none ∨
      ∃ g, client.guilds s._id = some g ∧
        (s.voiceChannelId ∉ g.channels ∨ s.textChannelId ∉ g.channels))
    (hmd : client.guilds s._id ≠ none → (outs i).markDestroyedOk = true) :
    resumeLoop client outs i (s :: rest) =
      Run.andThen
        (Call.getGuild s._id ::
          (if (client.guilds s._id).isSome then [Call.markDestroyed s._id] else []))
        (resumeLoop client outs (i + 1) rest) := by
  rcases hmiss with hnone | ⟨g, hg, hch⟩
  · simp [resumeLoop, resumeOne, tryBody, hnone, Run.andThen, Run.done]
  · have hok : (outs i).markDestroyedOk = true := hmd (by simp [hg])
    rcases hch with hv | ht
    · simp [resumeLoop, resumeOne, tryBody, hg, hv, hok, Run.call, Run.andThen, Run.done]
    · simp [resumeLoop, resumeOne, tryBody, hg, ht, hok, Run.call, Run.andThen, Run.done]

/-- Witness of the amended C5: the voice channel of the snapshot of guild 43
is gone; the snapshot is tombstoned and the next snapshot is processed. -/
theorem missing_guild_or_channel_skipped_witness :
    (exampleClient.guilds channelGone._id = some ⟨"Guild 43", ["text"]⟩ ∧
      channelGone.voiceChannelId ∉ ["text"]) ∧
    resumeLoop exampleClient (fun _ => allResolve oneResult) 0 [channelGone, oneQueued false] =
      Run.andThen
        (Call.getGuild channelGone._id ::
          (if (exampleClient.guilds channelGone._id).isSome then
            [Call.markDestroyed channelGone._id] else []))
        (resumeLoop exampleClient (fun _ => allResolve oneResult) 1 [oneQueued false]) :=
  ⟨by decide,
    missing_guild_or_channel_skipped exampleClient (fun _ => allResolve oneResult) 0 channelGone
      [oneQueued false] (Or.inr ⟨⟨"Guild 43", ["text"]⟩, by decide, Or.inl (by decide)⟩)
      (fun _ => rfl)⟩

/-- C6, evaluated at a failing input: a 24/7 snapshot with one queued track
whose search returns no track; the player is destroyed and the snapshot is
tombstoned. -/
theorem unresolved_247_destroyed :
    (oneQueued true).twentyFourSeven = true ∧
    resumePlayers exampleClient (.ok [oneQueued true]) (fun _ => allResolve noResults) =
      [.getGuild "42", .createPlayer "42" "voice" "text" true 80, .connect "42",
        .setVolume "42" 80, .set "42" "twentyFourSeven" true, .search "42" (some "u0") none,
        .destroy "42", .markDestroyed "42"] := by
  simp only [resumePlayers, resumeLoop, resumeOne, tryBody, createAndRestore, restoreQueue_eq,
    loadedOf_eq]
  decide

/-- C8, evaluated at a failing input: `player.play` throws after the player
was created and a track enqueued; the snapshot is tombstoned but
`player.destroy` is never called. -/
theorem exception_leaves_player :
    resumePlayers exampleClient (.ok [oneQueued false]) (fun _ => playThrows) =
      [.getGuild "42", .createPlayer "42" "voice" "text" true 80, .connect "42",
        .setVolume "42" 80, .search "42" (some "u0") none, .queueAdd "42" ⟨"r"⟩, .play "42",
        .markDestroyed "42"] ∧
    Call.destroy "42" ∉
      resumePlayers exampleClient (.ok [oneQueued false]) (fun _ => playThrows) := by
  simp only [resumePlayers, resumeLoop, resumeOne, tryBody, createAndRestore, restoreQueue_eq,
    loadedOf_eq]
  decide

/-- C9: the example scenario.  For the snapshot of guild 42 with volume 80,
loop mode `queue`, current track `u1` and queue `u2`, `u3`, not paused and
without the 24/7 flag, when the guild and channels are cached, every call
resolves and the three searches return `r1`, `r2`, `r3` first: the player is
created for guild 42 with volume 80, the repeat mode is set to `queue`, the
tracks `r1`, `r2`, `r3` are enqueued in this order, `play` is called once,
nothing is paused, destroyed or tombstoned, and after `play` the current
track is `r1` and two tracks wait in the queue. -/
theorem scenario42_resumed (client : Client) (outs : Nat → Outcomes) (g : Guild)
    (autoPlay : Bool) (position : Int) (r1 r2 r3 : Track) (more1 more2 more3 : List Track)
    (hg : client.guilds "42" = some g) (hvc : "voice" ∈ g.channels) (htc : "text" ∈ g.channels)
    (hcreate : (outs 0).createPlayerOk = true) (hconn : (outs 0).connectOk = true)
    (h1 : (outs 0).search 0 = .fulfilled (r1 :: more1))
    (h2 : (outs 0).search 1 = .fulfilled (r2 :: more2))
    (h3 : (outs 0).search 2 = .fulfilled (r3 :: more3))
    (hadd : ∀ k, (outs 0).queueAddOk k = true) (hplay : (outs 0).playOk = true)
    (hseek : (outs 0).seekOk = true) :
    resumePlayers client (.ok [scenario42 autoPlay position]) outs =
      [.getGuild "42", .createPlayer "42" "voice" "text" true 80, .connect "42",
        .setVolume "42" 80, .setRepeatMode "42" "queue"] ++
      (if autoPlay then [.set "42" "autoplay" true] else []) ++
      [.search "42" (some "u1") none, .search "42" (some "u2") none,
        .search "42" (some "u3") none, .queueAdd "42" r1, .queueAdd "42" r2, .queueAdd "42" r3,
        .play "42"] ++
      (if position > 0 then [.seek "42" position] else []) ∧
    queueAdds "42" (resumePlayers client (.ok [scenario42 autoPlay position]) outs) =
      [r1, r2, r3] ∧
    (resumePlayers client (.ok [scenario42 autoPlay position]) outs).count (.play "42") = 1 ∧
    Call.pause "42" ∉ resumePlayers client (.ok [scenario42 autoPlay position]) outs ∧
    Call.destroy "42" ∉ resumePlayers client (.ok [scenario42 autoPlay position]) outs ∧
    Call.markDestroyed "42" ∉ resumePlayers client (.ok [scenario42 autoPlay position]) outs ∧
    queueAfter "42" (resumePlayers client (.ok [scenario42 autoPlay position]) outs) =
      ⟨some r1, [r2, r3]⟩ ∧
    (queueAfter "42"
      (resumePlayers client (.ok [scenario42 autoPlay position]) outs)).tracks.length = 2 := by
  have htry := tryBody_reached client (outs 0) (scenario42 autoPlay position) g hg hvc htc
    hcreate hconn
  have hloaded : loadedOf (outs 0) (scenario42 autoPlay position) =
      [⟨r1, true⟩, ⟨r2, false⟩, ⟨r3, false⟩] := by
    simp [loadedOf_eq, scenario42, tracksToLoad, searchBatch, List.enumFrom, h1, h2, h3,
      searchTrack, collectLoaded]
  have hcalls : resumePlayers client (.ok [scenario42 autoPlay position]) outs =
      [.getGuild "42", .createPlayer "42" "voice" "text" true 80, .connect "42",
        .setVolume "42" 80, .setRepeatMode "42" "queue"] ++
      (if autoPlay then [.set "42" "autoplay" true] else []) ++
      [.search "42" (some "u1") none, .search "42" (some "u2") none,
        .search "42" (some "u3") none, .queueAdd "42" r1, .queueAdd "42" r2, .queueAdd "42" r3,
        .play "42"] ++
      (if position > 0 then [.seek "42" position] else []) := by
    simp only [resumePlayers, resumeLoop, resumeOne, htry, restoreQueue_eq, hloaded, startPlayback,
      addAll_ok _ _ hadd]
    by_cases hpos : position > 0 <;> cases autoPlay <;>
      simp [scenario42, setupCalls, tracksToLoad, trackQuery, savedTrackOf, jsOr, truthy,
        searchCall, Run.call, Run.andThen, Run.done, hplay, hseek, hpos]
  rw [hcalls]
  refine ⟨rfl, ?_⟩
  by_cases hpos : position > 0 <;> cases autoPlay <;>
    simp [hpos, queueAdds, queueAfter, applyCall, List.count_cons]

/-- Witness of C9: the scenario on `exampleClient`, every call resolving. -/
theorem scenario42_resumed_witness :
    exampleClient.guilds "42" = some ⟨"Guild 42", ["voice", "text"]⟩ ∧
    (queueAfter "42"
      (resumePlayers exampleClient (.ok [scenario42 false 0])
        (fun _ => allResolve resolve123))).tracks.length = 2 :=
  ⟨by decide,
    (scenario42_resumed exampleClient (fun _ => allResolve resolve123)
      ⟨"Guild 42", ["voice", "text"]⟩ false 0 ⟨"r1"⟩ ⟨"r2"⟩ ⟨"r3"⟩ [] [] [] (by decide)
      (by decide) (by decide) rfl rfl rfl rfl rfl (fun _ => rfl) rfl rfl).2.2.2.2.2.2.2⟩

/-! ## Lemmas on the guild of a call -/

theorem CallsFor.andThen {g : String} {cs : List Call} {r : Run} (h1 : CallsFor g cs)
    (h2 : CallsFor g r.calls) : CallsFor g (Run.andThen cs r).calls := by
  intro c hc
  rcases List.mem_append.mp hc with h | h
  · exact h1 c h
  · exact h2 c h

theorem CallsFor.call {g : String} {c : Call} (ok : Bool) {r : Run} (h1 : Call.guildId c = g)
    (h2 : CallsFor g r.calls) : CallsFor g (Run.call c ok r).calls := by
  cases ok
  · intro x hx
    simp only [Run.call] at hx
    rcases List.mem_singleton.mp hx with rfl
    exact h1
  · intro x hx
    simp only [Run.call, Run.andThen, if_true] at hx
    rcases List.mem_cons.mp hx with rfl | hx
    · exact h1
    · exact h2 x (by simpa using hx)

theorem callsFor_done (g : String) : CallsFor g Run.done.calls := by
  intro c hc
  simp [Run.done] at hc

theorem callsFor_addAll (g : String) (ok : Nat → Bool) (rest : Run) (hrest : CallsFor g rest.calls)
    (loaded : List Loaded) : ∀ k : Nat, CallsFor g (addAll g ok k loaded rest).calls := by
  induction loaded with
  | nil => intro k; simpa [addAll] using hrest
  | cons v vs ih =>
    intro k
    simp only [addAll]
    exact CallsFor.call (ok k) rfl (ih (k + 1))

theorem callsFor_destroyAndMark (o : Outcomes) (s : SavedPlayer) :
    CallsFor s._id (destroyAndMark o s).calls :=
  CallsFor.call _ rfl (CallsFor.call _ rfl (callsFor_done _))

theorem callsFor_startPlayback (o : Outcomes) (s : SavedPlayer) (loaded : List Loaded) :
    CallsFor s._id (startPlayback o s loaded).calls := by
  apply callsFor_addAll
  apply CallsFor.call _ rfl
  have hpause : CallsFor s._id
      (if s.paused then Run.call (.pause s._id) o.pauseOk Run.done else Run.done).calls := by
    split
    · exact CallsFor.call _ rfl (callsFor_done _)
    · exact callsFor_done _
  split
  · exact CallsFor.call _ rfl hpause
  · exact hpause

theorem callsFor_restoreQueue (o : Outcomes) (s : SavedPlayer) :
    CallsFor s._id (restoreQueue o s).calls := by
  rw [restoreQueue_eq]
  split
  · apply CallsFor.andThen
    · intro c hc
      obtain ⟨t, _, rfl⟩ := List.mem_map.mp hc
      rfl
    · split
      · exact callsFor_startPlayback o s _
      · exact callsFor_destroyAndMark o s
  · split
    · exact callsFor_destroyAndMark o s
    · exact callsFor_done _

theorem callsFor_tryBody (client : Client) (o : Outcomes) (s : SavedPlayer) :
    CallsFor s._id (tryBody client o s).calls := by
  simp only [tryBody]
  apply CallsFor.andThen
  · intro c hc
    rcases List.mem_singleton.mp hc with rfl
    rfl
  · split
    · exact callsFor_done _
    · split
      · exact CallsFor.call _ rfl (callsFor_done _)
      · simp only [createAndRestore]
        apply CallsFor.call _ rfl
        apply CallsFor.call _ rfl
        apply CallsFor.andThen
        · intro c hc
          simp only [List.mem_append, List.mem_singleton] at hc
          rcases hc with ((rfl | hc) | hc) | hc
          · rfl
          · split at hc
            · rcases List.mem_singleton.mp hc with rfl
              rfl
            · simp at hc
          · split at hc
            · rcases List.mem_singleton.mp hc with rfl
              rfl
            · simp at hc
          · split at hc
            · rcases List.mem_singleton.mp hc with rfl
              rfl
            · simp at hc
        · exact callsFor_restoreQueue o s

theorem callsFor_resumeOne (client : Client) (o : Outcomes) (s : SavedPlayer) :
    CallsFor s._id (resumeOne client o s).calls := by
  intro c hc
  rw [resumeOne_calls] at hc
  rcases List.mem_append.mp hc with h | h
  · exact callsFor_tryBody client o s c h
  · split at h
    · rcases List.mem_singleton.mp h with rfl
      rfl
    · simp at h

/-- Every call of the loop is made for the guild of one of the snapshots. -/
theorem resumeLoop_guildId (client : Client) (outs : Nat → Outcomes) (l : List SavedPlayer) :
    ∀ (i : Nat), ∀ c ∈ (resumeLoop client outs i l).calls,
      Call.guildId c ∈ l.map (fun s => s._id) := by
  induction l with
  | nil =>
    intro i c hc
    simp [resumeLoop, Run.done] at hc
  | cons s rest ih =>
    intro i c hc
    simp only [resumeLoop] at hc
    split at hc
    · rw [List.map_cons, callsFor_resumeOne client (outs i) s c hc]
      exact List.mem_cons_self _ _
    · rcases List.mem_append.mp hc with h | h
      · rw [List.map_cons, callsFor_resumeOne client (outs i) s c h]
        exact List.mem_cons_self _ _
      · rw [List.map_cons]
        exact List.mem_cons_of_mem _ (ih (i + 1) c h)

theorem resumePlayers_guildId (client : Client) (outs : Nat → Outcomes) (l : List SavedPlayer) :
    ∀ c ∈ resumePlayers client (.ok l) outs, Call.guildId c ∈ l.map (fun s => s._id) := by
  intro c hc
  simp only [resumePlayers] at hc
  split at hc
  · simp at hc
  · exact resumeLoop_guildId client outs l 0 c hc

/-! ## The claims on batching, seeking and tombstones -/

/-- C11: on a list of `n` tracks the search loop makes `ceil(n/5)` passes, one
after another; the searches a pass issues before it awaits their results are
those of one slice of the list, between 1 and 5 of them, exactly 5 in every
pass but the last, and the passes concatenate to one search per track, in
order.  The loop is total.  Every search of a pass has its settled result in
that pass, and the tracks collected are the first results of the searches that
resolved with a track, whatever the other searches of the pass did.
`restoreQueue` issues the searches of these passes first. -/
theorem searches_run_in_batches_of_five (g : String) (search : Nat → SearchOutcome)
    (toLoad : List TrackToLoad) :
    (searchRounds g search toLoad).length = (toLoad.length + 4) / 5 ∧
    (∀ r ∈ searchRounds g search toLoad, 0 < r.length ∧ r.length ≤ 5) ∧
    (∀ r ∈ (searchRounds g search toLoad).dropLast, r.length = 5) ∧
    (searchRounds g search toLoad).flatten = toLoad.map (searchCall g) ∧
    (searchRounds g search toLoad = (batchesFrom toLoad 0).map (List.map (searchCall g)) ∧
      (batchesFrom toLoad 0).flatten = toLoad) ∧
    (∀ r ∈ (loadTracks g search toLoad 0 [] []).1, r.results.length = r.searches.length) ∧
    ((loadTracks g search toLoad 0 [] []).1.map Round.results).flatten =
      searchBatch search 0 toLoad ∧
    (loadTracks g search toLoad 0 [] []).2 =
      collectLoaded (((loadTracks g search toLoad 0 [] []).1.map Round.results).flatten) ∧
    ((loadTracks g search toLoad 0 [] []).2).map (fun v => v.track) =
      (List.range toLoad.length).filterMap (fun k => firstTrack (search k)) ∧
    (∀ (o : Outcomes) (s : SavedPlayer),
      (s.currentTrack.isSome || decide (s.queue.length > 0)) = true →
      ∃ rest, (restoreQueue o s).calls =
        (searchRounds s._id o.search (tracksToLoad s)).flatten ++ rest) := by
  obtain ⟨h1, h2, h3, h4, _⟩ := batchesFrom_spec g search toLoad _ 0 rfl
  obtain ⟨_, r2, r3⟩ := loadTracks_rounds g search toLoad _ 0 [] [] rfl
  have hres : ((loadTracks g search toLoad 0 [] []).1.map Round.results).flatten =
      searchBatch search 0 toLoad := by
    simpa using r2
  refine ⟨?_, ?_, ?_, searchRounds_flatten g search toLoad,
    ⟨searchRounds_eq g search toLoad, by simpa using h4⟩, r3 (by simp), hres, ?_, ?_, ?_⟩
  · rw [searchRounds_eq, List.length_map]
    simpa using h1
  · intro r hr
    rw [searchRounds_eq] at hr
    obtain ⟨b, hb, rfl⟩ := List.mem_map.mp hr
    rw [List.length_map]
    exact h2 b hb
  · intro r hr
    rw [searchRounds_eq, ← List.map_dropLast] at hr
    obtain ⟨b, hb, rfl⟩ := List.mem_map.mp hr
    rw [List.length_map]
    exact h3 b hb
  · rw [hres, loadTracks_eq g search toLoad _ 0 [] [] rfl]
    simp
  · rw [loadTracks_eq g search toLoad _ 0 [] [] rfl, List.range_eq_range']
    simpa using collectLoaded_track search toLoad 0
  · intro o s hs
    refine ⟨(if (loadTracks s._id o.search (tracksToLoad s) 0 [] []).2.length > 0 then
        startPlayback o s (loadTracks s._id o.search (tracksToLoad s) 0 [] []).2
      else destroyAndMark o s).calls, ?_⟩
    simp only [restoreQueue, hs, if_true, Run.andThen, searchRounds]

/-- C12, evaluated at a failing input: the snapshot has a current track, a
queued track and position 5000; the search for the current track throws and
the queued track resolves to `r2`.  The only track loaded is not the current
one, playback starts with it, and `seek(5000)` is issued all the same. -/
theorem seek_issued_for_queued_track :
    loadedOf (allResolve currentFails) currentAndQueued = [⟨⟨"r2"⟩, false⟩] ∧
    resumePlayers exampleClient (.ok [currentAndQueued]) (fun _ => allResolve currentFails) =
      [.getGuild "42", .createPlayer "42" "voice" "text" true 80, .connect "42",
        .setVolume "42" 80, .search "42" (some "u1") none, .search "42" (some "u2") none,
        .queueAdd "42" ⟨"r2"⟩, .play "42", .seek "42" 5000] := by
  simp only [resumePlayers, resumeLoop, resumeOne, tryBody, createAndRestore, restoreQueue_eq,
    loadedOf_eq]
  decide

/-- C15: with `findActiveByBot` returning the non-destroyed snapshots of the
bot, and the store keyed by guild id, `resumePlayers` makes no call at all for
the guild of a snapshot whose `destroyed` flag is set: no player is created,
no search is issued and no playback is started for it. -/
theorem destroyed_snapshot_not_replayed (client : Client) (outs : Nat → Outcomes)
    (store : List StoredPlayer) (botId : String) (d : StoredPlayer)
    (hkey : (store.map (fun x => x.doc._id)).Nodup) (hd : d ∈ store)
    (hdes : d.destroyed = true) :
    ∀ c ∈ resumePlayers client (.ok (findActiveByBot store botId)) outs,
      Call.guildId c ≠ d.doc._id := by
  intro c hc heq
  have hmem := resumePlayers_guildId client outs _ c hc
  rw [heq] at hmem
  obtain ⟨sp, hsp, hid⟩ := List.mem_map.mp hmem
  obtain ⟨x, hx, rfl⟩ := List.mem_map.mp hsp
  obtain ⟨hxs, hxp⟩ := List.mem_filter.mp hx
  have hxd : x = d := List.inj_on_of_nodup_map hkey hxs hd hid
  rw [hxd, hdes] at hxp
  simp at hxp

/-- Witness of C15: in `exampleStore` the snapshot of guild 42 is tombstoned,
and no call is made for guild 42. -/
theorem destroyed_snapshot_not_replayed_witness :
    ((exampleStore.map (fun x => x.doc._id)).Nodup ∧
      (⟨oneQueued false, "bot-1", true⟩ : StoredPlayer) ∈ exampleStore) ∧
    ∀ c ∈ resumePlayers exampleClient (.ok (findActiveByBot exampleStore "bot-1"))
        (fun _ => allResolve oneResult),
      Call.guildId c ≠ "42" :=
  ⟨by decide,
    destroyed_snapshot_not_replayed exampleClient (fun _ => allResolve oneResult) exampleStore
      "bot-1" ⟨oneQueued false, "bot-1", true⟩ (by decide) (by decide) rfl⟩

/-! ## The claims on reassignment -/

/-- C16: when the target bot exists but is not ready, the reassign command
replies that the bot is offline and does not call `forceAssign`. -/
theorem reassign_offline_target_rejected (botCluster : String → Option ClusterBot)
    (forceAssign : String → String → ForceAssignOutcome) (target : String)
    (guildArg : Option String) (ctxGuildId : String) (bot : ClusterBot)
    (hid : target ≠ "") (hbot : botCluster target = some bot) (hready : bot.ready = false) :
    (Reassign.run botCluster forceAssign (some target) guildArg ctxGuildId).reply = .botOffline ∧
    (Reassign.run botCluster forceAssign (some target) guildArg ctxGuildId).forceAssignCalls
      = [] := by
  simp [Reassign.run, hid, hbot, hready]

/-- Witness of C16: `bot-3` of the example cluster is not ready. -/
theorem reassign_offline_target_rejected_witness :
    exampleCluster "bot-3" = some ⟨"Bot 3", false, some 1⟩ ∧
    (Reassign.run exampleCluster forceAssignSucceeds (some "bot-3") none "42").reply
      = .botOffline ∧
    (Reassign.run exampleCluster forceAssignSucceeds (some "bot-3") none "42").forceAssignCalls
      = [] :=
  ⟨by decide,
    reassign_offline_target_rejected exampleCluster forceAssignSucceeds "bot-3" none "42"
      ⟨"Bot 3", false, some 1⟩ (by decide) (by decide) rfl⟩

/-- C17, counterexample: `bot-2` is ready and has no Lavalink node; the
command replies with the warning and `forceAssign` is not called. -/
theorem reassign_without_lavalink_not_called :
    exampleCluster "bot-2" = some ⟨"Bot 2", true, some 0⟩ ∧
    Reassign.run exampleCluster forceAssignSucceeds (some "bot-2") none "42" =
      ⟨.lavalinkWarning, []⟩ := by
  decide

/-- C17, amended: when the target bot is ready but has no Lavalink node, the
reassign command replies with the Lavalink warning and stops there:
`forceAssign` is not called. -/
theorem reassign_without_lavalink_stops (botCluster : String → Option ClusterBot)
    (forceAssign : String → String → ForceAssignOutcome) (target : String)
    (guildArg : Option String) (ctxGuildId : String) (bot : ClusterBot)
    (hid : target ≠ "") (hbot : botCluster target = some bot) (hready : bot.ready = true)
    (hnodes : bot.lavalinkNodes = none ∨ bot.lavalinkNodes = some 0) :
    Reassign.run botCluster forceAssign (some target) guildArg ctxGuildId =
      ⟨.lavalinkWarning, []⟩ := by
  rcases hnodes with h | h <;> simp [Reassign.run, hid, hbot, hready, h]

/-- Witness of the amended C17: `bot-2` of the example cluster. -/
theorem reassign_without_lavalink_stops_witness :
    exampleCluster "bot-2" = some ⟨"Bot 2", true, some 0⟩ ∧
    Reassign.run exampleCluster (fun _ _ => .threw) (some "bot-2") (some "77") "42" =
      ⟨.lavalinkWarning, []⟩ :=
  ⟨by decide,
    reassign_without_lavalink_stops exampleCluster (fun _ _ => .threw) "bot-2" (some "77") "42"
      ⟨"Bot 2", true, some 0⟩ (by decide) (by decide) rfl (Or.inr rfl)⟩

/-! ## Lemmas on the directory -/

theorem recordsOf_map (dir : Directory) (g : String) (f : GuildAssignment → GuildAssignment)
    (hf : ∀ a, (f a).guildId = a.guildId) :
    recordsOf (dir.map f) g = (recordsOf dir g).map f := by
  induction dir with
  | nil => rfl
  | cons a rest ih =>
    simp only [recordsOf, List.map_cons, List.filter_cons, hf a] at ih ⊢
    split
    · rw [List.map_cons, ih]
    · exact ih

theorem recordsOf_deactivate (dir : Directory) (g g2 : String) :
    (recordsOf (deactivate dir g2) g).length = (recordsOf dir g).length := by
  rw [deactivate, recordsOf_map, List.length_map]
  intro a
  split <;> rfl

theorem recordsOf_reassign (dir : Directory) (g g2 w : String) :
    (recordsOf (reassign dir g2 w) g).length = (recordsOf dir g).length := by
  rw [reassign, recordsOf_map, List.length_map]
  intro a
  split <;> rfl

theorem recordsOf_activate (dir : Directory) (g g2 vc tc : String) :
    (recordsOf ((activate dir g2 vc tc).getD dir) g).length = (recordsOf dir g).length := by
  simp only [activate]
  split
  · rfl
  · rw [Option.getD_some, recordsOf_map, List.length_map]
    intro a
    split <;> rfl

theorem findById_none_iff (dir : Directory) (g : String) :
    findById dir g = none ↔ recordsOf dir g = [] := by
  simp [findById, recordsOf, List.find?_eq_none, List.filter_eq_nil_iff]

theorem recordsOf_getOrCreate (dir : Directory) (g g2 w c r : String) :
    (recordsOf (getOrCreateAssignment dir g2 w c r).2 g).length =
      if g2 = g ∧ recordsOf dir g = [] then 1 else (recordsOf dir g).length := by
  simp only [getOrCreateAssignment]
  cases hf : findById dir g2 with
  | some a =>
    have hne : recordsOf dir g2 ≠ [] := by
      intro h
      rw [(findById_none_iff dir g2).mpr h] at hf
      cases hf
    by_cases hg : g2 = g
    · subst hg
      simp [hne]
    · simp [hg]
  | none =>
    have hnil := (findById_none_iff dir g2).mp hf
    by_cases hg : g2 = g
    · subst hg
      have happ : recordsOf (dir ++ [⟨g2, w, c, r, false, none, none⟩]) g2 =
          recordsOf dir g2 ++ [⟨g2, w, c, r, false, none, none⟩] := by
        simp [recordsOf, List.filter_append]
      rw [happ, hnil]
      simp
    · have happ : recordsOf (dir ++ [⟨g2, w, c, r, false, none, none⟩]) g =
          recordsOf dir g := by
        simp [recordsOf, List.filter_append, hg]
      rw [happ]
      simp [hg]

/-- One call never removes a record of guild `g`, never makes a second one,
and `getOrCreate` for `g` leaves the guild with a record. -/
theorem recordsOf_applyOp (dir : Directory) (op : DirOp) (g : String)
    (hdir : (recordsOf dir g).length ≤ 1) :
    (recordsOf (applyOp dir op) g).length ≤ 1 ∧
    (recordsOf dir g).length ≤ (recordsOf (applyOp dir op) g).length ∧
    (∀ w c r, op = .getOrCreate g w c r → (recordsOf (applyOp dir op) g).length = 1) := by
  cases op with
  | getOrCreate g2 w c r =>
    simp only [applyOp, recordsOf_getOrCreate]
    refine ⟨?_, ?_, ?_⟩
    · split <;> omega
    · split
      · next h => simp [h.2]
      · exact Nat.le_refl _
    · intro w2 c2 r2 heq
      cases heq
      by_cases hnil : recordsOf dir g = []
      · simp [hnil]
      · have : (recordsOf dir g).length ≠ 0 := by
          intro h0
          exact hnil (List.length_eq_zero.mp h0)
        simp only [hnil, and_false, if_false]
        omega
  | activate g2 vc tc =>
    simp only [applyOp, recordsOf_activate]
    exact ⟨hdir, Nat.le_refl _, by intro w c r h; cases h⟩
  | deactivate g2 =>
    simp only [applyOp, recordsOf_deactivate]
    exact ⟨hdir, Nat.le_refl _, by intro w c r h; cases h⟩
  | reassign g2 w2 =>
    simp only [applyOp, recordsOf_reassign]
    exact ⟨hdir, Nat.le_refl _, by intro w c r h; cases h⟩

theorem recordsOf_runOps (g : String) (ops : List DirOp) :
    ∀ dir : Directory, (recordsOf dir g).length ≤ 1 →
      (recordsOf (runOps dir ops) g).length ≤ 1 ∧
      (((recordsOf dir g).length = 1 ∨ ∃ w c r, DirOp.getOrCreate g w c r ∈ ops) →
        (recordsOf (runOps dir ops) g).length = 1) := by
  induction ops with
  | nil =>
    intro dir hdir
    refine ⟨hdir, ?_⟩
    rintro (h | ⟨w, c, r, h⟩)
    · exact h
    · simp at h
  | cons op rest ih =>
    intro dir hdir
    obtain ⟨h1, h2, h3⟩ := recordsOf_applyOp dir op g hdir
    obtain ⟨i1, i2⟩ := ih (applyOp dir op) h1
    simp only [runOps, List.foldl_cons] at i1 i2 ⊢
    refine ⟨i1, ?_⟩
    rintro (h | ⟨w, c, r, h⟩)
    · exact i2 (Or.inl (by omega))
    · rcases List.mem_cons.mp h with heq | hmem
      · exact i2 (Or.inl (h3 w c r heq.symm))
      · exact i2 (Or.inr ⟨w, c, r, hmem⟩)

theorem reassign_reassign (dir : Directory) (g w : String) :
    reassign (reassign dir g w) g w = reassign dir g w := by
  simp only [reassign, List.map_map]
  apply List.map_congr_left
  intro a _
  by_cases h : a.guildId = g <;> simp [h]

/-! ## The claims on the directory -/

/-- C18: with `forceAssign` as the specification describes it, for a live
target bot the directory after two successive `forceAssign(g, w)` is the
directory after one, so owner and activation state of every guild agree. -/
theorem forceAssign_twice_eq_once (isLive backendConnected : String → Bool) (dir : Directory)
    (g w : String) (hlive : isLive w = true) :
    (forceAssign isLive backendConnected (forceAssign isLive backendConnected dir g w).2 g w).2 =
      (forceAssign isLive backendConnected dir g w).2 ∧
    (forceAssign isLive backendConnected dir g w).1.success = true ∧
    (∀ a ∈ recordsOf (forceAssign isLive backendConnected dir g w).2 g,
      a.ownerWorkerId = w ∧ a.isActive = false) := by
  refine ⟨?_, ?_, ?_⟩
  · simp [forceAssign, hlive, reassign_reassign]
  · simp [forceAssign, hlive]
  · intro a ha
    simp only [forceAssign, hlive, Bool.not_true, Bool.false_eq_true, if_false, recordsOf,
      reassign, List.mem_filter, List.mem_map, decide_eq_true_eq] at ha
    obtain ⟨⟨b, _, hb⟩, hag⟩ := ha
    by_cases hbg : b.guildId = g
    · rw [if_pos hbg] at hb
      subst hb
      exact ⟨rfl, rfl⟩
    · rw [if_neg hbg] at hb
      subst hb
      exact absurd hag hbg

/-- Witness of C18: guild 42, active on `bot-1`, is force-assigned to `bot-2`
twice. -/
theorem forceAssign_twice_eq_once_witness :
    (forceAssign (fun _ => true) (fun _ => true)
      (forceAssign (fun _ => true) (fun _ => true) exampleDirectory "42" "bot-2").2 "42" "bot-2").2 =
    [⟨"42", "bot-2", "client-1", "auto", false, none, none⟩] :=
  (forceAssign_twice_eq_once (fun _ => true) (fun _ => true) exampleDirectory "42" "bot-2"
    rfl).1.trans (by decide)

/-- C19: with the directory operations as the specification describes them,
starting from a directory with at most one record for guild `g`, every
sequence of `getOrCreate`, `activate`, `deactivate` and `reassign` calls leaves
at most one record for `g`, and exactly one as soon as the guild had a record
or the sequence creates it; `getOrCreate` on a guild that has a record returns
that record and leaves the directory as it is; a guild id that occurs in the
directory occurs in exactly one record. -/
theorem directory_one_record_per_guild (dir : Directory) (ops : List DirOp) (g : String)
    (hdir : (recordsOf dir g).length ≤ 1) :
    (recordsOf (runOps dir ops) g).length ≤ 1 ∧
    (((recordsOf dir g).length = 1 ∨ ∃ w c r, DirOp.getOrCreate g w c r ∈ ops) →
      (recordsOf (runOps dir ops) g).length = 1) ∧
    (∀ a w c r, findById dir g = some a → getOrCreateAssignment dir g w c r = (a, dir)) ∧
    ((∃ a ∈ runOps dir ops, a.guildId = g) → (recordsOf (runOps dir ops) g).length = 1) := by
  obtain ⟨h1, h2⟩ := recordsOf_runOps g ops dir hdir
  refine ⟨h1, h2, ?_, ?_⟩
  · intro a w c r ha
    simp [getOrCreateAssignment, ha]
  · rintro ⟨a, ha, hag⟩
    have hmem : a ∈ recordsOf (runOps dir ops) g := by
      simp [recordsOf, ha, hag]
    have hpos : 0 < (recordsOf (runOps dir ops) g).length := List.length_pos_of_mem hmem
    omega

/-- Witness of C19: from the empty directory, the calls of a play command, a
reassignment, a second play command and a stop leave one record for guild 42,
owned by the bot it was reassigned to. -/
theorem directory_one_record_per_guild_witness :
    (recordsOf ([] : Directory) "42").length ≤ 1 ∧
    (recordsOf (runOps [] [.getOrCreate "42" "bot-1" "client-1" "auto",
      .activate "42" "voice" "text", .reassign "42" "bot-2",
      .getOrCreate "42" "bot-1" "client-1" "auto", .deactivate "42"]) "42").length = 1 :=
  ⟨by decide,
    (directory_one_record_per_guild [] [.getOrCreate "42" "bot-1" "client-1" "auto",
      .activate "42" "voice" "text", .reassign "42" "bot-2",
      .getOrCreate "42" "bot-1" "client-1" "auto", .deactivate "42"] "42" (by decide)).2.1
      (Or.inr ⟨"bot-1", "client-1", "auto", by decide⟩)⟩

/-! ## The claims on the player commands -/

/-- C13, counterexample: guild 42 is assigned to `bot-2`, and the volume
command run on `bot-1` still sets the volume of its player and saves the
snapshot. -/
theorem volume_runs_without_ownership :
    (exampleSession "bot-2").assignmentOwner = some "bot-2" ∧
    (Volume.run "bot-1" commandOk (some "voice") (some 50) (exampleSession "bot-2")).reply =
      .volumeSet 50 ∧
    (Volume.run "bot-1" commandOk (some "voice") (some 50) (exampleSession "bot-2")).effects =
      [.setVolume 50, .savePlayerState "42"] ∧
    (Volume.run "bot-1" commandOk (some "voice") (some 50)
      (exampleSession "bot-2")).session.player ≠ (exampleSession "bot-2").player := by
  decide

/-- C13, amended: the volume, loop and clear commands do not look at the
guild's assignment.  Whatever bot the assignment names, when the member is in
the player's voice channel, the argument is valid (the queue not empty for
clear) and the player call resolves, the command changes the player and calls
`savePlayerState`. -/
theorem mutating_commands_ignore_owner (botId : String) (o : CommandOutcomes) (s : Session)
    (p : Player) (owner : Option String) (level : Int) (mode : String)
    (hp : s.player = some p) (hcall : o.playerCallOk = true)
    (hlo : 0 ≤ level) (hhi : level ≤ 150)
    (hmode : mode = "off" ∨ mode = "track" ∨ mode = "queue") (hq : p.tracks ≠ []) :
    ((Volume.run botId o (some p.voiceChannelId) (some level)
        { s with assignmentOwner := owner }).effects = [.setVolume level, .savePlayerState p.guildId] ∧
      (Volume.run botId o (some p.voiceChannelId) (some level)
        { s with assignmentOwner := owner }).session.player = some (p.setVolume level)) ∧
    ((Loop.run botId o (some p.voiceChannelId) (some mode)
        { s with assignmentOwner := owner }).effects = [.setRepeatMode mode, .savePlayerState p.guildId] ∧
      (Loop.run botId o (some p.voiceChannelId) (some mode)
        { s with assignmentOwner := owner }).session.player = some (p.setRepeatMode mode)) ∧
    ((Clear.run botId o (some p.voiceChannelId)
        { s with assignmentOwner := owner }).effects = [.clearQueue, .savePlayerState p.guildId] ∧
      (Clear.run botId o (some p.voiceChannelId)
        { s with assignmentOwner := owner }).session.player = some { p with tracks := [] }) := by
  have hnot : ¬ (level < 0 ∨ 150 < level) := by omega
  have hlen : p.tracks.length ≠ 0 := by
    intro h
    exact hq (List.length_eq_zero.mp h)
  have hsave : ∀ (q : Player) (t : Session),
      (savePlayerState botId o.saveStateOk q t).player = t.player := by
    intro q t
    simp only [savePlayerState]
    split <;> rfl
  refine ⟨⟨?_, ?_⟩, ⟨?_, ?_⟩, ⟨?_, ?_⟩⟩
  · simp [Volume.run, withPlayer, hp, hcall, hnot]
  · simp [Volume.run, withPlayer, hp, hcall, hnot, hsave]
  · rcases hmode with h | h | h <;> simp [Loop.run, withPlayer, hp, hcall, h, truthy]
  · rcases hmode with h | h | h <;> simp [Loop.run, withPlayer, hp, hcall, h, truthy, hsave]
  · simp [Clear.run, withPlayer, hp, hlen]
  · simp [Clear.run, withPlayer, hp, hlen, hsave]

/-- Witness of the amended C13: the session of guild 42 on `bot-1` while the
assignment names `bot-2`. -/
theorem mutating_commands_ignore_owner_witness :
    ((exampleSession "bot-1").player = some examplePlayer ∧ examplePlayer.tracks ≠ []) ∧
    (Clear.run "bot-1" commandOk (some examplePlayer.voiceChannelId)
      { exampleSession "bot-1" with assignmentOwner := some "bot-2" }).effects =
      [.clearQueue, .savePlayerState examplePlayer.guildId] :=
  ⟨by decide,
    (mutating_commands_ignore_owner "bot-1" commandOk (exampleSession "bot-1") examplePlayer
      (some "bot-2") 50 "track" rfl rfl (by decide) (by decide) (Or.inr (Or.inl rfl))
      (by decide)).2.2.1⟩

/-- C14, evaluated at a failing input: a successful pause command pauses the
player and does not call `savePlayerState`, so the stored snapshot still says
`paused = false`; a successful resume command on a paused player whose
snapshot says `paused = true` leaves the snapshot likewise. -/
theorem pause_and_resume_not_saved :
    (Pause.run commandOk (some "voice") (exampleSession "bot-1")).reply = .paused ∧
    (Pause.run commandOk (some "voice") (exampleSession "bot-1")).effects = [.pause] ∧
    (Pause.run commandOk (some "voice") (exampleSession "bot-1")).session.player.map
      (fun q => q.paused) = some true ∧
    (Pause.run commandOk (some "voice") (exampleSession "bot-1")).session.snapshot.map
      (fun d => d.doc.paused) = some false ∧
    (Resume.run commandOk (some "voice")
      ⟨some examplePlayer.pause, some (snapshotOf "bot-1" examplePlayer.pause), some "bot-1"⟩).effects
      = [.resume] ∧
    (Resume.run commandOk (some "voice")
      ⟨some examplePlayer.pause, some (snapshotOf "bot-1" examplePlayer.pause),
        some "bot-1"⟩).session.snapshot.map (fun d => d.doc.paused) = some true := by
  decide

/-- C20: the volume command changes the volume only to a level between 0 and
150.  For a level below 0 or above 150 the reply is an error, nothing is
called and player and snapshot stay as they are.  For a level in the range,
when the member is in the player's channel and `setVolume` resolves, the
volume of the player is that level and `savePlayerState` is called, the saved
snapshot carrying that level.  Whenever the volume differs after the command,
it is the requested level and that level lies in the range. -/
theorem volume_changes_only_within_range (botId : String) (o : CommandOutcomes)
    (memberVoice : Option String) (volumeArg : JsNum) (s : Session) :
    (∀ v, volumeArg = some v → (v < 0 ∨ 150 < v) →
      (Volume.run botId o memberVoice volumeArg s).session = s ∧
      (Volume.run botId o memberVoice volumeArg s).effects = [] ∧
      (Volume.run botId o memberVoice volumeArg s).reply ∈
        [Reply.notInVoiceChannel, Reply.nothingPlaying, Reply.differentVoiceChannel,
          Reply.volumeOutOfRange] ∧
      (∀ p, s.player = some p → memberVoice = some p.voiceChannelId →
        (Volume.run botId o memberVoice volumeArg s).reply = .volumeOutOfRange)) ∧
    (∀ v p, volumeArg = some v → 0 ≤ v → v ≤ 150 → s.player = some p →
      memberVoice = some p.voiceChannelId → o.playerCallOk = true →
      (Volume.run botId o memberVoice volumeArg s).reply = .volumeSet v ∧
      (Volume.run botId o memberVoice volumeArg s).session.player.map (fun q => q.volume)
        = some v ∧
      (Volume.run botId o memberVoice volumeArg s).effects =
        [.setVolume v, .savePlayerState p.guildId] ∧
      (o.saveStateOk = true →
        (Volume.run botId o memberVoice volumeArg s).session.snapshot.map
          (fun d => d.doc.volume) = some v)) ∧
    (∀ p p2, s.player = some p →
      (Volume.run botId o memberVoice volumeArg s).session.player = some p2 →
      p2.volume ≠ p.volume →
      ∃ v, volumeArg = some v ∧ 0 ≤ v ∧ v ≤ 150 ∧ p2.volume = v) := by
  refine ⟨?_, ?_, ?_⟩
  · intro v hv hout
    subst hv
    cases hm : memberVoice with
    | none => simp [Volume.run, withPlayer]
    | some vc =>
      cases hp : s.player with
      | none => simp [Volume.run, withPlayer, hp]
      | some p =>
        by_cases hvc : p.voiceChannelId = vc
        · simp [Volume.run, withPlayer, hp, hvc, hout]
        · have hne : ¬ vc = p.voiceChannelId := fun h => hvc h.symm
          simp [Volume.run, withPlayer, hp, hvc, hne]
  · intro v p hv hlo hhi hp hm hcall
    subst hv
    have hnot : ¬ (v < 0 ∨ 150 < v) := by omega
    refine ⟨?_, ?_, ?_, ?_⟩
    · simp [Volume.run, withPlayer, hp, hm, hcall, hnot]
    · cases hs : o.saveStateOk <;>
        simp [Volume.run, withPlayer, hp, hm, hcall, hnot, savePlayerState, hs, Player.setVolume]
    · simp [Volume.run, withPlayer, hp, hm, hcall, hnot]
    · intro hs
      simp [Volume.run, withPlayer, hp, hm, hcall, hnot, savePlayerState, hs, snapshotOf,
        Player.setVolume]
  · intro p p2 hp hp2 hne
    cases hm : memberVoice with
    | none =>
      simp [Volume.run, withPlayer, hm, hp] at hp2
      exact absurd (congrArg Player.volume hp2).symm hne
    | some vc =>
      by_cases hvc : p.voiceChannelId = vc
      · cases hv : volumeArg with
        | none =>
          simp [Volume.run, withPlayer, hm, hp, hvc, hv] at hp2
          exact absurd (congrArg Player.volume hp2).symm hne
        | some v =>
          by_cases hout : v < 0 ∨ 150 < v
          · simp [Volume.run, withPlayer, hm, hp, hvc, hv, hout] at hp2
            exact absurd (congrArg Player.volume hp2).symm hne
          · cases hcall : o.playerCallOk
            · simp [Volume.run, withPlayer, hm, hp, hvc, hv, hout, hcall] at hp2
              exact absurd (congrArg Player.volume hp2).symm hne
            · have hplayer : (Volume.run botId o memberVoice volumeArg s).session.player =
                  some (p.setVolume v) := by
                cases hs : o.saveStateOk <;>
                  simp [Volume.run, withPlayer, hm, hp, hvc, hv, hout, hcall, savePlayerState, hs]
              rw [hplayer] at hp2
              cases hp2
              exact ⟨v, rfl, by omega, by omega, rfl⟩
      · simp [Volume.run, withPlayer, hm, hp, hvc] at hp2
        exact absurd (congrArg Player.volume hp2).symm hne

/-! ## Lemmas on doubles -/

theorem roundTiesEven_bounds (x : ℚ) :
    (⌊x⌋ ≤ roundTiesEven x ∧ roundTiesEven x ≤ ⌊x⌋ + 1) ∧
    (Int.fract x = 0 → roundTiesEven x = ⌊x⌋) := by
  unfold roundTiesEven
  refine ⟨?_, ?_⟩
  · split_ifs <;> omega
  · intro h
    rw [if_pos (by rw [h]; norm_num)]

theorem roundTiesEven_le (x : ℚ) (n : ℤ) (h : x ≤ n) : roundTiesEven x ≤ n := by
  obtain ⟨⟨_, h2⟩, h3⟩ := roundTiesEven_bounds x
  by_cases hf : Int.fract x = 0
  · rw [h3 hf]
    have := Int.floor_mono h
    rwa [Int.floor_intCast] at this
  · have hlt : (⌊x⌋ : ℚ) < x := by
      have := Int.fract_nonneg x
      have hne : 0 < Int.fract x := lt_of_le_of_ne this (Ne.symm hf)
      have := Int.self_sub_floor x
      linarith
    have : (⌊x⌋ : ℚ) < n := lt_of_lt_of_le hlt h
    have : ⌊x⌋ < n := by exact_mod_cast this
    omega

theorem le_roundTiesEven (x : ℚ) (n : ℤ) (h : (n : ℚ) ≤ x) : n ≤ roundTiesEven x := by
  obtain ⟨⟨h1, _⟩, _⟩ := roundTiesEven_bounds x
  have : n ≤ ⌊x⌋ := Int.le_floor.mpr h
  omega

theorem roundTiesEven_intCast (n : ℤ) : roundTiesEven (n : ℚ) = n :=
  le_antisymm (roundTiesEven_le _ _ le_rfl) (le_roundTiesEven _ _ le_rfl)

theorem abs_roundTiesEven_sub (x : ℚ) : |(roundTiesEven x : ℚ) - x| ≤ 1 / 2 := by
  have hf := Int.self_sub_floor x
  have h0 := Int.fract_nonneg x
  have h1 := Int.fract_lt_one x
  unfold roundTiesEven
  rw [abs_le]
  split_ifs with a b c
  · constructor <;> linarith
  · push_cast
    constructor <;> linarith
  · constructor <;> linarith
  · push_cast
    constructor <;> linarith

theorem roundTiesEven_eq_of_lt (x : ℚ) (m : ℤ) (h1 : (m : ℚ) - 1 / 2 < x) (h2 : x < m + 1 / 2) :
    roundTiesEven x = m := by
  have h := abs_roundTiesEven_sub x
  rw [abs_le] at h
  have ha : ((roundTiesEven x : ℤ) : ℚ) < m + 1 := by linarith
  have hb : (m : ℚ) - 1 < roundTiesEven x := by linarith
  have ha2 : roundTiesEven x < m + 1 := by exact_mod_cast ha
  have hb2 : m - 1 < roundTiesEven x := by exact_mod_cast hb
  omega

theorem two_zpow_pos (e : ℤ) : (0 : ℚ) < 2 ^ e := zpow_pos (by norm_num) e

theorem log_bounds (x : ℚ) (hx : 0 < x) :
    (2 : ℚ) ^ (Int.log 2 x) ≤ x ∧ x < (2 : ℚ) ^ (Int.log 2 x + 1) := by
  have h1 := Int.zpow_log_le_self (b := 2) (by norm_num) hx
  have h2 := Int.lt_zpow_succ_log_self (b := 2) (by norm_num) x
  simp only [Nat.cast_ofNat] at h1 h2
  exact ⟨h1, h2⟩

theorem log_lt_of_lt (x : ℚ) (hx : 0 < x) (k : ℤ) (h : x < (2 : ℚ) ^ k) : Int.log 2 x < k := by
  have := (Int.lt_zpow_iff_log_lt (b := 2) (by norm_num) (x := k) hx).mp
    (by simpa only [Nat.cast_ofNat] using h)
  exact this

theorem le_log_of_le (x : ℚ) (hx : 0 < x) (k : ℤ) (h : (2 : ℚ) ^ k ≤ x) : k ≤ Int.log 2 x := by
  have := (Int.zpow_le_iff_le_log (b := 2) (by norm_num) (x := k) hx).mp
    (by simpa only [Nat.cast_ofNat] using h)
  exact this

theorem log_eq_of_bounds (x : ℚ) (L : ℤ) (h1 : (2 : ℚ) ^ L ≤ x) (h2 : x < (2 : ℚ) ^ (L + 1)) :
    Int.log 2 x = L := by
  have hx : 0 < x := lt_of_lt_of_le (two_zpow_pos L) h1
  have a := log_lt_of_lt x hx _ h2
  have b := le_log_of_le x hx _ h1
  omega

/-- A multiple of `2 ^ k` is an integer multiple of `2 ^ e` when `e ≤ k`. -/
theorem grid_point (n k e : ℤ) (h : e ≤ k) :
    (n : ℚ) * 2 ^ k = ((n * 2 ^ (k - e).toNat : ℤ) : ℚ) * 2 ^ e := by
  have hk : k = (k - e).toNat + e := by
    have := Int.toNat_of_nonneg (sub_nonneg.mpr h)
    omega
  conv_lhs => rw [hk]
  rw [zpow_add₀ (by norm_num : (2 : ℚ) ≠ 0)]
  push_cast
  rw [zpow_natCast]
  ring

theorem toDoublePos_le (x : ℚ) (hx : 0 < x) (n k : ℤ) (hlt : x < (2 : ℚ) ^ (k + 53))
    (hle : x ≤ n * 2 ^ k) : toDoublePos x ≤ n * 2 ^ k := by
  have hL := log_lt_of_lt x hx _ hlt
  have he : Int.log 2 x - 52 ≤ k := by omega
  unfold toDoublePos
  simp only
  rw [grid_point n k _ he] at hle ⊢
  have hpos := two_zpow_pos (Int.log 2 x - 52)
  apply mul_le_mul_of_nonneg_right _ hpos.le
  have : x / 2 ^ (Int.log 2 x - 52) ≤ ((n * 2 ^ (k - (Int.log 2 x - 52)).toNat : ℤ) : ℚ) := by
    rw [div_le_iff₀ hpos]
    exact hle
  exact_mod_cast roundTiesEven_le _ _ this

theorem le_toDoublePos (x : ℚ) (hx : 0 < x) (n k : ℤ) (hlt : x < (2 : ℚ) ^ (k + 53))
    (hle : (n : ℚ) * 2 ^ k ≤ x) : (n : ℚ) * 2 ^ k ≤ toDoublePos x := by
  have hL := log_lt_of_lt x hx _ hlt
  have he : Int.log 2 x - 52 ≤ k := by omega
  unfold toDoublePos
  simp only
  rw [grid_point n k _ he] at hle ⊢
  have hpos := two_zpow_pos (Int.log 2 x - 52)
  apply mul_le_mul_of_nonneg_right _ hpos.le
  have : ((n * 2 ^ (k - (Int.log 2 x - 52)).toNat : ℤ) : ℚ) ≤ x / 2 ^ (Int.log 2 x - 52) := by
    rw [le_div_iff₀ hpos]
    exact hle
  exact_mod_cast le_roundTiesEven _ _ this

/-- A positive multiple of `2 ^ k` with fewer than 54 bits is a double. -/
theorem toDoublePos_grid (n k : ℤ) (hn : 0 < n) (hlt : n ≤ 2 ^ 53) :
    toDoublePos ((n : ℚ) * 2 ^ k) = n * 2 ^ k := by
  have hx : (0 : ℚ) < n * 2 ^ k := mul_pos (by exact_mod_cast hn) (two_zpow_pos k)
  by_cases hmax : n = 2 ^ 53
  · have hval : (n : ℚ) * 2 ^ k = ((2 ^ 52 : ℤ) : ℚ) * 2 ^ (k + 1) := by
      rw [hmax, zpow_add₀ (by norm_num : (2 : ℚ) ≠ 0)]
      push_cast
      ring
    rw [hval]
    have hx2 : (0 : ℚ) < ((2 ^ 52 : ℤ) : ℚ) * 2 ^ (k + 1) := mul_pos (by norm_num) (two_zpow_pos _)
    have hb : ((2 ^ 52 : ℤ) : ℚ) * 2 ^ (k + 1) < 2 ^ (k + 1 + 53) := by
      rw [zpow_add₀ (by norm_num : (2 : ℚ) ≠ 0) (k + 1) 53]
      have := two_zpow_pos (k + 1)
      push_cast
      nlinarith
    exact le_antisymm (toDoublePos_le _ hx2 _ _ hb le_rfl) (le_toDoublePos _ hx2 _ _ hb le_rfl)
  · have hb : (n : ℚ) * 2 ^ k < 2 ^ (k + 53) := by
      rw [zpow_add₀ (by norm_num : (2 : ℚ) ≠ 0) k 53]
      have := two_zpow_pos k
      have hn2 : (n : ℚ) < 2 ^ 53 := by
        have : n < 2 ^ 53 := lt_of_le_of_ne hlt hmax
        exact_mod_cast this
      have h53 : ((2 : ℚ) ^ (53 : ℤ)) = 2 ^ 53 := by norm_num
      rw [h53]
      nlinarith
    exact le_antisymm (toDoublePos_le _ hx _ _ hb le_rfl) (le_toDoublePos _ hx _ _ hb le_rfl)

theorem toDoublePos_err (x : ℚ) (hx : 0 < x) : |toDoublePos x - x| ≤ x / 2 ^ 53 := by
  obtain ⟨h1, _⟩ := log_bounds x hx
  unfold toDoublePos
  simp only
  set e := Int.log 2 x - 52 with he
  have hpos := two_zpow_pos e
  have hr := abs_roundTiesEven_sub (x / 2 ^ e)
  have hx2 : x = x / 2 ^ e * 2 ^ e := by field_simp
  have : (roundTiesEven (x / 2 ^ e) : ℚ) * 2 ^ e - x =
      ((roundTiesEven (x / 2 ^ e) : ℚ) - x / 2 ^ e) * 2 ^ e := by
    rw [sub_mul, ← hx2]
  rw [this, abs_mul, abs_of_pos hpos]
  have hL : (2 : ℚ) ^ (Int.log 2 x) = 2 ^ e * 2 ^ 52 := by
    have : Int.log 2 x = e + 52 := by omega
    rw [this, zpow_add₀ (by norm_num : (2 : ℚ) ≠ 0)]
    norm_num
  rw [hL] at h1
  rw [le_div_iff₀ (by norm_num)]
  nlinarith [abs_nonneg ((roundTiesEven (x / 2 ^ e) : ℚ) - x / 2 ^ e)]

theorem toDoublePos_pos (x : ℚ) (hx : 0 < x) : 0 < toDoublePos x := by
  obtain ⟨h1, h2⟩ := log_bounds x hx
  have hb : x < (2 : ℚ) ^ ((Int.log 2 x - 52) + 53) := by
    have : Int.log 2 x - 52 + 53 = Int.log 2 x + 1 := by ring
    rw [this]
    exact h2
  have := le_toDoublePos x hx (2 ^ 52) (Int.log 2 x - 52) hb (by
    have : ((2 ^ 52 : ℤ) : ℚ) * 2 ^ (Int.log 2 x - 52) = 2 ^ (Int.log 2 x) := by
      have h52 : ((2 ^ 52 : ℤ) : ℚ) = (2 : ℚ) ^ (52 : ℤ) := by norm_num
      rw [h52, ← zpow_add₀ (by norm_num : (2 : ℚ) ≠ 0)]
      congr 1
      ring
    rw [this]
    exact h1)
  have hp : (0 : ℚ) < ((2 ^ 52 : ℤ) : ℚ) * 2 ^ (Int.log 2 x - 52) :=
    mul_pos (by norm_num) (two_zpow_pos _)
  linarith

theorem toDouble_zero : toDouble 0 = 0 := by
  simp [toDouble]

theorem toDouble_of_pos (x : ℚ) (hx : 0 < x) : toDouble x = toDoublePos x := by
  simp [toDouble, hx]

theorem toDouble_neg (x : ℚ) : toDouble (-x) = -toDouble x := by
  unfold toDouble
  rcases lt_trichotomy x 0 with h | h | h
  · have h1 : 0 < -x := by linarith
    have h2 : ¬ 0 < x := by linarith
    simp [h, h1, h2]
  · subst h
    simp
  · have h1 : ¬ 0 < -x := by linarith
    have h2 : -x < 0 := by linarith
    simp [h, h1, h2]

theorem toDouble_nonneg (x : ℚ) (hx : 0 ≤ x) : 0 ≤ toDouble x := by
  rcases hx.lt_or_eq with h | h
  · rw [toDouble_of_pos x h]
    exact (toDoublePos_pos x h).le
  · rw [← h, toDouble_zero]

/-- Rounding to a double does not cross an integer below `2 ^ 53`. -/
theorem toDouble_le_int (x : ℚ) (n : ℤ) (hx : 0 ≤ x) (hlt : x < 2 ^ 53) (hle : x ≤ n) :
    toDouble x ≤ n := by
  rcases hx.lt_or_eq with h | h
  · rw [toDouble_of_pos x h]
    have := toDoublePos_le x h n 0 (by norm_num; exact hlt) (by simpa using hle)
    simpa using this
  · rw [← h, toDouble_zero]
    rw [← h] at hle
    exact hle

theorem int_le_toDouble (x : ℚ) (n : ℤ) (hx : 0 ≤ x) (hlt : x < 2 ^ 53) (hle : (n : ℚ) ≤ x) :
    (n : ℚ) ≤ toDouble x := by
  rcases hx.lt_or_eq with h | h
  · rw [toDouble_of_pos x h]
    have := le_toDoublePos x h n 0 (by norm_num; exact hlt) (by simpa using hle)
    simpa using this
  · rw [← h, toDouble_zero]
    rw [← h] at hle
    exact hle

theorem toDouble_err (x : ℚ) (hx : 0 ≤ x) : |toDouble x - x| ≤ x / 2 ^ 53 := by
  rcases hx.lt_or_eq with h | h
  · rw [toDouble_of_pos x h]
    exact toDoublePos_err x h
  · rw [← h, toDouble_zero]
    simp

/-- An integer of magnitude at most `2 ^ 53` is a double. -/
theorem toDouble_intCast (n : ℤ) (h : n.natAbs ≤ 2 ^ 53) : toDouble (n : ℚ) = n := by
  rcases lt_trichotomy n 0 with hn | hn | hn
  · have hpos : 0 < -n := by omega
    have hle : -n ≤ 2 ^ 53 := by omega
    have := toDoublePos_grid (-n) 0 hpos hle
    have hx : (0 : ℚ) < -(n : ℚ) := by exact_mod_cast hpos
    have h2 : toDouble (-(n : ℚ)) = -(n : ℚ) := by
      rw [toDouble_of_pos _ hx]
      simpa using this
    rw [toDouble_neg] at h2
    linarith
  · subst hn
    simp [toDouble_zero]
  · have hle : n ≤ 2 ^ 53 := by omega
    have := toDoublePos_grid n 0 hn hle
    have hx : (0 : ℚ) < (n : ℚ) := by exact_mod_cast hn
    rw [toDouble_of_pos _ hx]
    simpa using this

/-- Evaluation of `toDoublePos` once the binade of `x` is known. -/
theorem toDoublePos_eval (x : ℚ) (e m : ℤ) (h1 : (2 : ℚ) ^ (e + 52) ≤ x)
    (h2 : x < (2 : ℚ) ^ (e + 52 + 1)) (hm : roundTiesEven (x / 2 ^ e) = m) :
    toDoublePos x = m * 2 ^ e := by
  have hL := log_eq_of_bounds x (e + 52) h1 h2
  unfold toDoublePos
  simp only [hL]
  have : e + 52 - 52 = e := by ring
  rw [this, hm]

theorem roundTiesEven_tie (x : ℚ) (m : ℤ) (h : x = m + 1 / 2) :
    roundTiesEven x = if m % 2 = 0 then m else m + 1 := by
  have hfl : ⌊x⌋ = m := by
    rw [Int.floor_eq_iff]
    constructor <;> linarith
  have hfr : Int.fract x = 1 / 2 := by
    rw [Int.fract, hfl, h]
    ring
  unfold roundTiesEven
  rw [hfr, hfl]
  norm_num

theorem percentage_bounds (current total : Nat) (htotal : 0 < total) (hcur : current ≤ total) :
    0 ≤ toDouble ((current : ℚ) / total) ∧ toDouble ((current : ℚ) / total) ≤ 1 := by
  have ht : (0 : ℚ) < total := by exact_mod_cast htotal
  have hx0 : (0 : ℚ) ≤ (current : ℚ) / total := by positivity
  have hx1 : (current : ℚ) / total ≤ 1 := by
    rw [div_le_one ht]
    exact_mod_cast hcur
  refine ⟨toDouble_nonneg _ hx0, ?_⟩
  have := toDouble_le_int _ 1 hx0 (by linarith [show (1 : ℚ) < 2 ^ 53 by norm_num])
    (by simpa using hx1)
  simpa using this

theorem product_bounds (current total size : Nat) (htotal : 0 < total) (hcur : current ≤ total)
    (hsize : size < 2 ^ 53) :
    0 ≤ toDouble (size * toDouble ((current : ℚ) / total)) ∧
    toDouble (size * toDouble ((current : ℚ) / total)) ≤ size := by
  obtain ⟨hq0, hq1⟩ := percentage_bounds current total htotal hcur
  have hs : (0 : ℚ) ≤ size := by positivity
  have hz0 : (0 : ℚ) ≤ size * toDouble ((current : ℚ) / total) := mul_nonneg hs hq0
  have hz1 : (size : ℚ) * toDouble ((current : ℚ) / total) ≤ size := by nlinarith
  have hs53 : (size : ℚ) < 2 ^ 53 := by exact_mod_cast hsize
  refine ⟨toDouble_nonneg _ hz0, ?_⟩
  have := toDouble_le_int _ (size : ℤ) hz0 (by linarith) (by simpa using hz1)
  simpa using this

theorem progressCells_bounds (current total size : Nat) (htotal : 0 < total)
    (hcur : current ≤ total) (hsize : size < 2 ^ 53) :
    0 ≤ progressCells current total size ∧ progressCells current total size ≤ size := by
  obtain ⟨hy0, hy1⟩ := product_bounds current total size htotal hcur hsize
  unfold progressCells jsRound
  constructor
  · apply Int.floor_nonneg.mpr
    linarith
  · have : ⌊toDouble (size * toDouble ((current : ℚ) / total)) + 1 / 2⌋ < (size : ℤ) + 1 := by
      rw [Int.floor_lt]
      push_cast
      linarith
    omega

theorem product_err (current total size : Nat) (htotal : 0 < total) (hcur : current ≤ total) :
    |toDouble (size * toDouble ((current : ℚ) / total)) - (size : ℚ) * current / total| ≤
      size / 2 ^ 52 := by
  obtain ⟨hq0, hq1⟩ := percentage_bounds current total htotal hcur
  have ht : (0 : ℚ) < total := by exact_mod_cast htotal
  have hs : (0 : ℚ) ≤ size := by positivity
  have hx0 : (0 : ℚ) ≤ (current : ℚ) / total := by positivity
  have hx1 : (current : ℚ) / total ≤ 1 := by
    rw [div_le_one ht]
    exact_mod_cast hcur
  have hz0 : (0 : ℚ) ≤ size * toDouble ((current : ℚ) / total) := mul_nonneg hs hq0
  have hz1 : (size : ℚ) * toDouble ((current : ℚ) / total) ≤ size := by nlinarith
  have e1 := toDouble_err _ hx0
  have e2 := toDouble_err _ hz0
  rw [abs_le] at e1 e2 ⊢
  have hxs : (size : ℚ) * current / total = size * ((current : ℚ) / total) := by ring
  rw [hxs]
  have hb1 : (current : ℚ) / total / 2 ^ 53 ≤ 1 / 2 ^ 53 := by
    apply div_le_div_of_nonneg_right hx1 (by norm_num)
  have hb2 : (size : ℚ) * toDouble ((current : ℚ) / total) / 2 ^ 53 ≤ size / 2 ^ 53 := by
    apply div_le_div_of_nonneg_right hz1 (by norm_num)
  have hsplit : (size : ℚ) / 2 ^ 52 = size / 2 ^ 53 + size * (1 / 2 ^ 53) := by ring
  constructor
  · nlinarith [mul_nonneg hs (sub_nonneg.mpr hb1)]
  · nlinarith [mul_nonneg hs (sub_nonneg.mpr hb1)]

theorem progressCells_nearest (current total size : Nat) (htotal : 0 < total)
    (hcur : current ≤ total) (hsmall : size * total < 2 ^ 51) :
    2 * (progressCells current total size * total) ≤ 2 * ((size : ℤ) * current) + total ∧
    2 * ((size : ℤ) * current) ≤ 2 * (progressCells current total size * total) + total := by
  have herr := product_err current total size htotal hcur
  rw [abs_le] at herr
  have ht : (0 : ℚ) < total := by exact_mod_cast htotal
  have hsm : (size : ℚ) * total < 2 ^ 51 := by exact_mod_cast hsmall
  have hgap : (size : ℚ) / 2 ^ 52 * (2 * total) < 1 := by
    rw [div_mul_eq_mul_div, div_lt_one (by norm_num)]
    linarith
  have hfl1 := Int.floor_le (toDouble (size * toDouble ((current : ℚ) / total)) + 1 / 2)
  have hfl2 := Int.lt_floor_add_one (toDouble (size * toDouble ((current : ℚ) / total)) + 1 / 2)
  have hxt : (size : ℚ) * current / total * total = size * current := by field_simp
  unfold progressCells jsRound
  set y := toDouble (size * toDouble ((current : ℚ) / total)) with hy
  set P := ⌊y + 1 / 2⌋ with hP
  constructor
  · by_contra hcon
    push_neg at hcon
    have h1 : 2 * ((size : ℤ) * current) + total + 1 ≤ 2 * (P * total) := by omega
    have h2 : 2 * ((size : ℚ) * current) + total + 1 ≤ 2 * ((P : ℚ) * total) := by exact_mod_cast h1
    nlinarith [herr.2, herr.1]
  · by_contra hcon
    push_neg at hcon
    have h1 : 2 * (P * total) + total + 1 ≤ 2 * ((size : ℤ) * current) := by omega
    have h2 : 2 * ((P : ℚ) * total) + total + 1 ≤ 2 * ((size : ℚ) * current) := by exact_mod_cast h1
    nlinarith [herr.2, herr.1]

theorem toDouble_eval (x : ℚ) (e m : ℤ) (h1 : (2 : ℚ) ^ (e + 52) ≤ x)
    (h2 : x < (2 : ℚ) ^ (e + 52 + 1)) (hm : roundTiesEven (x / 2 ^ e) = m) :
    toDouble x = m * 2 ^ e := by
  have hx : 0 < x := lt_of_lt_of_le (two_zpow_pos _) h1
  rw [toDouble_of_pos x hx]
  exact toDoublePos_eval x e m h1 h2 hm

theorem progressCells_eq (current total size : Nat) (q y : ℚ) (p : ℤ)
    (hq : toDouble ((current : ℚ) / total) = q) (hy : toDouble (size * q) = y)
    (hp1 : (p : ℚ) ≤ y + 1 / 2) (hp2 : y + 1 / 2 < p + 1) :
    progressCells current total size = p := by
  unfold progressCells jsRound
  rw [hq, hy, Int.floor_eq_iff]
  exact ⟨hp1, hp2⟩

theorem createProgressBar_eq (current total size : Nat) (p : Nat) (htotal : 0 < total)
    (hp : progressCells current total size = p) (hle : p ≤ size) :
    createProgressBar current total size =
      some (List.replicate p '▓' ++ List.replicate (size - p) '░') := by
  have hne : total ≠ 0 := by omega
  simp only [createProgressBar, hne, if_false, hp]
  have h1 : ¬ ((p : ℤ) < 0 ∨ (size : ℤ) - p < 0) := by omega
  rw [if_neg h1]
  have h2 : ((size : ℤ) - p).toNat = size - p := by omega
  rw [h2, Int.toNat_natCast]

theorem roundInt_of_lt (n : Int) (h : n.natAbs < 2 ^ 53) : roundInt n = n := by
  unfold roundInt
  rw [if_pos (by omega)]

/-- The double nearest to a positive rational that is at least `2 ^ 52` is an
integer. -/
theorem toDoublePos_isInt (x : ℚ) (hx : (2 : ℚ) ^ 52 ≤ x) : ∃ z : ℤ, toDoublePos x = z := by
  have hpos : 0 < x := lt_of_lt_of_le (by norm_num) hx
  have hL : (52 : ℤ) ≤ Int.log 2 x := le_log_of_le x hpos 52 (by norm_num; exact hx)
  unfold toDoublePos
  simp only
  have he : Int.log 2 x - 52 = ((Int.log 2 x - 52).toNat : ℤ) := by omega
  refine ⟨roundTiesEven (x / 2 ^ (Int.log 2 x - 52)) * 2 ^ (Int.log 2 x - 52).toNat, ?_⟩
  push_cast
  congr 1
  conv_lhs => rw [he]
  rw [zpow_natCast]

theorem roundInt_eq_toDouble (n : Int) : ((roundInt n : Int) : ℚ) = toDouble n := by
  unfold roundInt
  split
  · next h => rw [toDouble_intCast n (by omega)]
  · next h =>
    rcases lt_trichotomy n 0 with hn | hn | hn
    · have hx : (2 : ℚ) ^ 52 ≤ -(n : ℚ) := by
        have : (2 : ℤ) ^ 52 ≤ -n := by omega
        exact_mod_cast this
      obtain ⟨z, hz⟩ := toDoublePos_isInt _ hx
      have hpos : (0 : ℚ) < -(n : ℚ) := lt_of_lt_of_le (by norm_num) hx
      have hval : toDouble (n : ℚ) = ((-z : ℤ) : ℚ) := by
        have := toDouble_neg (-(n : ℚ))
        rw [neg_neg, toDouble_of_pos _ hpos, hz] at this
        rw [this]
        push_cast
        ring
      rw [hval, Int.floor_intCast]
    · subst hn
      simp at h
    · have hx : (2 : ℚ) ^ 52 ≤ (n : ℚ) := by
        have : (2 : ℤ) ^ 52 ≤ n := by omega
        exact_mod_cast this
      obtain ⟨z, hz⟩ := toDoublePos_isInt _ hx
      have hpos : (0 : ℚ) < (n : ℚ) := lt_of_lt_of_le (by norm_num) hx
      rw [toDouble_of_pos _ hpos, hz, Int.floor_intCast]

theorem jsMul_of_lt (a b : Int) (h : (a * b).natAbs < 2 ^ 53) : jsMul a b = a * b :=
  roundInt_of_lt _ h

theorem jsAdd_of_lt (a b : Int) (h : (a + b).natAbs < 2 ^ 53) : jsAdd a b = a + b :=
  roundInt_of_lt _ h

/-- Evaluation of `roundInt` on a positive integer of at least 54 bits. -/
theorem roundInt_eval (n m : Int) (e : Nat) (h1 : (2 : ℚ) ^ ((e : ℤ) + 52) ≤ n)
    (h2 : (n : ℚ) < (2 : ℚ) ^ ((e : ℤ) + 52 + 1)) (hbig : 2 ^ 53 ≤ n)
    (hm : roundTiesEven ((n : ℚ) / 2 ^ (e : ℤ)) = m) : roundInt n = m * 2 ^ e := by
  unfold roundInt
  rw [if_neg (by omega), toDouble_eval _ e m h1 h2 hm]
  have : (m : ℚ) * 2 ^ (e : ℤ) = ((m * 2 ^ e : ℤ) : ℚ) := by
    push_cast
    rw [zpow_natCast]
  rw [this, Int.floor_intCast]

/-- Below 2^53 the quotient of two integers, rounded to a double, has the
integer part of the exact quotient. -/
theorem floor_toDouble_div (ms d : Nat) (hd : 0 < d) (h : ms < 2 ^ 53) :
    ⌊toDouble ((ms : ℚ) / d)⌋ = ((ms / d : Nat) : ℤ) := by
  have hdq : (0 : ℚ) < d := by exact_mod_cast hd
  have hx0 : (0 : ℚ) ≤ (ms : ℚ) / d := by positivity
  have hk1 : ((ms / d : Nat) : ℚ) ≤ (ms : ℚ) / d := by
    rw [le_div_iff₀ hdq]
    exact_mod_cast Nat.div_mul_le_self ms d
  have hk2 : (ms : ℚ) / d ≤ ((ms / d : Nat) : ℚ) + 1 - 1 / d := by
    rw [div_le_iff₀ hdq]
    have : ms + 1 ≤ (ms / d + 1) * d := by
      have e1 : d * (ms / d) + ms % d = ms := Nat.div_add_mod ms d
      have e2 : ms % d < d := Nat.mod_lt _ hd
      have e3 : (ms / d + 1) * d = d * (ms / d) + d := by ring
      omega
    have hq : ((ms : ℚ)) + 1 ≤ (((ms / d : Nat) : ℚ) + 1) * d := by exact_mod_cast this
    have : (((ms / d : Nat) : ℚ) + 1 - 1 / d) * d = (((ms / d : Nat) : ℚ) + 1) * d - 1 := by
      field_simp
    linarith
  have hxle : (ms : ℚ) / d ≤ ms := by
    rw [div_le_iff₀ hdq]
    have : (1 : ℚ) ≤ d := by exact_mod_cast hd
    have hms : (0 : ℚ) ≤ ms := by positivity
    nlinarith
  have hms53 : (ms : ℚ) < 2 ^ 53 := by exact_mod_cast h
  have hlow := int_le_toDouble _ ((ms / d : Nat) : ℤ) hx0 (by linarith) (by exact_mod_cast hk1)
  have herr := toDouble_err _ hx0
  rw [abs_le] at herr
  have hsmall : (ms : ℚ) / d / 2 ^ 53 < 1 / d := by
    rw [div_div, div_lt_div_iff₀ (by positivity) hdq]
    nlinarith
  rw [Int.floor_eq_iff, Int.cast_natCast]
  rw [Int.cast_natCast] at hlow
  constructor
  · exact hlow
  · linarith [herr.2]

theorem floor_jsMod (y : ℚ) (k : Nat) (hk : ⌊y⌋ = (k : ℤ)) : ⌊jsMod y 60⌋.toNat = k % 60 := by
  have h1 := Int.floor_le y
  have h2 := Int.lt_floor_add_one y
  rw [hk] at h1 h2
  have hq : ⌊y / 60⌋ = ((k / 60 : Nat) : ℤ) := by
    rw [Int.floor_eq_iff]
    have ha : 60 * (k / 60) ≤ k := Nat.mul_div_le k 60
    have hb : k < 60 * (k / 60) + 60 := by omega
    have ha2 : (60 : ℚ) * ((k / 60 : Nat) : ℚ) ≤ k := by exact_mod_cast ha
    have hb2 : ((k : ℚ)) + 1 ≤ 60 * ((k / 60 : Nat) : ℚ) + 60 := by exact_mod_cast hb
    rw [Int.cast_natCast] at h1 h2 ⊢
    constructor
    · rw [le_div_iff₀ (by norm_num)]
      linarith
    · rw [div_lt_iff₀ (by norm_num)]
      linarith
  unfold jsMod
  rw [hq]
  have : y - 60 * (((k / 60 : Nat) : ℤ) : ℚ) = y - ((60 * (k / 60 : Nat) : ℤ) : ℚ) := by
    push_cast
    ring
  rw [this, Int.floor_sub_int, hk]
  omega

theorem floor_eval (y : ℚ) (k : ℤ) (h1 : (k : ℚ) ≤ y) (h2 : y < k + 1) : ⌊y⌋ = k := by
  rw [Int.floor_eq_iff]
  exact ⟨h1, h2⟩

/-! ## Lemmas on digits and `parseInt` -/

theorem isDigit_bounds (c : Char) (h : c.isDigit = true) : 48 ≤ c.toNat ∧ c.toNat ≤ 57 := by
  simp only [Char.isDigit, Bool.and_eq_true, decide_eq_true_eq] at h
  exact ⟨h.1, h.2⟩

theorem isDigit_not_whiteSpace (c : Char) (h : c.isDigit = true) : isJsWhiteSpace c = false := by
  have hb := isDigit_bounds c h
  simp only [isJsWhiteSpace, Bool.or_eq_false_iff, Bool.and_eq_false_iff, decide_eq_false_iff_not]
  constructor
  · simp only [List.contains, List.elem_eq_mem, decide_eq_false_iff_not, List.mem_cons,
      List.mem_singleton, List.not_mem_nil, or_false]
    omega
  · left
    omega

theorem isDigit_ne (c d : Char) (h : c.isDigit = true) (hd : d.toNat < 48 ∨ 57 < d.toNat) :
    c ≠ d := by
  intro heq
  have hb := isDigit_bounds c h
  rw [heq] at hb
  omega

theorem digitChar_isDigit (d : Nat) (h : d < 10) : (Char.ofNat (48 + d)).isDigit = true := by
  interval_cases d <;> decide

theorem digitChar_toNat (d : Nat) (h : d < 10) : (Char.ofNat (48 + d)).toNat = 48 + d := by
  interval_cases d <;> decide

theorem allDigits_cons (c : Char) (cs : List Char) :
    allDigits (c :: cs) = true ↔ c.isDigit = true ∧ ∀ d ∈ cs, d.isDigit = true := by
  simp [allDigits]

theorem allDigits_mem (cs : List Char) (h : allDigits cs = true) :
    ∀ c ∈ cs, c.isDigit = true := by
  cases cs with
  | nil => simp
  | cons c rest =>
    obtain ⟨h1, h2⟩ := (allDigits_cons c rest).mp h
    intro d hd
    rcases List.mem_cons.mp hd with rfl | hd
    · exact h1
    · exact h2 d hd

theorem allDigits_ne_nil (cs : List Char) (h : allDigits cs = true) : cs ≠ [] := by
  intro hnil
  rw [hnil] at h
  simp [allDigits] at h

theorem allDigits_of_mem (cs : List Char) (hne : cs ≠ []) (h : ∀ c ∈ cs, c.isDigit = true) :
    allDigits cs = true := by
  cases cs with
  | nil => exact absurd rfl hne
  | cons c rest =>
    rw [allDigits_cons]
    exact ⟨h c (List.mem_cons_self _ _), fun d hd => h d (List.mem_cons_of_mem _ hd)⟩

theorem colon_not_mem_digits (cs : List Char) (h : allDigits cs = true) : ':' ∉ cs := by
  intro hmem
  have := allDigits_mem cs h _ hmem
  revert this
  decide

theorem allDigits_false_of_colon (cs : List Char) (h : ':' ∈ cs) : allDigits cs = false := by
  cases hd : allDigits cs with
  | false => rfl
  | true => exact absurd h (colon_not_mem_digits cs hd)

theorem takeWhile_eq_self {α : Type} (p : α → Bool) (l : List α) (h : ∀ a ∈ l, p a = true) :
    l.takeWhile p = l := by
  induction l with
  | nil => rfl
  | cons a rest ih =>
    rw [List.takeWhile_cons, h a (List.mem_cons_self _ _)]
    simp only [if_true]
    rw [ih (fun b hb => h b (List.mem_cons_of_mem _ hb))]

/-- On a non-empty run of decimal digits `parseInt` returns the number the
digits denote, as a double. -/
theorem parseInt_digits (cs : List Char) (h : allDigits cs = true) :
    parseInt cs = some (roundInt ((digitsValue cs : Nat) : Int)) := by
  cases cs with
  | nil => simp [allDigits] at h
  | cons c rest =>
    obtain ⟨hc, hrest⟩ := (allDigits_cons c rest).mp h
    have hws := isDigit_not_whiteSpace c hc
    have hminus : c ≠ '-' := isDigit_ne c _ hc (by decide)
    have hplus : c ≠ '+' := isDigit_ne c _ hc (by decide)
    have htake : ∀ x : Char, (x.toNat < 48 ∨ 57 < x.toNat) →
        ((c :: rest).take 2 == ['0', x]) = false := by
      intro x hx
      cases rest with
      | nil => simp
      | cons d rest2 =>
        have hd : d ≠ x := isDigit_ne d x (hrest d (List.mem_cons_self _ _)) hx
        simp [hd]
    have hall : (c :: rest).takeWhile Char.isDigit = c :: rest :=
      takeWhile_eq_self _ _ (allDigits_mem _ h)
    have hm : (some c == some '-') = false := by simp [hminus]
    have hp : (some c == some '+') = false := by simp [hplus]
    have hx := htake 'x' (by decide)
    have hX := htake 'X' (by decide)
    simp only [parseInt, List.dropWhile_cons, hws, Bool.false_eq_true, if_false, List.head?_cons,
      hm, hp, Bool.or_self, hx, hX, hall, List.isEmpty_cons]
    simp

theorem splitOn_ne_nil (sep : Char) (l : List Char) : splitOn sep l ≠ [] := by
  cases l with
  | nil => simp [splitOn]
  | cons c cs =>
    simp only [splitOn]
    split
    · simp
    · split <;> simp

theorem splitOn_no_sep (sep : Char) (a : List Char) (h : sep ∉ a) : splitOn sep a = [a] := by
  induction a with
  | nil => rfl
  | cons c cs ih =>
    have hc : c ≠ sep := fun heq => h (heq ▸ List.mem_cons_self _ _)
    have hcs : sep ∉ cs := fun hm => h (List.mem_cons_of_mem _ hm)
    simp [splitOn, hc, ih hcs]

theorem splitOn_append (sep : Char) (a b : List Char) (h : sep ∉ a) :
    splitOn sep (a ++ sep :: b) = a :: splitOn sep b := by
  induction a with
  | nil => simp [splitOn]
  | cons c cs ih =>
    have hc : c ≠ sep := fun heq => h (heq ▸ List.mem_cons_self _ _)
    have hcs : sep ∉ cs := fun hm => h (List.mem_cons_of_mem _ hm)
    simp [splitOn, hc, ih hcs]

theorem digitsValue_append (a : List Char) (c : Char) :
    digitsValue (a ++ [c]) = digitsValue a * 10 + (c.toNat - 48) := by
  simp [digitsValue]

theorem decimalDigits_spec : ∀ n : Nat,
    allDigits (decimalDigits n) = true ∧ digitsValue (decimalDigits n) = n := by
  intro n
  induction n using Nat.strong_induction_on with
  | _ n ih =>
    rw [decimalDigits]
    split
    · next hlt =>
      refine ⟨?_, ?_⟩
      · rw [allDigits_cons]
        exact ⟨digitChar_isDigit n hlt, by simp⟩
      · simp [digitsValue, digitChar_toNat n hlt]
    · next hge =>
      obtain ⟨h1, h2⟩ := ih (n / 10) (by omega)
      have hmod : n % 10 < 10 := Nat.mod_lt _ (by omega)
      refine ⟨?_, ?_⟩
      · apply allDigits_of_mem
        · simp
        · intro c hc
          rcases List.mem_append.mp hc with hc | hc
          · exact allDigits_mem _ h1 c hc
          · rw [List.mem_singleton.mp hc]
            exact digitChar_isDigit _ hmod
      · rw [digitsValue_append, h2, digitChar_toNat _ hmod]
        omega

theorem digitsValue_zeros (k : Nat) (cs : List Char) :
    digitsValue (List.replicate k '0' ++ cs) = digitsValue cs := by
  induction k with
  | zero => rfl
  | succ k ih =>
    have hz : digitsValue (List.replicate (k + 1) '0') = 0 := by
      clear ih
      induction k with
      | zero => decide
      | succ j ihj =>
        rw [List.replicate_succ', digitsValue_append, ihj]
        decide
    simp only [digitsValue, List.foldl_append] at hz ⊢
    rw [hz]

theorem padStart2_spec (cs : List Char) (h : allDigits cs = true) :
    allDigits (padStart2 cs) = true ∧ digitsValue (padStart2 cs) = digitsValue cs := by
  refine ⟨?_, digitsValue_zeros _ _⟩
  apply allDigits_of_mem
  · simp [padStart2, allDigits_ne_nil cs h]
  · intro c hc
    rcases List.mem_append.mp hc with hc | hc
    · rw [(List.mem_replicate.mp hc).2]
      decide
    · exact allDigits_mem cs h c hc

theorem dropWhile_eq_self {α : Type} (p : α → Bool) (l : List α)
    (h : ∀ a, l.head? = some a → p a = false) : l.dropWhile p = l := by
  cases l with
  | nil => rfl
  | cons a rest => simp [List.dropWhile_cons, h a rfl]

/-- Trimming leaves a string alone whose first and last characters are not
white space. -/
theorem jsTrim_eq_self (l : List Char) (hhead : ∀ a, l.head? = some a → isJsWhiteSpace a = false)
    (hlast : ∀ a, l.getLast? = some a → isJsWhiteSpace a = false) : jsTrim l = l := by
  rw [jsTrim, dropWhile_eq_self _ l hhead, dropWhile_eq_self _ l.reverse, List.reverse_reverse]
  intro a ha
  rw [List.head?_reverse] at ha
  exact hlast a ha

theorem jsTrim_eq_self_of_digit_ends (l a x y b : List Char) (h1 : l = a ++ x) (h2 : l = y ++ b)
    (ha : allDigits a = true) (hb : allDigits b = true) : jsTrim l = l := by
  apply jsTrim_eq_self
  · intro c hc
    apply isDigit_not_whiteSpace
    apply allDigits_mem a ha
    cases a with
    | nil => simp [allDigits] at ha
    | cons d a2 =>
      rw [h1] at hc
      simp only [List.cons_append, List.head?_cons, Option.some.injEq] at hc
      rw [← hc]
      exact List.mem_cons_self _ _
  · intro c hc
    apply isDigit_not_whiteSpace
    apply allDigits_mem b hb
    rw [h2, List.getLast?_append_of_ne_nil _ (allDigits_ne_nil b hb)] at hc
    exact List.mem_of_getLast?_eq_some hc

theorem jsTrim_nil : jsTrim [] = [] := rfl

theorem parseValue_exact1 (a : Int) (h : a.natAbs * 1000 < 2 ^ 53) :
    jsMul (roundInt a) 1000 = a * 1000 := by
  rw [roundInt_of_lt a (by omega)]
  exact jsMul_of_lt _ _ (by omega)

theorem parseValue_exact2 (a b : Int) (h : (a.natAbs * 60 + b.natAbs) * 1000 < 2 ^ 53) :
    jsMul (jsAdd (jsMul a 60) b) 1000 = (a * 60 + b) * 1000 := by
  rw [jsMul_of_lt a 60 (by omega), jsAdd_of_lt _ _ (by omega)]
  exact jsMul_of_lt _ _ (by omega)

theorem parseValue_exact3 (a b c : Int)
    (h : (a.natAbs * 3600 + b.natAbs * 60 + c.natAbs) * 1000 < 2 ^ 53) :
    jsMul (jsAdd (jsAdd (jsMul a 3600) (jsMul b 60)) c) 1000 = (a * 3600 + b * 60 + c) * 1000 := by
  rw [jsMul_of_lt a 3600 (by omega), jsMul_of_lt b 60 (by omega),
    jsAdd_of_lt (a * 3600) (b * 60) (by omega), jsAdd_of_lt (a * 3600 + b * 60) c (by omega)]
  exact jsMul_of_lt _ _ (by omega)

theorem isEmpty_of_trim_ne_nil (cs : List Char) (h : jsTrim cs ≠ []) : cs.isEmpty = false := by
  cases cs with
  | nil => exact absurd jsTrim_nil h
  | cons c r => rfl

/-- The value `Seek._parseTime` builds from a run of digits, every operation
rounding to a double. -/
theorem parseTime_seconds_raw (cs s : List Char) (hcs : jsTrim cs = s)
    (hs : allDigits s = true) :
    parseTimeChars cs = some (jsMul (roundInt ((digitsValue s : Nat) : Int)) 1000) := by
  have hemp := isEmpty_of_trim_ne_nil cs (by rw [hcs]; exact allDigits_ne_nil s hs)
  simp [parseTimeChars, hemp, hcs, hs, parseInt_digits s hs]

/-- The value `Seek._parseTime` builds from two or three groups `parseInt`
reads, every operation rounding to a double. -/
theorem parseTime_groups_raw (cs : List Char) (hd : allDigits (jsTrim cs) = false) :
    (∀ a b va vb, splitOn ':' (jsTrim cs) = [a, b] → parseInt a = some va →
      parseInt b = some vb →
      parseTimeChars cs = some (jsMul (jsAdd (jsMul va 60) vb) 1000)) ∧
    (∀ a b c va vb vc, splitOn ':' (jsTrim cs) = [a, b, c] → parseInt a = some va →
      parseInt b = some vb → parseInt c = some vc →
      parseTimeChars cs =
        some (jsMul (jsAdd (jsAdd (jsMul va 3600) (jsMul vb 60)) vc) 1000)) := by
  refine ⟨?_, ?_⟩
  · intro a b va vb hsplit ha hb
    have hemp := isEmpty_of_trim_ne_nil cs (by
      intro h
      rw [h] at hsplit
      simp [splitOn] at hsplit)
    simp [parseTimeChars, hemp, hd, hsplit, ha, hb]
  · intro a b c va vb vc hsplit ha hb hc
    have hemp := isEmpty_of_trim_ne_nil cs (by
      intro h
      rw [h] at hsplit
      simp [splitOn] at hsplit)
    simp [parseTimeChars, hemp, hd, hsplit, ha, hb, hc]

theorem split_minutes (m s : List Char) (hm : allDigits m = true) (hs : allDigits s = true) :
    allDigits (m ++ ':' :: s) = false ∧ splitOn ':' (m ++ ':' :: s) = [m, s] := by
  refine ⟨allDigits_false_of_colon _ (by simp), ?_⟩
  rw [splitOn_append _ _ _ (colon_not_mem_digits m hm),
    splitOn_no_sep _ _ (colon_not_mem_digits s hs)]

theorem split_hours (h m s : List Char) (hh : allDigits h = true) (hm : allDigits m = true)
    (hs : allDigits s = true) :
    allDigits (h ++ ':' :: (m ++ ':' :: s)) = false ∧
    splitOn ':' (h ++ ':' :: (m ++ ':' :: s)) = [h, m, s] := by
  refine ⟨allDigits_false_of_colon _ (by simp), ?_⟩
  rw [splitOn_append _ _ _ (colon_not_mem_digits h hh),
    splitOn_append _ _ _ (colon_not_mem_digits m hm),
    splitOn_no_sep _ _ (colon_not_mem_digits s hs)]

theorem parseTime_minutes_raw (cs m s : List Char) (hcs : jsTrim cs = m ++ ':' :: s)
    (hm : allDigits m = true) (hs : allDigits s = true) :
    parseTimeChars cs =
      some (jsMul (jsAdd (jsMul (roundInt ((digitsValue m : Nat) : Int)) 60)
        (roundInt ((digitsValue s : Nat) : Int))) 1000) := by
  obtain ⟨hcolon, hsplit⟩ := split_minutes m s hm hs
  rw [← hcs] at hcolon hsplit
  exact (parseTime_groups_raw cs hcolon).1 m s _ _ hsplit (parseInt_digits m hm)
    (parseInt_digits s hs)

theorem parseTime_hours_raw (cs h m s : List Char)
    (hcs : jsTrim cs = h ++ ':' :: (m ++ ':' :: s))
    (hh : allDigits h = true) (hm : allDigits m = true) (hs : allDigits s = true) :
    parseTimeChars cs =
      some (jsMul (jsAdd (jsAdd (jsMul (roundInt ((digitsValue h : Nat) : Int)) 3600)
        (jsMul (roundInt ((digitsValue m : Nat) : Int)) 60))
        (roundInt ((digitsValue s : Nat) : Int))) 1000) := by
  obtain ⟨hcolon, hsplit⟩ := split_hours h m s hh hm hs
  rw [← hcs] at hcolon hsplit
  exact (parseTime_groups_raw cs hcolon).2 h m s _ _ _ hsplit (parseInt_digits h hh)
    (parseInt_digits m hm) (parseInt_digits s hs)

theorem parseTime_seconds (cs s : List Char) (hcs : jsTrim cs = s) (hs : allDigits s = true)
    (hb : digitsValue s * 1000 < 2 ^ 53) :
    parseTimeChars cs = some (((digitsValue s * 1000 : Nat)) : Int) := by
  rw [parseTime_seconds_raw cs s hcs hs, parseValue_exact1 _ (by omega)]
  push_cast
  rfl

theorem parseTime_minutes (cs m s : List Char) (hcs : jsTrim cs = m ++ ':' :: s)
    (hm : allDigits m = true) (hs : allDigits s = true)
    (hb : (digitsValue m * 60 + digitsValue s) * 1000 < 2 ^ 53) :
    parseTimeChars cs = some ((((digitsValue m * 60 + digitsValue s) * 1000 : Nat)) : Int) := by
  rw [parseTime_minutes_raw cs m s hcs hm hs, roundInt_of_lt _ (by omega),
    roundInt_of_lt _ (by omega), parseValue_exact2 _ _ (by omega)]
  push_cast
  rfl

theorem parseTime_hours (cs h m s : List Char) (hcs : jsTrim cs = h ++ ':' :: (m ++ ':' :: s))
    (hh : allDigits h = true) (hm : allDigits m = true) (hs : allDigits s = true)
    (hb : (digitsValue h * 3600 + digitsValue m * 60 + digitsValue s) * 1000 < 2 ^ 53) :
    parseTimeChars cs =
      some ((((digitsValue h * 3600 + digitsValue m * 60 + digitsValue s) * 1000 : Nat)) : Int) := by
  rw [parseTime_hours_raw cs h m s hcs hh hm hs, roundInt_of_lt _ (by omega),
    roundInt_of_lt _ (by omega), roundInt_of_lt _ (by omega), parseValue_exact3 _ _ _ (by omega)]
  push_cast
  rfl

/-- When `Seek._parseTime` answers `null`: on the empty string, and on a
string that is not a run of digits and either does not split at the colons
into 2 or 3 groups or has a group `parseInt` cannot read. -/
theorem parseTimeChars_eq_none_iff (cs : List Char) :
    parseTimeChars cs = none ↔
      cs = [] ∨ (allDigits (jsTrim cs) = false ∧
        (((splitOn ':' (jsTrim cs)).length ≠ 2 ∧ (splitOn ':' (jsTrim cs)).length ≠ 3) ∨
          ∃ g ∈ splitOn ':' (jsTrim cs), parseInt g = none)) := by
  cases cs with
  | nil => simp [parseTimeChars]
  | cons c r =>
    simp only [parseTimeChars, List.isEmpty_cons, Bool.false_eq_true, if_false]
    generalize jsTrim (c :: r) = t
    by_cases hd : allDigits t = true
    · simp [hd, parseInt_digits t hd]
    · have hd2 : allDigits t = false := by
        cases h : allDigits t with
        | false => rfl
        | true => exact absurd h hd
      simp only [hd2, Bool.false_eq_true, if_false]
      generalize splitOn ':' t = groups
      rcases groups with _ | ⟨a, _ | ⟨b, _ | ⟨d, _ | ⟨e, rest⟩⟩⟩⟩
      · simp
      · simp only [List.map_cons, List.map_nil, List.mem_singleton, exists_eq_left]
        generalize parseInt a = pa
        cases pa <;> simp
      · simp only [List.map_cons, List.map_nil, List.mem_cons, List.mem_singleton,
          exists_eq_or_imp, exists_eq_left]
        generalize parseInt a = pa
        generalize parseInt b = pb
        cases pa <;> cases pb <;> simp
      · simp only [List.map_cons, List.map_nil, List.mem_cons, List.mem_singleton,
          exists_eq_or_imp, exists_eq_left]
        generalize parseInt a = pa
        generalize parseInt b = pb
        generalize parseInt d = pd
        cases pa <;> cases pb <;> cases pd <;> simp
      · by_cases hex : ∃ g ∈ a :: b :: d :: e :: rest, parseInt g = none
        · have hany : ((a :: b :: d :: e :: rest).map parseInt).any (fun x => x.isNone) = true := by
            obtain ⟨g, hg, hgn⟩ := hex
            rw [List.any_eq_true]
            exact ⟨parseInt g, List.mem_map_of_mem _ hg, by simp [hgn]⟩
          simp only [hany, if_true, true_iff]
          exact Or.inr ⟨trivial, Or.inr hex⟩
        · have hany : ((a :: b :: d :: e :: rest).map parseInt).any (fun x => x.isNone) = false := by
            rw [Bool.eq_false_iff]
            intro ht
            rw [List.any_eq_true] at ht
            obtain ⟨x, hx, hxn⟩ := ht
            obtain ⟨g, hg, rfl⟩ := List.mem_map.mp hx
            exact hex ⟨g, hg, by simpa using hxn⟩
          simp only [hany, Bool.false_eq_true, if_false]
          simp only [List.map_cons]
          generalize parseInt a = pa
          generalize parseInt b = pb
          generalize parseInt d = pd
          cases pa <;> cases pb <;> cases pd <;> simp

/-! ## Lemmas on `formatDuration` -/

/-- Below 2^53 the three numbers `formatDuration` prints are those of exact
integer arithmetic. -/
theorem formatDuration_parts (ms : Nat) (h : ms < 2 ^ 53) :
    ⌊jsMod (toDouble ((ms : ℚ) / 1000)) 60⌋.toNat = ms / 1000 % 60 ∧
    ⌊jsMod (toDouble ((ms : ℚ) / (1000 * 60))) 60⌋.toNat = ms / (1000 * 60) % 60 ∧
    ⌊toDouble ((ms : ℚ) / (1000 * 60 * 60))⌋.toNat = ms / (1000 * 60 * 60) := by
  have e1 : (ms : ℚ) / 1000 = (ms : ℚ) / ((1000 : ℕ) : ℚ) := by norm_num
  have e2 : (ms : ℚ) / (1000 * 60) = (ms : ℚ) / ((60000 : ℕ) : ℚ) := by norm_num
  have e3 : (ms : ℚ) / (1000 * 60 * 60) = (ms : ℚ) / ((3600000 : ℕ) : ℚ) := by norm_num
  refine ⟨?_, ?_, ?_⟩
  · rw [e1, floor_jsMod _ (ms / 1000) (floor_toDouble_div ms 1000 (by norm_num) h)]
  · rw [e2, floor_jsMod _ (ms / 60000) (floor_toDouble_div ms 60000 (by norm_num) h)]
  · rw [e3, floor_toDouble_div ms 3600000 (by norm_num) h, Int.toNat_natCast]

/-- The string `formatDuration` prints once its three numbers are known. -/
theorem formatDuration_eq (ms H M S : Nat) (hms : ms ≠ 0) (hpos : 0 < H)
    (hS : ⌊jsMod (toDouble ((ms : ℚ) / 1000)) 60⌋.toNat = S)
    (hM : ⌊jsMod (toDouble ((ms : ℚ) / (1000 * 60))) 60⌋.toNat = M)
    (hH : ⌊toDouble ((ms : ℚ) / (1000 * 60 * 60))⌋.toNat = H) :
    formatDuration ms =
      String.mk (decimalDigits H ++ ':' :: padStart2 (decimalDigits M) ++
        ':' :: padStart2 (decimalDigits S)) := by
  have hgt : H > 0 := hpos
  simp only [formatDuration, if_neg hms, hS, hM, hH, if_pos hgt]

/-- What `Seek._parseTime` makes of a string `h:mm:ss` as `formatDuration`
prints it, every product and sum rounded to a double. -/
theorem parseTime_formatted (H M S : Nat) :
    Seek._parseTime (String.mk (decimalDigits H ++ ':' :: padStart2 (decimalDigits M) ++
        ':' :: padStart2 (decimalDigits S))) =
      some (jsMul (jsAdd (jsAdd (jsMul (roundInt (H : Int)) 3600) (jsMul (roundInt (M : Int)) 60))
        (roundInt (S : Int))) 1000) := by
  obtain ⟨hH, vH⟩ := decimalDigits_spec H
  obtain ⟨hM, vM⟩ := decimalDigits_spec M
  obtain ⟨hS, vS⟩ := decimalDigits_spec S
  obtain ⟨hM2, vM2⟩ := padStart2_spec _ hM
  obtain ⟨hS2, vS2⟩ := padStart2_spec _ hS
  have htrim := jsTrim_eq_self_of_digit_ends
    (decimalDigits H ++ ':' :: (padStart2 (decimalDigits M) ++ ':' :: padStart2 (decimalDigits S)))
    (decimalDigits H)
    (':' :: (padStart2 (decimalDigits M) ++ ':' :: padStart2 (decimalDigits S)))
    (decimalDigits H ++ ':' :: (padStart2 (decimalDigits M) ++ [':']))
    (padStart2 (decimalDigits S)) rfl (by simp) hH hS2
  simp only [Seek._parseTime, List.append_assoc, List.cons_append]
  rw [parseTime_hours_raw _ _ _ _ htrim hH hM2 hS2, vH, vM2, vM, vS2, vS]

/-! ## The claims on time strings -/

/-- C30, amended: for every integer `ms` with `0 ≤ ms < 2^53`, the string
`formatDuration` prints for it parses back, through `Seek._parseTime`, to `ms`
truncated to whole seconds. -/
theorem parseTime_formatDuration (ms : Nat) (h : ms < 2 ^ 53) :
    Seek._parseTime (formatDuration ms) = some (((ms / 1000 * 1000 : Nat)) : Int) := by
  by_cases h0 : ms = 0
  · subst h0
    decide
  · obtain ⟨hH, vH⟩ := decimalDigits_spec (ms / (1000 * 60 * 60))
    obtain ⟨hM, vM⟩ := decimalDigits_spec ((ms / (1000 * 60)) % 60)
    obtain ⟨hS, vS⟩ := decimalDigits_spec ((ms / 1000) % 60)
    obtain ⟨hM2, vM2⟩ := padStart2_spec _ hM
    obtain ⟨hS2, vS2⟩ := padStart2_spec _ hS
    obtain ⟨pS, pM, pH⟩ := formatDuration_parts ms h
    simp only [Seek._parseTime, formatDuration, if_neg h0, pS, pM, pH]
    split
    · next hpos =>
      have htrim := jsTrim_eq_self_of_digit_ends
        (decimalDigits (ms / (1000 * 60 * 60)) ++
          ':' :: (padStart2 (decimalDigits ((ms / (1000 * 60)) % 60)) ++
            ':' :: padStart2 (decimalDigits ((ms / 1000) % 60))))
        (decimalDigits (ms / (1000 * 60 * 60)))
        (':' :: (padStart2 (decimalDigits ((ms / (1000 * 60)) % 60)) ++
            ':' :: padStart2 (decimalDigits ((ms / 1000) % 60))))
        (decimalDigits (ms / (1000 * 60 * 60)) ++
          ':' :: (padStart2 (decimalDigits ((ms / (1000 * 60)) % 60)) ++ [':']))
        (padStart2 (decimalDigits ((ms / 1000) % 60))) rfl (by simp) hH hS2
      simp only [List.append_assoc, List.cons_append]
      have harith : (ms / (1000 * 60 * 60) * 3600 + ms / (1000 * 60) % 60 * 60 + ms / 1000 % 60)
          * 1000 = ms / 1000 * 1000 := by
        omega
      have hbound : (digitsValue (decimalDigits (ms / (1000 * 60 * 60))) * 3600 +
          digitsValue (padStart2 (decimalDigits ((ms / (1000 * 60)) % 60))) * 60 +
          digitsValue (padStart2 (decimalDigits ((ms / 1000) % 60)))) * 1000 < 2 ^ 53 := by
        rw [vH, vM2, vM, vS2, vS, harith]
        omega
      rw [parseTime_hours _ _ _ _ htrim hH hM2 hS2 hbound, vH, vM2, vM, vS2, vS, harith]
    · next hzero =>
      have htrim := jsTrim_eq_self_of_digit_ends
        (decimalDigits ((ms / (1000 * 60)) % 60) ++
          ':' :: padStart2 (decimalDigits ((ms / 1000) % 60)))
        (decimalDigits ((ms / (1000 * 60)) % 60))
        (':' :: padStart2 (decimalDigits ((ms / 1000) % 60)))
        (decimalDigits ((ms / (1000 * 60)) % 60) ++ [':'])
        (padStart2 (decimalDigits ((ms / 1000) % 60))) rfl (by simp) hM hS2
      have harith : (ms / (1000 * 60) % 60 * 60 + ms / 1000 % 60) * 1000 = ms / 1000 * 1000 := by
        have hlt : ms / (1000 * 60 * 60) = 0 := by omega
        omega
      have hbound : (digitsValue (decimalDigits ((ms / (1000 * 60)) % 60)) * 60 +
          digitsValue (padStart2 (decimalDigits ((ms / 1000) % 60)))) * 1000 < 2 ^ 53 := by
        rw [vM, vS2, vS, harith]
        omega
      rw [parseTime_minutes _ _ _ htrim hM hS2 hbound, vM, vS2, vS, harith]

/-- Witness of C30: 90500 ms is printed as `1:30` and parses back to 90000. -/
theorem parseTime_formatDuration_witness :
    (90500 : Nat) < 2 ^ 53 ∧ Seek._parseTime (formatDuration 90500) = some 90000 :=
  ⟨by norm_num, parseTime_formatDuration 90500 (by norm_num)⟩

/-- C30, counterexample.  For `ms = 2^63` the quotient `ms / 1000` is rounded
up to the double 9223372036854776, so `formatDuration` prints 56 seconds where
`ms` truncated to whole seconds has 55, and the string parses back to 2^63,
not to 9223372036854775000.  For `ms = 2^47 * 1000 + 992` it prints 9 seconds
where the truncation has 8, and the string parses back to `ms` itself, which
is not a whole number of seconds. -/
theorem parseTime_formatDuration_large :
    formatDuration 9223372036854775808 = "2562047788015:12:56" ∧
    Seek._parseTime (formatDuration 9223372036854775808) = some 9223372036854775808 ∧
    (9223372036854775808 / 1000 * 1000 : Nat) = 9223372036854775000 ∧
    (9223372036854775808 / 1000 % 60 : Nat) = 55 ∧
    formatDuration 140737488355328992 = "39093746765:22:09" ∧
    Seek._parseTime (formatDuration 140737488355328992) = some 140737488355328992 ∧
    (140737488355328992 / 1000 * 1000 : Nat) = 140737488355328000 ∧
    (140737488355328992 / 1000 % 60 : Nat) = 8 := by
  have a1 : toDouble (((9223372036854775808 : ℕ) : ℚ) / 1000) =
      4611686018427388 * 2 ^ (1 : ℤ) := by
    apply toDouble_eval
    · norm_num
    · norm_num
    · apply roundTiesEven_eq_of_lt <;> norm_num
  have a2 : toDouble (((9223372036854775808 : ℕ) : ℚ) / (1000 * 60)) =
      4919131752989214 * 2 ^ (-5 : ℤ) := by
    apply toDouble_eval
    · norm_num
    · norm_num
    · apply roundTiesEven_eq_of_lt <;> norm_num
  have a3 : toDouble (((9223372036854775808 : ℕ) : ℚ) / (1000 * 60 * 60)) =
      5247073869855161 * 2 ^ (-11 : ℤ) := by
    apply toDouble_eval
    · norm_num
    · norm_num
    · apply roundTiesEven_eq_of_lt <;> norm_num
  have aS : ⌊jsMod (toDouble (((9223372036854775808 : ℕ) : ℚ) / 1000)) 60⌋.toNat = 56 := by
    rw [a1, floor_jsMod _ 9223372036854776 (by apply floor_eval <;> norm_num)]
  have aM : ⌊jsMod (toDouble (((9223372036854775808 : ℕ) : ℚ) / (1000 * 60))) 60⌋.toNat = 12 := by
    rw [a2, floor_jsMod _ 153722867280912 (by apply floor_eval <;> norm_num)]
  have aH : ⌊toDouble (((9223372036854775808 : ℕ) : ℚ) / (1000 * 60 * 60))⌋.toNat =
      2562047788015 := by
    rw [a3, floor_eval _ 2562047788015 (by norm_num) (by norm_num)]
    rfl
  have aF := formatDuration_eq 9223372036854775808 2562047788015 12 56 (by norm_num)
    (by norm_num) aS aM aH
  have aV : jsMul (jsAdd (jsAdd (jsMul (roundInt ((2562047788015 : ℕ) : ℤ)) 3600)
      (jsMul (roundInt ((12 : ℕ) : ℤ)) 60)) (roundInt ((56 : ℕ) : ℤ))) 1000 =
      9223372036854775808 := by
    rw [roundInt_of_lt _ (by norm_num), roundInt_of_lt _ (by norm_num),
      roundInt_of_lt _ (by norm_num), jsMul_of_lt _ 60 (by norm_num)]
    have m1 : jsMul ((2562047788015 : ℕ) : ℤ) 3600 = 9223372036854000 := by
      unfold jsMul
      rw [roundInt_eval _ 4611686018427000 1 (by norm_num) (by norm_num) (by norm_num)
        (by apply roundTiesEven_eq_of_lt <;> norm_num)]
      norm_num
    have m2 : jsAdd 9223372036854000 (((12 : ℕ) : ℤ) * 60) = 9223372036854720 := by
      unfold jsAdd
      rw [roundInt_eval _ 4611686018427360 1 (by norm_num) (by norm_num) (by norm_num)
        (by apply roundTiesEven_eq_of_lt <;> norm_num)]
      norm_num
    have m3 : jsAdd 9223372036854720 ((56 : ℕ) : ℤ) = 9223372036854776 := by
      unfold jsAdd
      rw [roundInt_eval _ 4611686018427388 1 (by norm_num) (by norm_num) (by norm_num)
        (by apply roundTiesEven_eq_of_lt <;> norm_num)]
      norm_num
    have m4 : jsMul 9223372036854776 1000 = 9223372036854775808 := by
      unfold jsMul
      rw [roundInt_eval _ 4503599627370496 11 (by norm_num) (by norm_num) (by norm_num)
        (by apply roundTiesEven_eq_of_lt <;> norm_num)]
      norm_num
    rw [m1, m2, m3, m4]
  have b1 : toDouble (((140737488355328992 : ℕ) : ℚ) / 1000) =
      4503599627370528 * 2 ^ (-5 : ℤ) := by
    apply toDouble_eval
    · norm_num
    · norm_num
    · apply roundTiesEven_eq_of_lt <;> norm_num
  have b2 : toDouble (((140737488355328992 : ℕ) : ℚ) / (1000 * 60)) =
      4803839602528563 * 2 ^ (-11 : ℤ) := by
    apply toDouble_eval
    · norm_num
    · norm_num
    · apply roundTiesEven_eq_of_lt <;> norm_num
  have b3 : toDouble (((140737488355328992 : ℕ) : ℚ) / (1000 * 60 * 60)) =
      5124095576030467 * 2 ^ (-17 : ℤ) := by
    apply toDouble_eval
    · norm_num
    · norm_num
    · apply roundTiesEven_eq_of_lt <;> norm_num
  have bS : ⌊jsMod (toDouble (((140737488355328992 : ℕ) : ℚ) / 1000)) 60⌋.toNat = 9 := by
    rw [b1, floor_jsMod _ 140737488355329 (by apply floor_eval <;> norm_num)]
  have bM : ⌊jsMod (toDouble (((140737488355328992 : ℕ) : ℚ) / (1000 * 60))) 60⌋.toNat = 22 := by
    rw [b2, floor_jsMod _ 2345624805922 (by apply floor_eval <;> norm_num)]
  have bH : ⌊toDouble (((140737488355328992 : ℕ) : ℚ) / (1000 * 60 * 60))⌋.toNat =
      39093746765 := by
    rw [b3, floor_eval _ 39093746765 (by norm_num) (by norm_num)]
    rfl
  have bF := formatDuration_eq 140737488355328992 39093746765 22 9 (by norm_num)
    (by norm_num) bS bM bH
  have bV : jsMul (jsAdd (jsAdd (jsMul (roundInt ((39093746765 : ℕ) : ℤ)) 3600)
      (jsMul (roundInt ((22 : ℕ) : ℤ)) 60)) (roundInt ((9 : ℕ) : ℤ))) 1000 =
      140737488355328992 := by
    rw [roundInt_of_lt _ (by norm_num), roundInt_of_lt _ (by norm_num),
      roundInt_of_lt _ (by norm_num), jsMul_of_lt _ 60 (by norm_num),
      jsMul_of_lt _ 3600 (by norm_num), jsAdd_of_lt _ (((22 : ℕ) : ℤ) * 60) (by norm_num),
      jsAdd_of_lt _ ((9 : ℕ) : ℤ) (by norm_num)]
    unfold jsMul
    rw [roundInt_eval _ 8796093022208062 4 (by norm_num) (by norm_num) (by norm_num)
      (by rw [roundTiesEven_tie _ 8796093022208062 (by norm_num)]; norm_num)]
    norm_num
  refine ⟨?_, ?_, by norm_num, by norm_num, ?_, ?_, by norm_num, by norm_num⟩
  · rw [aF]
    simp [decimalDigits, padStart2]
  · rw [aF, parseTime_formatted, aV]
  · rw [bF]
    simp [decimalDigits, padStart2]
  · rw [bF, parseTime_formatted, bV]

/-- C21, counterexample: `1:30abc` is not one of the documented forms (its
second group is not a run of digits), and `Seek._parseTime` answers 90000,
not `null`; so it does for ` 1: 30`, and for `-1:30` it answers -30000. -/
theorem parseTime_accepts_trailing_text :
    Seek._parseTime "1:30abc" = some 90000 ∧
    splitOn ':' (jsTrim "1:30abc".data) = ["1".data, "30abc".data] ∧
    allDigits "30abc".data = false ∧
    Seek._parseTime " 1: 30" = some 90000 ∧
    Seek._parseTime "-1:30" = some (-30000) := by
  decide

/-- C21, amended.  On a trimmed input of the form `s`, `m:s` or `h:m:s` with
every group a non-empty run of digits, `Seek._parseTime` answers
`(h*3600 + m*60 + s)*1000`, provided that number is below 2^53.  It answers
`null` exactly on the empty string and on an input that is not a run of digits
and either does not split at the colons into 2 or 3 groups or has a group of
which `parseInt` reads no number.  On every other input, which splits into 2
or 3 groups of which `parseInt` reads the numbers `v`, it answers
`(v1*60 + v2)*1000` or `(v1*3600 + v2*60 + v3)*1000`, provided
`(|v1|*3600 + |v2|*60 + |v3|)*1000` is below 2^53.  The documented examples
are part of the statement. -/
theorem parseTime_spec (timeStr : String) :
    (∀ s, jsTrim timeStr.data = s → allDigits s = true → digitsValue s * 1000 < 2 ^ 53 →
      Seek._parseTime timeStr = some (((digitsValue s * 1000 : Nat)) : Int)) ∧
    (∀ m s, jsTrim timeStr.data = m ++ ':' :: s → allDigits m = true → allDigits s = true →
      (digitsValue m * 60 + digitsValue s) * 1000 < 2 ^ 53 →
      Seek._parseTime timeStr =
        some ((((digitsValue m * 60 + digitsValue s) * 1000 : Nat)) : Int)) ∧
    (∀ h m s, jsTrim timeStr.data = h ++ ':' :: (m ++ ':' :: s) → allDigits h = true →
      allDigits m = true → allDigits s = true →
      (digitsValue h * 3600 + digitsValue m * 60 + digitsValue s) * 1000 < 2 ^ 53 →
      Seek._parseTime timeStr =
        some ((((digitsValue h * 3600 + digitsValue m * 60 + digitsValue s) * 1000 : Nat)) : Int)) ∧
    (Seek._parseTime timeStr = none ↔
      timeStr.data = [] ∨ (allDigits (jsTrim timeStr.data) = false ∧
        (((splitOn ':' (jsTrim timeStr.data)).length ≠ 2 ∧
            (splitOn ':' (jsTrim timeStr.data)).length ≠ 3) ∨
          ∃ g ∈ splitOn ':' (jsTrim timeStr.data), parseInt g = none))) ∧
    (∀ a b va vb, allDigits (jsTrim timeStr.data) = false →
      splitOn ':' (jsTrim timeStr.data) = [a, b] → parseInt a = some va →
      parseInt b = some vb → (va.natAbs * 60 + vb.natAbs) * 1000 < 2 ^ 53 →
      Seek._parseTime timeStr = some ((va * 60 + vb) * 1000)) ∧
    (∀ a b c va vb vc, allDigits (jsTrim timeStr.data) = false →
      splitOn ':' (jsTrim timeStr.data) = [a, b, c] → parseInt a = some va →
      parseInt b = some vb → parseInt c = some vc →
      (va.natAbs * 3600 + vb.natAbs * 60 + vc.natAbs) * 1000 < 2 ^ 53 →
      Seek._parseTime timeStr = some ((va * 3600 + vb * 60 + vc) * 1000)) ∧
    (Seek._parseTime "1:30" = some 90000 ∧ Seek._parseTime "90" = some 90000 ∧
      Seek._parseTime "2:30:00" = some 9000000 ∧ Seek._parseTime "" = none ∧
      Seek._parseTime "abc" = none) := by
  refine ⟨?_, ?_, ?_, ?_, ?_, ?_, by decide⟩
  · intro s hs hd hb
    exact parseTime_seconds _ _ hs hd hb
  · intro m s hs hm hd hb
    exact parseTime_minutes _ _ _ hs hm hd hb
  · intro h m s hs hh hm hd hb
    exact parseTime_hours _ _ _ _ hs hh hm hd hb
  · exact parseTimeChars_eq_none_iff _
  · intro a b va vb hd hsplit ha hb hbound
    rw [Seek._parseTime, (parseTime_groups_raw _ hd).1 a b va vb hsplit ha hb,
      parseValue_exact2 va vb hbound]
  · intro a b c va vb vc hd hsplit ha hb hc hbound
    rw [Seek._parseTime, (parseTime_groups_raw _ hd).2 a b c va vb vc hsplit ha hb hc,
      parseValue_exact3 va vb vc hbound]

/-! ## Lemmas on favorites -/

theorem favorite_addTrack_invariant (saveOk : Bool) (tracks : List StoredTrack)
    (track : TrackInput) (hlen : tracks.length ≤ 100)
    (hnodup : (tracks.map (fun t => t.uri)).Nodup) :
    (Favorite.addTrack saveOk tracks track).2.length ≤ 100 ∧
    ((Favorite.addTrack saveOk tracks track).2.map (fun t => t.uri)).Nodup := by
  simp only [Favorite.addTrack]
  split
  · exact ⟨hlen, hnodup⟩
  · next hdup =>
    split
    · exact ⟨hlen, hnodup⟩
    · next hfull =>
      split
      · refine ⟨?_, ?_⟩
        · simp only [List.length_append, List.length_singleton]
          omega
        · rw [List.map_append, List.nodup_append]
          refine ⟨hnodup, by simp, ?_⟩
          intro u hu1 hu2
          simp only [List.map_cons, List.map_nil, List.mem_singleton] at hu2
          obtain ⟨t, ht, htu⟩ := List.mem_map.mp hu1
          apply hdup
          rw [List.any_eq_true]
          exact ⟨t, ht, by simp [htu, hu2, storedOf]⟩
      · exact ⟨hlen, hnodup⟩

theorem favorite_addTracks_invariant (calls : List (Bool × TrackInput)) :
    ∀ tracks : List StoredTrack, tracks.length ≤ 100 →
      (tracks.map (fun t => t.uri)).Nodup →
      (Favorite.addTracks tracks calls).length ≤ 100 ∧
      ((Favorite.addTracks tracks calls).map (fun t => t.uri)).Nodup := by
  induction calls with
  | nil =>
    intro tracks hlen hnodup
    exact ⟨hlen, hnodup⟩
  | cons c rest ih =>
    intro tracks hlen hnodup
    obtain ⟨h1, h2⟩ := favorite_addTrack_invariant c.1 tracks c.2 hlen hnodup
    exact ih _ h1 h2

/-! ## The claims on favorites and playlists -/

/-- C22: `Favorite.addTrack` adds the track exactly when no stored favorite
has its uri, fewer than 100 favorites are stored and the save resolves; the
track is then appended at the end, and otherwise the list is unchanged.  From
a list of at most 100 tracks with pairwise distinct uris, every sequence of
`addTrack` calls leaves at most 100 tracks with pairwise distinct uris. -/
theorem favorite_addTrack_spec (saveOk : Bool) (tracks : List StoredTrack) (track : TrackInput)
    (calls : List (Bool × TrackInput)) (hlen : tracks.length ≤ 100)
    (hnodup : (tracks.map (fun t => t.uri)).Nodup) :
    ((Favorite.addTrack saveOk tracks track).1 = .added ↔
      (∀ t ∈ tracks, t.uri ≠ track.uri) ∧ tracks.length < 100 ∧ saveOk = true) ∧
    ((Favorite.addTrack saveOk tracks track).1 = .added →
      (Favorite.addTrack saveOk tracks track).2 = tracks ++ [storedOf track] ∧
      (storedOf track).uri = track.uri) ∧
    ((Favorite.addTrack saveOk tracks track).1 ≠ .added →
      (Favorite.addTrack saveOk tracks track).2 = tracks) ∧
    (Favorite.addTracks tracks calls).length ≤ 100 ∧
    ((Favorite.addTracks tracks calls).map (fun t => t.uri)).Nodup := by
  refine ⟨?_, ?_, ?_, favorite_addTracks_invariant calls tracks hlen hnodup⟩
  · simp only [Favorite.addTrack]
    by_cases hdup : tracks.any (fun t => decide (t.uri = track.uri)) = true
    · have hex : ¬ ∀ t ∈ tracks, t.uri ≠ track.uri := by
        rw [List.any_eq_true] at hdup
        obtain ⟨t, ht, htu⟩ := hdup
        intro hall
        exact hall t ht (by simpa using htu)
      simp [hdup, hex]
    · have hall : ∀ t ∈ tracks, t.uri ≠ track.uri := by
        intro t ht htu
        apply hdup
        rw [List.any_eq_true]
        exact ⟨t, ht, by simp [htu]⟩
      by_cases hfull : tracks.length ≥ 100
      · have hnot : ¬ tracks.length < 100 := by omega
        simp [hdup, hfull, hnot]
      · have hlt : tracks.length < 100 := by omega
        cases saveOk
        · simp [hdup, hfull]
        · simp only [hdup, hfull, hlt, Bool.false_eq_true, if_false, if_true, and_self, and_true,
            true_iff]
          exact hall
  · simp only [Favorite.addTrack]
    split
    · intro h; cases h
    · split
      · intro h; cases h
      · split
        · intro _; exact ⟨rfl, rfl⟩
        · intro h; cases h
  · simp only [Favorite.addTrack]
    split
    · intro _; rfl
    · split
      · intro _; rfl
      · split
        · intro h; exact absurd rfl h
        · intro _; rfl

/-- Witness of C22: two different tracks and a repeated one are added to the
empty list of favorites. -/
theorem favorite_addTrack_spec_witness :
    (([] : List StoredTrack).length ≤ 100 ∧
      (([] : List StoredTrack).map (fun t => t.uri)).Nodup) ∧
    (Favorite.addTracks [] [(true, trackInputOf "a"), (true, trackInputOf "b"),
      (true, trackInputOf "a")]).length ≤ 100 :=
  ⟨by decide,
    (favorite_addTrack_spec true [] (trackInputOf "a") [(true, trackInputOf "a"),
      (true, trackInputOf "b"), (true, trackInputOf "a")] (by decide) (by decide)).2.2.2.1⟩

/-- C29, evaluated at a failing input: the current track and the only queued
track have the same uri; the command reports 2 saved tracks and the playlist
it created holds 1. -/
theorem playlistSave_reports_more_than_stored :
    PlaylistSave.run true (some "voice")
        (some ⟨"voice", some (trackInputOf "a"), [trackInputOf "a"]⟩) "mix" none =
      ⟨.queueSaved 2, some [storedOf (trackInputOf "a")]⟩ ∧
    [storedOf (trackInputOf "a")].length = 1 := by
  decide

/-! ## Lemmas on moving a track -/

theorem perm_cons_eraseIdx {α : Type} (l : List α) :
    ∀ (k : Nat) (x : α), l[k]? = some x → (x :: l.eraseIdx k).Perm l := by
  induction l with
  | nil => intro k x h; simp at h
  | cons a rest ih =>
    intro k x h
    cases k with
    | zero =>
      simp only [List.getElem?_cons_zero, Option.some.injEq] at h
      subst h
      exact List.Perm.refl _
    | succ k =>
      simp only [List.getElem?_cons_succ] at h
      simp only [List.eraseIdx_cons_succ]
      exact (List.Perm.swap a x _).trans ((ih k x h).cons a)

theorem eraseIdx_append_cons {α : Type} (a b : List α) (x : α) :
    (a ++ x :: b).eraseIdx a.length = a ++ b := by
  induction a with
  | nil => rfl
  | cons c rest ih => simp [ih]

/-- Lines 86-89 of `Move.js` on valid positions: the queue is permuted, the
moved track lands at its new position and the rest keeps its order. -/
theorem moveTrack_spec {α : Type} (l : List α) (i j : Nat) (hi1 : 1 ≤ i) (hi2 : i ≤ l.length)
    (hj1 : 1 ≤ j) (hj2 : j ≤ l.length) :
    (moveTrack l i j).Perm l ∧ (moveTrack l i j).length = l.length ∧
    (moveTrack l i j)[j - 1]? = l[i - 1]? ∧
    (moveTrack l i j).eraseIdx (j - 1) = l.eraseIdx (i - 1) := by
  have hlt : i - 1 < l.length := by omega
  have hget : l[i - 1]? = some l[i - 1] := List.getElem?_eq_getElem hlt
  have hlen : (l.eraseIdx (i - 1)).length = l.length - 1 := List.length_eraseIdx_of_lt hlt
  have htake : ((l.eraseIdx (i - 1)).take (j - 1)).length = j - 1 := by
    rw [List.length_take, hlen]
    omega
  simp only [moveTrack, hget, spliceInsert]
  refine ⟨?_, ?_, ?_, ?_⟩
  · refine List.perm_middle.trans ?_
    rw [List.take_append_drop]
    exact perm_cons_eraseIdx l (i - 1) _ hget
  · simp only [List.length_append, List.length_cons, List.length_take, List.length_drop, hlen]
    omega
  · rw [List.getElem?_append_right (by omega), htake]
    simp
  · have h := eraseIdx_append_cons ((l.eraseIdx (i - 1)).take (j - 1))
      ((l.eraseIdx (i - 1)).drop (j - 1)) l[i - 1]
    rw [htake, List.take_append_drop] at h
    exact h

/-! ## The claims on the queue, the bars and seeking -/

/-- C23: when the move command passes its checks with two different
positions between 1 and the length of the queue, the new queue is a
permutation of the old one of the same length, the track that was at position
`from` is at position `to`, and the other tracks keep their order; with a
position outside that range, or equal positions, the session is unchanged. -/
theorem move_permutes_or_leaves (memberVoice : Option String) (fromArg toArg : JsNum)
    (s : Session) :
    (∀ p fromPos toPos, s.player = some p → p.current.isSome = true →
      memberVoice = some p.voiceChannelId → fromArg = some fromPos → toArg = some toPos →
      1 ≤ fromPos → fromPos ≤ p.tracks.length → 1 ≤ toPos → toPos ≤ p.tracks.length →
      fromPos ≠ toPos →
      ∃ q, (Move.run memberVoice fromArg toArg s).2.player = some q ∧
        q.tracks.Perm p.tracks ∧ q.tracks.length = p.tracks.length ∧
        q.tracks[toPos.toNat - 1]? = p.tracks[fromPos.toNat - 1]? ∧
        q.tracks.eraseIdx (toPos.toNat - 1) = p.tracks.eraseIdx (fromPos.toNat - 1)) ∧
    (∀ p fromPos toPos, s.player = some p → fromArg = some fromPos → toArg = some toPos →
      (fromPos < 1 ∨ (p.tracks.length : Int) < fromPos ∨ toPos < 1 ∨
        (p.tracks.length : Int) < toPos ∨ fromPos = toPos) →
      (Move.run memberVoice fromArg toArg s).2 = s) := by
  constructor
  · intro p fromPos toPos hp hcur hm hf ht hf1 hf2 ht1 ht2 hne
    have hcur2 : p.current.isNone = false := by
      cases hc : p.current with
      | none => simp [hc] at hcur
      | some t => rfl
    have hf0 : ¬ (fromPos = 0 ∨ toPos = 0) := by omega
    have hrange : ¬ (fromPos < 1 ∨ fromPos > (p.tracks.length : Int) ∨ toPos < 1 ∨
        toPos > (p.tracks.length : Int)) := by omega
    refine ⟨{ p with tracks := moveTrack p.tracks fromPos.toNat toPos.toNat }, ?_, ?_⟩
    · simp [Move.run, hm, hp, hcur2, hf, ht, hf0, hrange, hne]
    · exact moveTrack_spec p.tracks fromPos.toNat toPos.toNat (by omega) (by omega) (by omega)
        (by omega)
  · intro p fromPos toPos hp hf ht hbad
    simp only [Move.run]
    cases memberVoice with
    | none => rfl
    | some vc =>
      simp only [hp, hf, ht]
      split
      · rfl
      · split
        · rfl
        · split
          · rfl
          · split
            · rfl
            · split
              · rfl
              · next h0 hrange heq =>
                exfalso
                rcases hbad with h | h | h | h | h
                · exact hrange (Or.inl h)
                · exact hrange (Or.inr (Or.inl h))
                · exact hrange (Or.inr (Or.inr (Or.inl h)))
                · exact hrange (Or.inr (Or.inr (Or.inr h)))
                · exact heq h

theorem cells_15_22_11 : progressCells 15 22 11 = 7 := by
  apply progressCells_eq 15 22 11 (6141272219141585 * 2 ^ (-53 : ℤ))
    (8444249301319679 * 2 ^ (-50 : ℤ)) 7
  · apply toDouble_eval
    · norm_num
    · norm_num
    · apply roundTiesEven_eq_of_lt <;> norm_num
  · apply toDouble_eval
    · norm_num
    · norm_num
    · apply roundTiesEven_eq_of_lt <;> norm_num
  · norm_num
  · norm_num

theorem cells_big : progressCells 3752999689475413 4503599627370496 3 = 3 := by
  apply progressCells_eq _ _ _ (7505999378950826 * 2 ^ (-53 : ℤ))
    (5629499534213120 * 2 ^ (-51 : ℤ)) 3
  · apply toDouble_eval
    · norm_num
    · norm_num
    · apply roundTiesEven_eq_of_lt <;> norm_num
  · apply toDouble_eval
    · norm_num
    · norm_num
    · rw [roundTiesEven_tie _ 5629499534213119 (by norm_num)]
      norm_num
  · norm_num
  · norm_num

/-- C24, counterexample.  At position 15 of 22 on a bar of 11 cells the exact
quotient is 7.5, which rounds to 8, and the bar has 7 filled cells: the double
`11 * (15 / 22)` lies just below 7.5.  At position 3752999689475413 of 2^52 on
a bar of 3 cells all 3 cells are filled although the quotient is below 2.5, so
that 3 is not the nearest integer. -/
theorem progressBar_not_nearest :
    createProgressBar 15 22 11 = some (List.replicate 7 '▓' ++ List.replicate 4 '░') ∧
    roundDiv (11 * 15) 22 = 8 ∧
    createProgressBar 3752999689475413 4503599627370496 3 = some (List.replicate 3 '▓') ∧
    2 * (3 * 3752999689475413) + 4503599627370496 < 2 * (3 * 4503599627370496) := by
  refine ⟨?_, by decide, ?_, by norm_num⟩
  · exact createProgressBar_eq 15 22 11 7 (by norm_num) cells_15_22_11 (by norm_num)
  · have h := createProgressBar_eq 3752999689475413 4503599627370496 3 3 (by norm_num)
      cells_big (by norm_num)
    simpa using h

/-- C24, amended: for `0 < total < 2^53`, `current ≤ total` and `size < 2^24`,
`createProgressBar` returns a bar of exactly `size` cells: `p` filled cells
followed by `size - p` empty ones, with `p ≤ size` the value `Math.round`
gives for the double `size * (current / total)`.  When `size * total < 2^51`,
`p` is within one half of the exact `size * current / total`. -/
theorem progressBar_has_size_cells (current total size : Nat) (htotal : 0 < total)
    (hcur : current ≤ total) (hsafe : total < 2 ^ 53) (hsize : size < 2 ^ 24) :
    ∃ p : Nat, p ≤ size ∧
      progressCells current total size = p ∧
      createProgressBar current total size =
        some (List.replicate p '▓' ++ List.replicate (size - p) '░') ∧
      (∀ bar, createProgressBar current total size = some bar → bar.length = size) ∧
      (size * total < 2 ^ 51 →
        2 * (p * total) ≤ 2 * (size * current) + total ∧
        2 * (size * current) ≤ 2 * (p * total) + total) := by
  have _ := hsafe
  obtain ⟨h0, h1⟩ := progressCells_bounds current total size htotal hcur (by omega)
  have hp : progressCells current total size = ((progressCells current total size).toNat : ℤ) := by
    omega
  have hle : (progressCells current total size).toNat ≤ size := by omega
  have hbar := createProgressBar_eq current total size _ htotal hp hle
  refine ⟨(progressCells current total size).toNat, hle, hp, hbar, ?_, ?_⟩
  · intro bar hb
    rw [hbar] at hb
    cases hb
    simp only [List.length_append, List.length_replicate]
    omega
  · intro hsmall
    obtain ⟨n1, n2⟩ := progressCells_nearest current total size htotal hcur hsmall
    rw [hp] at n1 n2
    constructor
    · exact_mod_cast n1
    · exact_mod_cast n2

/-- Witness of C24: position 30 of 60 on a bar of 12 cells. -/
theorem progressBar_has_size_cells_witness :
    ((0 : Nat) < 60 ∧ (30 : Nat) ≤ 60 ∧ (60 : Nat) < 2 ^ 53 ∧ (12 : Nat) < 2 ^ 24) ∧
    ∃ p : Nat, p ≤ 12 ∧
      progressCells 30 60 12 = p ∧
      createProgressBar 30 60 12 =
        some (List.replicate p '▓' ++ List.replicate (12 - p) '░') ∧
      (∀ bar, createProgressBar 30 60 12 = some bar → bar.length = 12) ∧
      (12 * 60 < 2 ^ 51 →
        2 * (p * 60) ≤ 2 * (12 * 30) + 60 ∧ 2 * (12 * 30) ≤ 2 * (p * 60) + 60) :=
  ⟨by norm_num, progressBar_has_size_cells 30 60 12 (by norm_num) (by norm_num) (by norm_num)
    (by norm_num)⟩

/-- C27, evaluated at a failing input: for the volumes 110 and 150, which the
volume command permits, the volume bar of the now-playing button asks `repeat`
for a negative number of cells and throws; at 109 it still has its 10 cells.
The bar of the volume command clamps both counts and does not throw. -/
theorem volume_button_bar_throws :
    TrackStart.volumeBar 110 = none ∧ TrackStart.volumeBar 150 = none ∧
    TrackStart.volumeBar 109 = some (List.replicate 10 '█') ∧
    Volume._createVolumeBar 150 = some (List.replicate 15 '▓') := by
  decide

/-- With a non-negative `seconds` argument both commands stay inside the
track: each clamps the side its own direction can leave. -/
theorem forward_backward_in_range (position duration : Int) (secondsArg : JsNum)
    (hpos : 0 ≤ position) (hdur : position ≤ duration)
    (hsec : ∀ n, secondsArg = some n → 0 ≤ n) :
    (0 ≤ Forward.newPosition position duration secondsArg ∧
      Forward.newPosition position duration secondsArg ≤ duration) ∧
    (0 ≤ Backward.newPosition position secondsArg ∧
      Backward.newPosition position secondsArg ≤ duration) := by
  have hs : 0 ≤ secondsOrDefault secondsArg := by
    cases hsa : secondsArg with
    | none => simp [secondsOrDefault]
    | some n =>
      have hn := hsec n hsa
      simp only [secondsOrDefault]
      split <;> omega
  simp only [Forward.newPosition, Backward.newPosition]
  omega

/-- C28, evaluated at a failing input: with `seconds = -30`, at position
10000 of a track of 200000 ms the forward command passes -20000 to
`player.seek`, and at position 190000 the backward command passes 220000. -/
theorem forward_backward_leave_track :
    Forward.newPosition 10000 200000 (some (-30)) = -20000 ∧
    Backward.newPosition 190000 (some (-30)) = 220000 := by
  decide

/-! ## The claims on saved settings -/

/-- C25: when the store write resolves, the document `savePlayerState` writes
for a player is filed under the player's guild id, carries the bot id of the
client and `destroyed = false`, has no current track exactly when the player
has none and otherwise the current track's `info` and `requester`, and has
the queued tracks in the same number and order, each with its `info` and
`requester`. -/
theorem savePlayerState_snapshot (botId : String) (p : Player) (s : Session) :
    (savePlayerState botId true p s).snapshot = some (snapshotOf botId p) ∧
    (snapshotOf botId p).doc._id = p.guildId ∧
    (snapshotOf botId p).botId = botId ∧
    (snapshotOf botId p).destroyed = false ∧
    ((snapshotOf botId p).doc.currentTrack = none ↔ p.current = none) ∧
    (∀ t, p.current = some t →
      (snapshotOf botId p).doc.currentTrack = some ⟨t.info, t.requester⟩) ∧
    (snapshotOf botId p).doc.queue.length = p.tracks.length ∧
    (∀ i : Nat,
      ((snapshotOf botId p).doc.queue[i]?).map (fun (t : SavedTrack) => (t.info, t.requester)) =
        (p.tracks[i]?).map (fun (t : SavedTrack) => (t.info, t.requester))) := by
  refine ⟨rfl, rfl, rfl, rfl, Iff.rfl, ?_, rfl, fun _ => rfl⟩
  intro t ht
  show p.current = _
  rw [ht]

/-- C26, evaluated at a failing input: the snapshot of the example scenario
with `autoPlay = true` is resumed, which sets the key `autoplay` on the
player; `savePlayerState` reads the key `autoPlay`, so the snapshot saved next
has `autoPlay = false`.  The same happens after the autoplay button has
switched autoplay on. -/
theorem autoplay_flag_not_saved :
    (scenario42 true 0).autoPlay = true ∧
    (resumedPlayer (scenario42 true 0)
      (resumePlayers exampleClient (.ok [scenario42 true 0])
        (fun _ => allResolve resolve123))).get "autoplay" = some true ∧
    (snapshotOf "bot-1" (resumedPlayer (scenario42 true 0)
      (resumePlayers exampleClient (.ok [scenario42 true 0])
        (fun _ => allResolve resolve123)))).doc.autoPlay = false ∧
    (TrackStart._handleAutoplay examplePlayer).get "autoplay" = some true ∧
    (snapshotOf "bot-1" (TrackStart._handleAutoplay examplePlayer)).doc.autoPlay = false := by
  simp only [resumePlayers, resumeLoop, resumeOne, tryBody, createAndRestore, restoreQueue_eq,
    loadedOf_eq]
  decide

end FilipinoMusic
